import Mathlib

/-!
# AaronOS kernel heap (`Kernel/Source/MemLib/CoreAlloc.c`)

A shallow embedding of the kernel heap allocator and the properties proved about it.

## How the C program is represented

* Pointers, `SizeT` and `UIntPtr` values are natural numbers; arithmetic on them is reduced
  modulo `2 ^ (8 * wordBytes)`.  The width is a field of `Target`, because the typedefs live in
  headers (`Defs.h`, `Number.h`) that are not part of the sources at hand.
* The heap of blocks is a typed store `blocks : Nat → MemBlk`, addressed by the block pointer.
  `NULL` is address `0`; the kernel runs without memory protection, so a store through a null
  `MemBlk*` is a store to the block at address `0`.
* `Index` is a total map from positions to headers.  Positions `0 .. 511` are the array of the
  C struct.  `MemAllocBlock` also reaches position `512`, one past the array, where the packed
  layout places `Prev`, `Next` and the five bytes behind the block.  The embedding gives that
  position a cell of its own: a store to it leaves the links as they are, and a store to a
  link leaves it as it is.  The states used in the examples hold at position 512 what the
  layout decodes from their links, and no statement follows a link after a store to
  position 512.
* Blocks at different addresses are different cells of the store; they do not overlap.
* Data bytes (what `MemFree` and `MemResize` read and zero) are a separate `Memory`; header
  storage and data bytes do not alias in the embedding, whereas on the machine a pointer can
  lie inside a header array.  `KState.image` gives the bytes of the header array of the base
  block as a load through a `char*` finds them, and `Memory.apart` says that a string lies
  outside the storage of a block; a statement about the bytes a call reaches through a
  pointer is made with the one or the other.
* The global `Result` and the codes written to it are symbolic (`ResultCode`): the `ERR_`
  codes come from `DT/Result.h`, which is absent, so only their names are known.
* `Check` failures and the `int $25` trap end a call with `Outcome.fatal`.  Loops whose
  termination depends on the state (`while (allocatedBlock == NULL)`, the walk along `Next`)
  take a fuel argument and end with `Outcome.outOfFuel` when it is used up.
-/

namespace AaronOS

/-! ## Constants -/

/-- The null pointer. -/
def NULL : Nat := 0

/-- Sentinel of `CoreAlloc.h`: `#define MEM_MAGIC (0xAA5577)`. -/
def MEM_MAGIC : Int := 0xAA5577

/-- Slot count of `CoreAlloc.h`: `#define MEM_MAX_HEADERS (512U)`. -/
def MEM_MAX_HEADERS : Nat := 512

/-- Modelled from the spec: the macro `KIB` of `Defs.h` is absent; the spec gives the ceiling
`KIB * 4` of `MemReserveBlock` as 4 KiB, hence `KIB = 1024`. -/
def KIB : Nat := 1024

/-- Codes stored in the global `Result` and returned by `MemFree`.  The `MEM_` codes are the
macros of `CoreAlloc.h` (`-2`, `-3`, `-4`, `-5`, `-6`, `-7`, `-9` in that order); the `ERR_`
codes are those of the absent `DT/Result.h` that `CoreAlloc.c` uses. -/
inductive ResultCode where
  | ERR_SUCCESS
  | ERR_FAILURE
  | ERR_NULL
  | ERR_BAD_ACCESS
  | ERR_NOT_NULL
  | MEM_BAD_IDENT
  | MEM_NOT_ENABLED
  | MEM_INVALID_SIZE
  | MEM_POSSIBLE_OVERFLOW
  | MEM_UNAVAILABLE
  | MEM_OUT_OF_MEMORY
  | MEM_BAD_ARG
  deriving DecidableEq, Repr

open ResultCode

/-- Facts about the compilation target that the absent headers would fix. -/
structure Target where
  /-- Width in bytes of `VoidPtr`, `UIntPtr` and `SizeT`. -/
  wordBytes : Nat
  /-- Address of the static variable `gBaseAddress` (used by the size statistic only). -/
  baseVarAddr : Nat
  /-- Address of the static variable `gHighestAddress` (used by the size statistic only). -/
  highVarAddr : Nat

/-- Number of values of a machine word. -/
def Target.wordMod (T : Target) : Nat := 2 ^ (8 * T.wordBytes)

/-- Size of the packed `BlkHdr`: pointer, `Int32`, `UInt8`, `SizeT`. -/
def sizeofBlkHdr (T : Target) : Nat := T.wordBytes + 4 + 1 + T.wordBytes

/-- Size of the packed `MemBlk`: 512 headers and two pointers. -/
def sizeofMemBlk (T : Target) : Nat := MEM_MAX_HEADERS * sizeofBlkHdr T + 2 * T.wordBytes

/-- Word addition. -/
def addW (T : Target) (a b : Nat) : Nat := (a + b) % T.wordMod

/-- Word subtraction. -/
def subW (T : Target) (a b : Nat) : Nat := (a % T.wordMod + (T.wordMod - b % T.wordMod)) % T.wordMod

/-- Word negation. -/
def negW (T : Target) (a : Nat) : Nat := (T.wordMod - a % T.wordMod) % T.wordMod

/-- Pointer arithmetic `block + n` on a `MemBlk*`: `n` elements of `sizeof(MemBlk)` bytes. -/
def blkAdd (T : Target) (block n : Nat) : Nat := (block + n * sizeofMemBlk T) % T.wordMod

/-- Pointer arithmetic `values[n]` on a `char*`. -/
def charAdd (T : Target) (p n : Nat) : Nat := (p + n) % T.wordMod

/-! ## Data model -/

/-- The header of `CoreAlloc.h`. -/
structure BlkHdr where
  VirtualAddress : Nat
  Magic : Int
  Used : Bool
  Size : Nat

/-- The block of `CoreAlloc.h`. -/
structure MemBlk where
  Index : Nat → BlkHdr
  Prev : Nat
  Next : Nat

/-- The lock and one-entry cache of `CoreAlloc.c`. -/
structure AllocLock where
  bLocked : Bool
  lastLockedSize : Nat
  lastLockedAddr : Nat

/-- Data bytes.  Addresses at or above `limit` read as zero, so every string ends. -/
structure Memory where
  byte : Nat → Nat
  limit : Nat

/-- Read one byte. -/
def Memory.read (m : Memory) (a : Nat) : Nat := if a < m.limit then m.byte a else 0

/-- Write one byte. -/
def Memory.write (m : Memory) (a v : Nat) : Memory :=
  { byte := fun x => if x = a then v else m.read x, limit := max m.limit (a + 1) }

/-- Length of the string at `a`, looking at no more than `n` bytes. -/
def Memory.strlenFrom (m : Memory) : Nat → Nat → Nat
  | 0, _ => 0
  | n + 1, a => if m.read a = 0 then 0 else m.strlenFrom n (a + 1) + 1

/-- Modelled from the spec: `StringLength` of the absent `StringUtils.h`, the length of the
null-terminated string at `ptr`. -/
def StringLength (m : Memory) (ptr : Nat) : Nat := m.strlenFrom (m.limit - ptr) ptr

/-- Modelled from the spec: `SetMem` of the absent `StringUtils.h`, which fills `len` bytes
from `ptr` with `v`. -/
def SetMem (m : Memory) (ptr v : Nat) : Nat → Memory
  | 0 => m
  | len + 1 => (SetMem m ptr v len).write (ptr + len) v

/-- The statics of `CoreAlloc.c`, the global `Result`, the blocks and the data bytes. -/
structure KState where
  gAllocationEnabled : Bool
  gMemorySize : Nat
  gBaseAddress : Nat
  gHighestAddress : Nat
  gAllocLock : AllocLock
  Result : ResultCode
  blocks : Nat → MemBlk
  mem : Memory

/-- Header `block->Index[index]`. -/
def KState.hdr (s : KState) (block index : Nat) : BlkHdr := (s.blocks block).Index index

/-- Store to `block->Index[index]`. -/
def KState.setHdr (s : KState) (block index : Nat) (h : BlkHdr) : KState :=
  let b := s.blocks block
  { s with blocks := Function.update s.blocks block { b with Index := Function.update b.Index index h } }

/-- Store to `block->Next`. -/
def KState.setNext (s : KState) (block v : Nat) : KState :=
  let b := s.blocks block
  { s with blocks := Function.update s.blocks block { b with Next := v } }

/-- Store to `block->Prev`. -/
def KState.setPrev (s : KState) (block v : Nat) : KState :=
  let b := s.blocks block
  { s with blocks := Function.update s.blocks block { b with Prev := v } }

/-- Store to the global `Result`. -/
def KState.setResult (s : KState) (r : ResultCode) : KState := { s with Result := r }

/-- Store to `gAllocLock`. -/
def KState.setLock (s : KState) (l : AllocLock) : KState := { s with gAllocLock := l }

/-- Replace the data bytes. -/
def KState.setMem (s : KState) (m : Memory) : KState := { s with mem := m }

/-- Store to `gBaseAddress`. -/
def KState.setBase (s : KState) (a : Nat) : KState := { s with gBaseAddress := a }

/-- Store to `gHighestAddress`. -/
def KState.setHigh (s : KState) (a : Nat) : KState := { s with gHighestAddress := a }

/-- Store to `gMemorySize`. -/
def KState.setMemorySize (s : KState) (n : Nat) : KState := { s with gMemorySize := n }

/-- Store to `gAllocationEnabled`. -/
def KState.setEnabled (s : KState) (v : Bool) : KState := { s with gAllocationEnabled := v }

/-- Why a call ended without returning. -/
inductive Fatal where
  /-- Modelled from the spec: a failed `Check` (macro absent from the sources) is fatal. -/
  | check
  /-- The trap `int $25` raised by `MemExpandBlock` on `MEM_OUT_OF_MEMORY`. -/
  | outOfMemory
  deriving DecidableEq, Repr

/-- How a call ends. -/
inductive Outcome (α : Type) where
  | ret (v : α) (s : KState)
  | fatal (f : Fatal)
  | outOfFuel

/-- Sequencing of calls. -/
def Outcome.bind {α β : Type} (o : Outcome α) (f : α → KState → Outcome β) : Outcome β :=
  match o with
  | .ret v s => f v s
  | .fatal e => .fatal e
  | .outOfFuel => .outOfFuel

/-! ## Accessors and initialisation -/

/-- The C function `MemEnabled`. -/
def MemEnabled (s : KState) : Bool := s.gAllocationEnabled

/-- The C function `MemStart`. -/
def MemStart (s : KState) : Nat := s.gBaseAddress

/-- The C function `MemEnd`. -/
def MemEnd (s : KState) : Nat := s.gHighestAddress

/-- One entry of the boot memory map.  `usable` stands for
`type == EKBOOT_MEM_USABLE`; the constant is in the absent `Prekernel/EKBoot.h`. -/
structure MemmapEntry where
  base : Nat
  length : Nat
  usable : Bool

/-- The scan of the memory map in `MemInit` (lines 38-57), branch for branch: the second test
repeats `IsNull(gBaseAddress)` as the source does. -/
def MemInit.scan : List MemmapEntry → KState → KState
  | [], s => s
  | e :: es, s =>
    if e.usable then
      if s.gBaseAddress = NULL then
        let s1 := s.setBase e.base
        MemInit.scan es (s1.setNext s1.gBaseAddress NULL)
      else if s.gBaseAddress = NULL then
        let s1 := s.setHigh e.base
        MemInit.scan es (s1.setNext s1.gHighestAddress NULL)
      else s
    else MemInit.scan es s

/-- The header loop of `MemInit` (lines 68-73): `k` iterations starting at index `i`. -/
def MemInit.headers : Nat → Nat → KState → KState
  | 0, _, s => s
  | k + 1, i, s =>
    let s1 := s.setHdr s.gBaseAddress i { s.hdr s.gBaseAddress i with Used := false }
    let s2 := s1.setHdr s1.gHighestAddress i { s1.hdr s1.gHighestAddress i with Used := false }
    let s3 := s2.setHdr s2.gBaseAddress i { s2.hdr s2.gBaseAddress i with Magic := MEM_MAGIC }
    let s4 := s3.setHdr s3.gHighestAddress i
      { s3.hdr s3.gHighestAddress i with Magic := MEM_MAGIC }
    MemInit.headers k (i + 1) s4

/-- The C function `MemInit`.  `entries` is what `BootloaderTag` yields; console output is
left out. -/
def MemInit (T : Target) (entries : List MemmapEntry) (s : KState) : Outcome Bool :=
  if s.gAllocationEnabled then .fatal .check
  else
    let s1 := MemInit.scan entries s
    let s2 := s1.setMemorySize
      ((negW T (subW T T.baseVarAddr T.highVarAddr) * sizeofMemBlk T) % T.wordMod)
    let s3 := s2.setPrev s2.gHighestAddress s2.gBaseAddress
    let s4 := s3.setNext s3.gHighestAddress s3.gBaseAddress
    let s5 := s4.setPrev s4.gBaseAddress s4.gHighestAddress
    let s6 := s5.setEnabled true
    .ret true (MemInit.headers MEM_MAX_HEADERS 0 s6)

/-! ## Allocation -/

/-- The loop of `MemInitAllocationList` (lines 104-107): `k` iterations from index `i`. -/
def MemInitAllocationList.loop (block : Nat) : Nat → Nat → KState → Outcome Unit
  | 0, _, s => .ret () s
  | k + 1, i, s =>
    if (s.hdr block i).Used then .fatal .check
    else MemInitAllocationList.loop block k (i + 1)
      (s.setHdr block i { s.hdr block i with Magic := MEM_MAGIC })

/-- The C function `MemInitAllocationList`. -/
def MemInitAllocationList (block : Nat) (s : KState) : Outcome Unit :=
  if block = NULL then .fatal .check
  else if (s.hdr block 0).Magic ≠ MEM_MAGIC then
    MemInitAllocationList.loop block MEM_MAX_HEADERS 0 s
  else .ret () s

/-- The size adjustment of `MemReserveBlock` (line 123). -/
def adjustSize (T : Target) (Size : Nat) : Nat :=
  if (addW T Size 4096) &&& 16 = 16 then addW T Size 16 else Size

/-- The C function `MemReserveBlock`.  The four stores to the header (lines 127-130) are
written as one record; the lock is taken and released around them. -/
def MemReserveBlock (T : Target) (block index Size : Nat) (s : KState) : Nat × KState :=
  if s.gAllocLock.bLocked then (NULL, s)
  else if KIB * 4 < (s.hdr block index).Size then
    (NULL, (s.setHdr block index { s.hdr block index with Used := true }).setResult
      ERR_BAD_ACCESS)
  else
    let Size := adjustSize T Size
    let s1 := s.setLock { s.gAllocLock with bLocked := true }
    let h := s1.hdr block index
    let s2 := s1.setHdr block index
      { VirtualAddress := blkAdd T block Size, Magic := MEM_MAGIC,
        Size := addW T h.Size Size, Used := true }
    let s3 := s2.setLock
      { bLocked := false, lastLockedSize := Size,
        lastLockedAddr := (s2.hdr block index).VirtualAddress }
    ((s3.hdr block index).VirtualAddress, s3.setResult ERR_SUCCESS)

/-- The loop of `MemAllocBlock` (lines 156-171). -/
def MemAllocBlock.loop (T : Target) (block Size : Nat) (index indexLeft indexRight : Nat)
    (s : KState) : Nat × KState :=
  if indexLeft < indexRight then
    let r := MemReserveBlock T block index Size s
    if r.1 ≠ NULL then (r.1, r.2.setResult ERR_SUCCESS)
    else if index = indexLeft then
      MemAllocBlock.loop T block Size indexRight (indexLeft + 1) indexRight r.2
    else
      MemAllocBlock.loop T block Size indexLeft indexLeft (indexRight - 1) r.2
  else (NULL, s.setResult MEM_UNAVAILABLE)
termination_by indexRight - indexLeft
decreasing_by all_goals omega

/-- The C function `MemAllocBlock`. -/
def MemAllocBlock (T : Target) (block Size : Nat) (s : KState) : Nat × KState :=
  let s1 := s.setResult MEM_NOT_ENABLED
  if !s1.gAllocationEnabled then (NULL, s1)
  else
    let s2 := s1.setResult ERR_NULL
    if block = NULL then (NULL, s2)
    else MemAllocBlock.loop T block Size 0 0 MEM_MAX_HEADERS s2

/-- The positions that the loop of `MemAllocBlock` hands to `MemReserveBlock`, in the order
of the calls: the loop of lines 156-171 again, writing down `index` at every call. -/
def MemAllocBlock.loopProbes (T : Target) (block Size : Nat) (index indexLeft indexRight : Nat)
    (s : KState) : List Nat :=
  if indexLeft < indexRight then
    let r := MemReserveBlock T block index Size s
    if r.1 ≠ NULL then [index]
    else if index = indexLeft then
      index :: MemAllocBlock.loopProbes T block Size indexRight (indexLeft + 1) indexRight r.2
    else
      index :: MemAllocBlock.loopProbes T block Size indexLeft indexLeft (indexRight - 1) r.2
  else []
termination_by indexRight - indexLeft
decreasing_by all_goals omega

/-- The positions that one call of `MemAllocBlock` hands to `MemReserveBlock`. -/
def MemAllocBlock.probes (T : Target) (block Size : Nat) (s : KState) : List Nat :=
  let s1 := s.setResult MEM_NOT_ENABLED
  if !s1.gAllocationEnabled then []
  else
    let s2 := s1.setResult ERR_NULL
    if block = NULL then []
    else MemAllocBlock.loopProbes T block Size 0 0 MEM_MAX_HEADERS s2

/-- The C function `MemAllocNextBlock`. -/
def MemAllocNextBlock (T : Target) (block : Nat) (s : KState) : Nat × KState :=
  if block = NULL then (NULL, s.setResult MEM_OUT_OF_MEMORY)
  else if (s.blocks block).Next ≠ NULL then (NULL, s.setResult ERR_NOT_NULL)
  else
    let s1 := s.setNext block (blkAdd T block (sizeofMemBlk T))
    let s2 := s1.setPrev (s1.blocks block).Next block
    ((s2.blocks block).Next, s2.setResult ERR_SUCCESS)

/-- The C function `MemExpandBlock`.  `Current` is a by-value parameter, so the assignments to
it leave no trace; the `default` arm only reads `Current->Next`. -/
def MemExpandBlock (T : Target) (Current : Nat) (s : KState) : Outcome Unit :=
  let r := MemAllocNextBlock T Current s
  if r.1 = NULL then
    if r.2.Result = MEM_OUT_OF_MEMORY then .fatal .outOfMemory
    else .ret () r.2
  else .ret () r.2

/-- The `Check` loop of `MemAlloc` (lines 235-237): `k` iterations from index `i`. -/
def MemAlloc.checkMagic (s : KState) (block : Nat) : Nat → Nat → Bool
  | 0, _ => true
  | k + 1, i => if (s.hdr block i).Magic = MEM_MAGIC then MemAlloc.checkMagic s block k (i + 1)
      else false

/-- The `while (allocatedBlock == NULL)` loop of `MemAlloc` (lines 234-241). -/
def MemAlloc.loop (T : Target) (Size currentBlock : Nat) : Nat → Nat → KState → Outcome Nat
  | 0, allocatedBlock, s => if allocatedBlock ≠ NULL then .ret allocatedBlock s else .outOfFuel
  | fuel + 1, allocatedBlock, s =>
    if allocatedBlock ≠ NULL then .ret allocatedBlock s
    else if MemAlloc.checkMagic s currentBlock MEM_MAX_HEADERS 0 then
      let r := MemAllocBlock T currentBlock Size s
      if r.2.Result = MEM_UNAVAILABLE then
        (MemExpandBlock T r.1 r.2).bind (fun _ s1 => MemAlloc.loop T Size currentBlock fuel r.1 s1)
      else MemAlloc.loop T Size currentBlock fuel r.1 r.2
    else .fatal .check

/-- The C function `MemAlloc`. -/
def MemAlloc (T : Target) (fuel : Nat) (Size : Nat) (s : KState) : Outcome Nat :=
  let s1 := s.setResult ERR_FAILURE
  if !s1.gAllocationEnabled then .ret NULL s1
  else
    let s2 := s1.setResult MEM_INVALID_SIZE
    if Size < 1 then .ret NULL s2
    else
      let currentBlock := s2.gBaseAddress
      (MemInitAllocationList currentBlock s2).bind
        (fun _ s3 => MemAlloc.loop T Size currentBlock fuel NULL s3)

/-! ## Resize and free -/

/-- The zero-fill loop of `MemResize` (lines 265-272), `count` running downwards. -/
def MemResize.fill (T : Target) (values barrier : Nat) : Nat → Memory → Memory
  | 0, m => m
  | count + 1, m =>
    if m.read (charAdd T values (count + 1)) ≠ barrier then
      MemResize.fill T values barrier count (m.write (charAdd T values (count + 1)) 0)
    else m

/-- The slot loop of `MemResize` (lines 257-279): `k` iterations from `index`; `none` when the
loop runs to its end. -/
def MemResize.scan (T : Target) (currentBlock Pointer iSize : Nat) :
    Nat → Nat → KState → Option (Nat × KState)
  | 0, _, _ => none
  | k + 1, index, s =>
    if (s.hdr currentBlock index).VirtualAddress ≠ Pointer then
      MemResize.scan T currentBlock Pointer iSize k (index + 1) s
    else
      let values := Pointer
      let barrier := s.mem.read (charAdd T values iSize)
      let s1 := s.setMem (MemResize.fill T values barrier iSize s.mem)
      let s2 := s1.setHdr currentBlock index
        { s1.hdr currentBlock index with VirtualAddress := values }
      let s3 := s2.setHdr currentBlock index
        { s2.hdr currentBlock index with Size := addW T (s2.hdr currentBlock index).Size iSize }
      some ((s3.hdr currentBlock index).VirtualAddress, s3.setResult ERR_SUCCESS)

/-- The block loop of `MemResize` (lines 256-282). -/
def MemResize.walk (T : Target) (Pointer iSize : Nat) : Nat → Nat → KState → Outcome Nat
  | 0, currentBlock, s =>
    if currentBlock = NULL then .ret NULL (s.setResult MEM_NOT_ENABLED) else .outOfFuel
  | fuel + 1, currentBlock, s =>
    if currentBlock = NULL then .ret NULL (s.setResult MEM_NOT_ENABLED)
    else
      match MemResize.scan T currentBlock Pointer iSize MEM_MAX_HEADERS 0 s with
      | some r => .ret r.1 r.2
      | none => MemResize.walk T Pointer iSize fuel (s.blocks currentBlock).Next s

/-- The C function `MemResize`. -/
def MemResize (T : Target) (fuel : Nat) (Pointer iSize : Nat) (s : KState) : Outcome Nat :=
  let s1 := s.setResult MEM_BAD_ARG
  if !s1.gAllocationEnabled then .ret NULL s1
  else if Pointer = NULL then .ret NULL s1
  else if iSize = 0 then .ret NULL s1
  else MemResize.walk T Pointer iSize fuel s1.gBaseAddress s1

/-- The C function `MemFreeBlock`.  `StringLength` is called twice, as in the source: once
before `SetMem` and once after it. -/
def MemFreeBlock (T : Target) (currentBlock index ptr : Nat) (s : KState) : Int × KState :=
  if !(s.hdr currentBlock index).Used then (-1, s)
  else if (s.hdr currentBlock index).VirtualAddress ≠ ptr then (-1, s)
  else
    let s1 := s.setMem (SetMem s.mem ptr 0 (StringLength s.mem ptr))
    let s2 := s1.setHdr currentBlock index
      { s1.hdr currentBlock index with
        Size := subW T (s1.hdr currentBlock index).Size (StringLength s1.mem ptr) }
    let s3 :=
      if (s2.hdr currentBlock index).Size < 1 then
        s2.setHdr currentBlock index { s2.hdr currentBlock index with Used := false }
      else s2
    (0, s3)

/-- The slot loop of `MemFree` (lines 313-319): `k` iterations from `index`; `none` when the
loop runs to its end. -/
def MemFree.scan (T : Target) (currentBlock Alloc : Nat) :
    Nat → Nat → KState → Option (ResultCode × KState)
  | 0, _, _ => none
  | k + 1, index, s =>
    let r := MemFreeBlock T currentBlock index Alloc s
    if r.1 = -1 then MemFree.scan T currentBlock Alloc k (index + 1) r.2
    else some (ERR_SUCCESS, r.2.setResult ERR_SUCCESS)

/-- The block loop of `MemFree` (lines 312-322). -/
def MemFree.walk (T : Target) (Alloc : Nat) : Nat → Nat → KState → Outcome ResultCode
  | 0, currentBlock, s =>
    if currentBlock = NULL then .ret MEM_UNAVAILABLE (s.setResult MEM_UNAVAILABLE)
    else .outOfFuel
  | fuel + 1, currentBlock, s =>
    if currentBlock = NULL then .ret MEM_UNAVAILABLE (s.setResult MEM_UNAVAILABLE)
    else
      match MemFree.scan T currentBlock Alloc MEM_MAX_HEADERS 0 s with
      | some r => .ret r.1 r.2
      | none => MemFree.walk T Alloc fuel (s.blocks currentBlock).Next s

/-- The C function `MemFree`. -/
def MemFree (T : Target) (fuel : Nat) (Alloc : Nat) (s : KState) : Outcome ResultCode :=
  let s1 := s.setResult ERR_FAILURE
  if !s1.gAllocationEnabled then .ret MEM_NOT_ENABLED s1
  else
    let s2 := s1.setResult ERR_NULL
    if Alloc = NULL then .ret MEM_BAD_ARG s2
    else MemFree.walk T Alloc fuel s2.gBaseAddress s2

/-! ## States and inputs used in the examples -/

/-- A 64-bit target. -/
def x86_64 : Target := { wordBytes := 8, baseVarAddr := 0x200010, highVarAddr := 0x200018 }

/-- A header of zero bytes. -/
def zeroHdr : BlkHdr := { VirtualAddress := 0, Magic := 0, Used := false, Size := 0 }

/-- The statics as the loader leaves them, over zeroed blocks and zeroed data bytes. -/
def bootState : KState :=
  { gAllocationEnabled := false, gMemorySize := 0, gBaseAddress := NULL,
    gHighestAddress := NULL,
    gAllocLock := { bLocked := false, lastLockedSize := 0, lastLockedAddr := 0 },
    Result := ERR_SUCCESS,
    blocks := fun _ => { Index := fun _ => zeroHdr, Prev := 0, Next := 0 },
    mem := { byte := fun _ => 0, limit := 0 } }

/-- A memory map with one usable region of 1 MiB at `0x100000`. -/
def oneRegion : List MemmapEntry := [{ base := 0x100000, length := 0x100000, usable := true }]


/-- A memory map with two usable regions. -/
def twoRegions : List MemmapEntry :=
  [{ base := 0x100000, length := 0x100000, usable := true },
   { base := 0x200000, length := 0x100000, usable := true }]

/-- A memory map whose first usable region starts at address 0, as low memory does. -/
def lowFirst : List MemmapEntry :=
  [{ base := 0, length := 0x9F000, usable := true },
   { base := 0x100000, length := 0x100000, usable := true }]

/-- A header that carries the sentinel and nothing else. -/
def freshHdr : BlkHdr := { VirtualAddress := 0, Magic := MEM_MAGIC, Used := false, Size := 0 }

/-- An enabled pool with base block at `0x100000`, every header fresh, the lock free and the
data bytes zero. -/
def freshPool : KState :=
  { gAllocationEnabled := true, gMemorySize := 0, gBaseAddress := 0x100000,
    gHighestAddress := NULL,
    gAllocLock := { bLocked := false, lastLockedSize := 0, lastLockedAddr := 0 },
    Result := ERR_SUCCESS,
    blocks := fun _ => { Index := fun _ => freshHdr, Prev := 0, Next := 0 },
    mem := { byte := fun _ => 0, limit := 0 } }

/-- The pool `freshPool` after the sentinel of slot 0 was overwritten with 0. -/
def tagLostPool : KState :=
  { freshPool with
    blocks := fun _ =>
      { Index := fun i => if i = 0 then { freshHdr with Magic := 0 } else freshHdr,
        Prev := 0, Next := 0 } }

/-- The pool `freshPool` after the sentinel of slot 5 was overwritten with 0. -/
def corruptPool : KState :=
  { freshPool with
    blocks := fun _ =>
      { Index := fun i => if i = 5 then { freshHdr with Magic := 0 } else freshHdr,
        Prev := 0, Next := 0 } }

/-- Position 512 of a block as the packed layout of the 64-bit target decodes it when `Prev`
and `Next` are null and the first byte behind the block is 1: `VirtualAddress` lies on `Prev`,
`Magic` and `Used` on the first five bytes of `Next`, and `Size` on the last three bytes of
`Next` followed by the five bytes behind the block, hence `Size = 1 * 2 ^ 24`. -/
def behindHdr : BlkHdr := { VirtualAddress := 0, Magic := 0, Used := false, Size := 0x1000000 }

/-- The boot state over memory that was not cleared: each of the 512 headers holds a recorded
size of 5000 (and `Used` set), which `MemInit` does not reset, the links are null and the
byte behind the block is 1, so that position 512 reads as `behindHdr`. -/
def dirtyBoot : KState :=
  { bootState with
    blocks := fun _ =>
      { Index := fun i =>
          if i = MEM_MAX_HEADERS then behindHdr
          else { VirtualAddress := 0, Magic := 0, Used := true, Size := 5000 },
        Prev := 0, Next := 0 } }

/-- The boot state over memory that was not cleared and in which the 512 headers hold a
recorded size of 5000, except header 256, which holds 0; the links are null and the byte
behind the block is 1, so that position 512 reads as `behindHdr`. -/
def gapBoot : KState :=
  { bootState with
    blocks := fun _ =>
      { Index := fun i =>
          if i = MEM_MAX_HEADERS then behindHdr
          else { VirtualAddress := 0, Magic := 0, Used := false,
                 Size := if i = 256 then 0 else 5000 },
        Prev := 0, Next := 0 } }

/-- The pool `freshPool` with the `Next` link of every block pointing at the base block, so
that the chain from the base block never ends.  Position 512 holds what the packed layout of
the 64-bit target decodes from the two links: the low four bytes of `Next` as `Magic`. -/
def loopPool : KState :=
  { freshPool with
    blocks := fun _ =>
      { Index := fun i =>
          if i = MEM_MAX_HEADERS then
            { VirtualAddress := 0, Magic := 0x100000, Used := false, Size := 0 }
          else freshHdr,
        Prev := 0, Next := 0x100000 } }

/-- The state in which `MemAlloc(64)` leaves `freshPool` (see `MemAlloc_freshPool`). -/
def freshPoolAlloc64 : KState :=
  (MemReserveBlock x86_64 0x100000 0 64 (freshPool.setResult ERR_NULL)).2.setResult ERR_SUCCESS

/-- The state in which `MemAlloc(3)` leaves `freshPool`. -/
def freshPoolAlloc3 : KState :=
  (MemReserveBlock x86_64 0x100000 0 3 (freshPool.setResult ERR_NULL)).2.setResult ERR_SUCCESS

/-- Data bytes that hold the three characters `abc` at `p` and zero elsewhere. -/
def abcAt (p : Nat) : Memory :=
  { byte := fun a => if a = p then 97 else if a = p + 1 then 98 else if a = p + 2 then 99 else 0,
    limit := p + 4 }

/-! ## The packed layout -/

/-- Byte `k` of a value stored with the least significant byte first, as the x86 does. -/
def byteOf (n k : Nat) : Nat := n / 256 ^ k % 256

/-- The value of the `n` bytes at `a`, least significant byte first. -/
def Memory.load (m : Memory) (a : Nat) : Nat → Nat
  | 0 => 0
  | n + 1 => m.read a + 256 * m.load (a + 1) n

/-- Byte `k` of a packed `BlkHdr` (`CoreAlloc.h`, lines 20-25): the pointer `VirtualAddress`,
the four bytes of `Magic`, the byte `Used`, then `Size`. -/
def BlkHdr.byte (T : Target) (h : BlkHdr) (k : Nat) : Nat :=
  if k < T.wordBytes then byteOf h.VirtualAddress k
  else if k < T.wordBytes + 4 then byteOf (h.Magic % 2 ^ 32).toNat (k - T.wordBytes)
  else if k = T.wordBytes + 4 then (if h.Used then 1 else 0)
  else byteOf h.Size (k - (T.wordBytes + 5))

/-- The memory as a load through a `char*` finds it: inside the array of 512 headers of the
base block the bytes of the headers in their packed layout, elsewhere the data bytes. -/
def KState.image (T : Target) (s : KState) : Memory :=
  { byte := fun a =>
      if s.gBaseAddress ≤ a ∧ a < s.gBaseAddress + MEM_MAX_HEADERS * sizeofBlkHdr T then
        (s.hdr s.gBaseAddress ((a - s.gBaseAddress) / sizeofBlkHdr T)).byte T
          ((a - s.gBaseAddress) % sizeofBlkHdr T)
      else s.mem.read a,
    limit := max s.mem.limit (s.gBaseAddress + MEM_MAX_HEADERS * sizeofBlkHdr T) }

/-- The string at `p`, its terminator included, lies apart from the storage of `block` (the
512 headers, the two links and the header position behind the array), and neither the string
nor that storage runs over the end of the address space. -/
def Memory.apart (T : Target) (m : Memory) (p block : Nat) : Prop :=
  block + (MEM_MAX_HEADERS + 1) * sizeofBlkHdr T ≤ T.wordMod ∧
  p + StringLength m p < T.wordMod ∧
  (p + StringLength m p < block ∨ block + (MEM_MAX_HEADERS + 1) * sizeofBlkHdr T ≤ p)

instance (T : Target) (m : Memory) (p block : Nat) : Decidable (m.apart T p block) := by
  unfold Memory.apart
  exact inferInstance

/-! ## Predicates used in the statements -/

/-- Every header of the array of `block` carries the sentinel. -/
def KState.magicOk (s : KState) (block : Nat) : Prop :=
  ∀ i, i < MEM_MAX_HEADERS → (s.hdr block i).Magic = MEM_MAGIC

/-- What an allocation never writes: the enabled flag, the two block pointers, the
data bytes, the `Next` links and whether the lock is held. -/
structure KState.SameFrame (s s' : KState) : Prop where
  enabled : s'.gAllocationEnabled = s.gAllocationEnabled
  base : s'.gBaseAddress = s.gBaseAddress
  high : s'.gHighestAddress = s.gHighestAddress
  mem : s'.mem = s.mem
  locked : s'.gAllocLock.bLocked = s.gAllocLock.bLocked
  next : ∀ a, (s'.blocks a).Next = (s.blocks a).Next

/-- The block reached from `a` after `k` steps along `Next`. -/
def KState.follow (s : KState) (a : Nat) : Nat → Nat
  | 0 => a
  | k + 1 => s.follow (s.blocks a).Next k

/-- One later call of the public interface that returns. -/
inductive Step (T : Target) : KState → KState → Prop where
  | alloc {s s' : KState} (fuel n p : Nat) (h : MemAlloc T fuel n s = .ret p s') : Step T s s'
  | resize {s s' : KState} (fuel q n p : Nat) (h : MemResize T fuel q n s = .ret p s') :
      Step T s s'
  | free {s s' : KState} (fuel q : Nat) (r : ResultCode) (h : MemFree T fuel q s = .ret r s') :
      Step T s s'

/-- The states reached from `s0` by calls that return. -/
inductive Reach (T : Target) (s0 : KState) : KState → Prop where
  | start : Reach T s0 s0
  | next {s s' : KState} (h : Reach T s0 s) (c : Step T s s') : Reach T s0 s'

/-! ## Stores and loads -/

@[simp] theorem KState.hdr_setHdr (s : KState) (b i : Nat) (h : BlkHdr) (b' i' : Nat) :
    (s.setHdr b i h).hdr b' i' = if b' = b ∧ i' = i then h else s.hdr b' i' := by
  unfold KState.hdr KState.setHdr
  by_cases hb : b' = b
  · subst hb
    by_cases hi : i' = i <;> simp [Function.update, hi]
  · simp [Function.update, hb]

@[simp] theorem KState.setHdr_gAllocationEnabled (s : KState) (b i : Nat) (h : BlkHdr) :
    (s.setHdr b i h).gAllocationEnabled = s.gAllocationEnabled := rfl

@[simp] theorem KState.setHdr_gMemorySize (s : KState) (b i : Nat) (h : BlkHdr) :
    (s.setHdr b i h).gMemorySize = s.gMemorySize := rfl

@[simp] theorem KState.setHdr_gBaseAddress (s : KState) (b i : Nat) (h : BlkHdr) :
    (s.setHdr b i h).gBaseAddress = s.gBaseAddress := rfl

@[simp] theorem KState.setHdr_gHighestAddress (s : KState) (b i : Nat) (h : BlkHdr) :
    (s.setHdr b i h).gHighestAddress = s.gHighestAddress := rfl

@[simp] theorem KState.setHdr_gAllocLock (s : KState) (b i : Nat) (h : BlkHdr) :
    (s.setHdr b i h).gAllocLock = s.gAllocLock := rfl

@[simp] theorem KState.setHdr_Result (s : KState) (b i : Nat) (h : BlkHdr) :
    (s.setHdr b i h).Result = s.Result := rfl

@[simp] theorem KState.setHdr_mem (s : KState) (b i : Nat) (h : BlkHdr) :
    (s.setHdr b i h).mem = s.mem := rfl

@[simp] theorem KState.setHdr_Next (s : KState) (b i : Nat) (h : BlkHdr) (a : Nat) :
    ((s.setHdr b i h).blocks a).Next = (s.blocks a).Next := by
  unfold KState.setHdr
  by_cases ha : a = b
  · subst ha; simp [Function.update]
  · simp [Function.update, ha]

@[simp] theorem KState.setHdr_Prev (s : KState) (b i : Nat) (h : BlkHdr) (a : Nat) :
    ((s.setHdr b i h).blocks a).Prev = (s.blocks a).Prev := by
  unfold KState.setHdr
  by_cases ha : a = b
  · subst ha; simp [Function.update]
  · simp [Function.update, ha]

@[simp] theorem KState.hdr_setNext (s : KState) (b v b' i' : Nat) :
    (s.setNext b v).hdr b' i' = s.hdr b' i' := by
  unfold KState.hdr KState.setNext
  by_cases hb : b' = b
  · subst hb; simp [Function.update]
  · simp [Function.update, hb]

@[simp] theorem KState.hdr_setPrev (s : KState) (b v b' i' : Nat) :
    (s.setPrev b v).hdr b' i' = s.hdr b' i' := by
  unfold KState.hdr KState.setPrev
  by_cases hb : b' = b
  · subst hb; simp [Function.update]
  · simp [Function.update, hb]

@[simp] theorem KState.setNext_Next (s : KState) (b v a : Nat) :
    ((s.setNext b v).blocks a).Next = if a = b then v else (s.blocks a).Next := by
  unfold KState.setNext
  by_cases ha : a = b
  · subst ha; simp [Function.update]
  · simp [Function.update, ha]

@[simp] theorem KState.setPrev_Next (s : KState) (b v a : Nat) :
    ((s.setPrev b v).blocks a).Next = (s.blocks a).Next := by
  unfold KState.setPrev
  by_cases ha : a = b
  · subst ha; simp [Function.update]
  · simp [Function.update, ha]

@[simp] theorem KState.setNext_gAllocationEnabled (s : KState) (b v : Nat) :
    (s.setNext b v).gAllocationEnabled = s.gAllocationEnabled := rfl

@[simp] theorem KState.setNext_gBaseAddress (s : KState) (b v : Nat) :
    (s.setNext b v).gBaseAddress = s.gBaseAddress := rfl

@[simp] theorem KState.setNext_gHighestAddress (s : KState) (b v : Nat) :
    (s.setNext b v).gHighestAddress = s.gHighestAddress := rfl

@[simp] theorem KState.setNext_gAllocLock (s : KState) (b v : Nat) :
    (s.setNext b v).gAllocLock = s.gAllocLock := rfl

@[simp] theorem KState.setNext_mem (s : KState) (b v : Nat) :
    (s.setNext b v).mem = s.mem := rfl

@[simp] theorem KState.setPrev_gAllocationEnabled (s : KState) (b v : Nat) :
    (s.setPrev b v).gAllocationEnabled = s.gAllocationEnabled := rfl

@[simp] theorem KState.setPrev_gBaseAddress (s : KState) (b v : Nat) :
    (s.setPrev b v).gBaseAddress = s.gBaseAddress := rfl

@[simp] theorem KState.setPrev_gHighestAddress (s : KState) (b v : Nat) :
    (s.setPrev b v).gHighestAddress = s.gHighestAddress := rfl

@[simp] theorem KState.setPrev_gAllocLock (s : KState) (b v : Nat) :
    (s.setPrev b v).gAllocLock = s.gAllocLock := rfl

@[simp] theorem KState.setPrev_mem (s : KState) (b v : Nat) :
    (s.setPrev b v).mem = s.mem := rfl

@[simp] theorem KState.setResult_gAllocationEnabled (s : KState) (r : ResultCode) :
    (s.setResult r).gAllocationEnabled = s.gAllocationEnabled := rfl

@[simp] theorem KState.setResult_gMemorySize (s : KState) (r : ResultCode) :
    (s.setResult r).gMemorySize = s.gMemorySize := rfl

@[simp] theorem KState.setResult_gBaseAddress (s : KState) (r : ResultCode) :
    (s.setResult r).gBaseAddress = s.gBaseAddress := rfl

@[simp] theorem KState.setResult_gHighestAddress (s : KState) (r : ResultCode) :
    (s.setResult r).gHighestAddress = s.gHighestAddress := rfl

@[simp] theorem KState.setResult_gAllocLock (s : KState) (r : ResultCode) :
    (s.setResult r).gAllocLock = s.gAllocLock := rfl

@[simp] theorem KState.setResult_Result (s : KState) (r : ResultCode) :
    (s.setResult r).Result = r := rfl

@[simp] theorem KState.setResult_mem (s : KState) (r : ResultCode) :
    (s.setResult r).mem = s.mem := rfl

@[simp] theorem KState.setResult_blocks (s : KState) (r : ResultCode) :
    (s.setResult r).blocks = s.blocks := rfl

@[simp] theorem KState.hdr_setResult (s : KState) (r : ResultCode) (b i : Nat) :
    (s.setResult r).hdr b i = s.hdr b i := rfl

@[simp] theorem KState.setLock_gAllocationEnabled (s : KState) (l : AllocLock) :
    (s.setLock l).gAllocationEnabled = s.gAllocationEnabled := rfl

@[simp] theorem KState.setLock_gMemorySize (s : KState) (l : AllocLock) :
    (s.setLock l).gMemorySize = s.gMemorySize := rfl

@[simp] theorem KState.setLock_gBaseAddress (s : KState) (l : AllocLock) :
    (s.setLock l).gBaseAddress = s.gBaseAddress := rfl

@[simp] theorem KState.setLock_gHighestAddress (s : KState) (l : AllocLock) :
    (s.setLock l).gHighestAddress = s.gHighestAddress := rfl

@[simp] theorem KState.setLock_gAllocLock (s : KState) (l : AllocLock) :
    (s.setLock l).gAllocLock = l := rfl

@[simp] theorem KState.setLock_Result (s : KState) (l : AllocLock) :
    (s.setLock l).Result = s.Result := rfl

@[simp] theorem KState.setLock_mem (s : KState) (l : AllocLock) :
    (s.setLock l).mem = s.mem := rfl

@[simp] theorem KState.setLock_blocks (s : KState) (l : AllocLock) :
    (s.setLock l).blocks = s.blocks := rfl

@[simp] theorem KState.hdr_setLock (s : KState) (l : AllocLock) (b i : Nat) :
    (s.setLock l).hdr b i = s.hdr b i := rfl

@[simp] theorem KState.setMem_gAllocationEnabled (s : KState) (m : Memory) :
    (s.setMem m).gAllocationEnabled = s.gAllocationEnabled := rfl

@[simp] theorem KState.setMem_gMemorySize (s : KState) (m : Memory) :
    (s.setMem m).gMemorySize = s.gMemorySize := rfl

@[simp] theorem KState.setMem_gBaseAddress (s : KState) (m : Memory) :
    (s.setMem m).gBaseAddress = s.gBaseAddress := rfl

@[simp] theorem KState.setMem_gHighestAddress (s : KState) (m : Memory) :
    (s.setMem m).gHighestAddress = s.gHighestAddress := rfl

@[simp] theorem KState.setMem_gAllocLock (s : KState) (m : Memory) :
    (s.setMem m).gAllocLock = s.gAllocLock := rfl

@[simp] theorem KState.setMem_Result (s : KState) (m : Memory) :
    (s.setMem m).Result = s.Result := rfl

@[simp] theorem KState.setMem_mem (s : KState) (m : Memory) :
    (s.setMem m).mem = m := rfl

@[simp] theorem KState.setMem_blocks (s : KState) (m : Memory) :
    (s.setMem m).blocks = s.blocks := rfl

@[simp] theorem KState.hdr_setMem (s : KState) (m : Memory) (b i : Nat) :
    (s.setMem m).hdr b i = s.hdr b i := rfl

@[simp] theorem KState.setResult_setResult (s : KState) (a b : ResultCode) :
    (s.setResult a).setResult b = s.setResult b := rfl

@[simp] theorem KState.setNext_gMemorySize (s : KState) (b v : Nat) :
    (s.setNext b v).gMemorySize = s.gMemorySize := rfl

@[simp] theorem KState.setNext_Result (s : KState) (b v : Nat) :
    (s.setNext b v).Result = s.Result := rfl

@[simp] theorem KState.setPrev_gMemorySize (s : KState) (b v : Nat) :
    (s.setPrev b v).gMemorySize = s.gMemorySize := rfl

@[simp] theorem KState.setPrev_Result (s : KState) (b v : Nat) :
    (s.setPrev b v).Result = s.Result := rfl

@[simp] theorem KState.setBase_gAllocationEnabled (s : KState) (a : Nat) :
    (s.setBase a).gAllocationEnabled = s.gAllocationEnabled := rfl

@[simp] theorem KState.setBase_gMemorySize (s : KState) (a : Nat) :
    (s.setBase a).gMemorySize = s.gMemorySize := rfl

@[simp] theorem KState.setBase_gBaseAddress (s : KState) (a : Nat) :
    (s.setBase a).gBaseAddress = a := rfl

@[simp] theorem KState.setBase_gHighestAddress (s : KState) (a : Nat) :
    (s.setBase a).gHighestAddress = s.gHighestAddress := rfl

@[simp] theorem KState.setBase_gAllocLock (s : KState) (a : Nat) :
    (s.setBase a).gAllocLock = s.gAllocLock := rfl

@[simp] theorem KState.setBase_Result (s : KState) (a : Nat) :
    (s.setBase a).Result = s.Result := rfl

@[simp] theorem KState.setBase_mem (s : KState) (a : Nat) :
    (s.setBase a).mem = s.mem := rfl

@[simp] theorem KState.setBase_blocks (s : KState) (a : Nat) :
    (s.setBase a).blocks = s.blocks := rfl

@[simp] theorem KState.hdr_setBase (s : KState) (a : Nat) (b i : Nat) :
    (s.setBase a).hdr b i = s.hdr b i := rfl

@[simp] theorem KState.setHigh_gAllocationEnabled (s : KState) (a : Nat) :
    (s.setHigh a).gAllocationEnabled = s.gAllocationEnabled := rfl

@[simp] theorem KState.setHigh_gMemorySize (s : KState) (a : Nat) :
    (s.setHigh a).gMemorySize = s.gMemorySize := rfl

@[simp] theorem KState.setHigh_gBaseAddress (s : KState) (a : Nat) :
    (s.setHigh a).gBaseAddress = s.gBaseAddress := rfl

@[simp] theorem KState.setHigh_gHighestAddress (s : KState) (a : Nat) :
    (s.setHigh a).gHighestAddress = a := rfl

@[simp] theorem KState.setHigh_gAllocLock (s : KState) (a : Nat) :
    (s.setHigh a).gAllocLock = s.gAllocLock := rfl

@[simp] theorem KState.setHigh_Result (s : KState) (a : Nat) :
    (s.setHigh a).Result = s.Result := rfl

@[simp] theorem KState.setHigh_mem (s : KState) (a : Nat) :
    (s.setHigh a).mem = s.mem := rfl

@[simp] theorem KState.setHigh_blocks (s : KState) (a : Nat) :
    (s.setHigh a).blocks = s.blocks := rfl

@[simp] theorem KState.hdr_setHigh (s : KState) (a : Nat) (b i : Nat) :
    (s.setHigh a).hdr b i = s.hdr b i := rfl

@[simp] theorem KState.setMemorySize_gAllocationEnabled (s : KState) (n : Nat) :
    (s.setMemorySize n).gAllocationEnabled = s.gAllocationEnabled := rfl

@[simp] theorem KState.setMemorySize_gMemorySize (s : KState) (n : Nat) :
    (s.setMemorySize n).gMemorySize = n := rfl

@[simp] theorem KState.setMemorySize_gBaseAddress (s : KState) (n : Nat) :
    (s.setMemorySize n).gBaseAddress = s.gBaseAddress := rfl

@[simp] theorem KState.setMemorySize_gHighestAddress (s : KState) (n : Nat) :
    (s.setMemorySize n).gHighestAddress = s.gHighestAddress := rfl

@[simp] theorem KState.setMemorySize_gAllocLock (s : KState) (n : Nat) :
    (s.setMemorySize n).gAllocLock = s.gAllocLock := rfl

@[simp] theorem KState.setMemorySize_Result (s : KState) (n : Nat) :
    (s.setMemorySize n).Result = s.Result := rfl

@[simp] theorem KState.setMemorySize_mem (s : KState) (n : Nat) :
    (s.setMemorySize n).mem = s.mem := rfl

@[simp] theorem KState.setMemorySize_blocks (s : KState) (n : Nat) :
    (s.setMemorySize n).blocks = s.blocks := rfl

@[simp] theorem KState.hdr_setMemorySize (s : KState) (n : Nat) (b i : Nat) :
    (s.setMemorySize n).hdr b i = s.hdr b i := rfl

@[simp] theorem KState.setEnabled_gAllocationEnabled (s : KState) (v : Bool) :
    (s.setEnabled v).gAllocationEnabled = v := rfl

@[simp] theorem KState.setEnabled_gMemorySize (s : KState) (v : Bool) :
    (s.setEnabled v).gMemorySize = s.gMemorySize := rfl

@[simp] theorem KState.setEnabled_gBaseAddress (s : KState) (v : Bool) :
    (s.setEnabled v).gBaseAddress = s.gBaseAddress := rfl

@[simp] theorem KState.setEnabled_gHighestAddress (s : KState) (v : Bool) :
    (s.setEnabled v).gHighestAddress = s.gHighestAddress := rfl

@[simp] theorem KState.setEnabled_gAllocLock (s : KState) (v : Bool) :
    (s.setEnabled v).gAllocLock = s.gAllocLock := rfl

@[simp] theorem KState.setEnabled_Result (s : KState) (v : Bool) :
    (s.setEnabled v).Result = s.Result := rfl

@[simp] theorem KState.setEnabled_mem (s : KState) (v : Bool) :
    (s.setEnabled v).mem = s.mem := rfl

@[simp] theorem KState.setEnabled_blocks (s : KState) (v : Bool) :
    (s.setEnabled v).blocks = s.blocks := rfl

@[simp] theorem KState.hdr_setEnabled (s : KState) (v : Bool) (b i : Nat) :
    (s.setEnabled v).hdr b i = s.hdr b i := rfl

theorem KState.follow_congr (s u : KState) (h : u.blocks = s.blocks) (a k : Nat) :
    u.follow a k = s.follow a k := by
  induction k generalizing a with
  | zero => rfl
  | succ k ih => simp only [KState.follow, h, ih]

@[simp] theorem KState.follow_setResult (s : KState) (r : ResultCode) (a k : Nat) :
    (s.setResult r).follow a k = s.follow a k :=
  KState.follow_congr s (s.setResult r) rfl a k

/-! ## Data bytes -/

theorem Memory.read_write (m : Memory) (a v x : Nat) :
    (m.write a v).read x = if x = a then v else m.read x := by
  unfold Memory.write Memory.read
  by_cases hx : x = a
  · subst hx
    have h : x < max m.limit (x + 1) := by omega
    simp [h]
  · simp only [hx, if_false]
    by_cases hl : x < m.limit
    · have h : x < max m.limit (a + 1) := by omega
      simp [h, hl]
    · simp [hl]

theorem SetMem_read (m : Memory) (p v len x : Nat) :
    (SetMem m p v len).read x = if p ≤ x ∧ x < p + len then v else m.read x := by
  induction len with
  | zero =>
    have h : ¬ (p ≤ x ∧ x < p) := by omega
    simp [SetMem, h]
  | succ len ih =>
    unfold SetMem
    rw [Memory.read_write, ih]
    by_cases hx : x = p + len
    · have h : p ≤ x ∧ x < p + (len + 1) := by omega
      simp [hx]
    · have h : (p ≤ x ∧ x < p + (len + 1)) ↔ (p ≤ x ∧ x < p + len) := by omega
      simp [hx, h]

theorem Memory.strlenFrom_of_read_zero (m : Memory) (n a : Nat) (h : m.read a = 0) :
    m.strlenFrom n a = 0 := by
  cases n <;> simp [Memory.strlenFrom, h]

/-- Once `SetMem` has zeroed the string at `ptr`, `StringLength` finds a string of length
0 there. -/
theorem StringLength_after_SetMem (m : Memory) (ptr : Nat) :
    StringLength (SetMem m ptr 0 (StringLength m ptr)) ptr = 0 := by
  unfold StringLength
  apply Memory.strlenFrom_of_read_zero
  rw [SetMem_read]
  split
  · rfl
  · rename_i hc
    have hz : m.strlenFrom (m.limit - ptr) ptr = 0 := by
      by_contra hne
      exact hc ⟨le_refl _, by omega⟩
    cases hl : m.limit - ptr with
    | zero =>
      unfold Memory.read
      have : ¬ ptr < m.limit := by omega
      simp [this]
    | succ k =>
      rw [hl] at hz
      unfold Memory.strlenFrom at hz
      by_contra hr
      simp [hr] at hz

/-- A string of `L` non-zero bytes followed by a zero byte has length `L`. -/
theorem Memory.strlenFrom_eq (m : Memory) (L n a : Nat) (hn : L < n)
    (hnz : ∀ k, k < L → m.read (a + k) ≠ 0) (hz : m.read (a + L) = 0) :
    m.strlenFrom n a = L := by
  induction L generalizing n a with
  | zero => exact Memory.strlenFrom_of_read_zero m n a (by simpa using hz)
  | succ L ih =>
    cases n with
    | zero => omega
    | succ n =>
      unfold Memory.strlenFrom
      have h0 : m.read a ≠ 0 := by simpa using hnz 0 (by omega)
      have hz' : m.read (a + 1 + L) = 0 := by
        rw [show a + 1 + L = a + (L + 1) by omega]
        exact hz
      rw [if_neg h0, ih n (a + 1) (by omega) (fun k hk => by
        rw [show a + 1 + k = a + (k + 1) by omega]
        exact hnz (k + 1) (by omega)) hz']

theorem BlkHdr.byte_Magic (T : Target) (h : BlkHdr) (k : Nat) (hk : k < 4) :
    h.byte T (T.wordBytes + k) = byteOf (h.Magic % 2 ^ 32).toNat k := by
  unfold BlkHdr.byte
  have h1 : ¬ T.wordBytes + k < T.wordBytes := by omega
  have h2 : T.wordBytes + k < T.wordBytes + 4 := by omega
  simp [h1, h2]

theorem subW_zero (T : Target) (a : Nat) : subW T a 0 = a % T.wordMod := by
  unfold subW
  have hpos : 0 < T.wordMod := by unfold Target.wordMod; positivity
  simp [Nat.zero_mod, Nat.add_mod_right]

/-! ## Initialisation -/

theorem MemInit.scan_gAllocationEnabled (es : List MemmapEntry) (s : KState) :
    (MemInit.scan es s).gAllocationEnabled = s.gAllocationEnabled := by
  induction es generalizing s with
  | nil => rfl
  | cons e es ih =>
    unfold MemInit.scan
    by_cases hu : e.usable = true <;> by_cases hb : s.gBaseAddress = NULL <;>
      simp [hu, hb, ih]

theorem MemInit.scan_gHighestAddress (es : List MemmapEntry) (s : KState) :
    (MemInit.scan es s).gHighestAddress = s.gHighestAddress := by
  induction es generalizing s with
  | nil => rfl
  | cons e es ih =>
    unfold MemInit.scan
    by_cases hu : e.usable = true <;> by_cases hb : s.gBaseAddress = NULL <;>
      simp [hu, hb, ih]

theorem MemInit.scan_gAllocLock (es : List MemmapEntry) (s : KState) :
    (MemInit.scan es s).gAllocLock = s.gAllocLock := by
  induction es generalizing s with
  | nil => rfl
  | cons e es ih =>
    unfold MemInit.scan
    by_cases hu : e.usable = true <;> by_cases hb : s.gBaseAddress = NULL <;>
      simp [hu, hb, ih]

theorem MemInit.scan_mem (es : List MemmapEntry) (s : KState) :
    (MemInit.scan es s).mem = s.mem := by
  induction es generalizing s with
  | nil => rfl
  | cons e es ih =>
    unfold MemInit.scan
    by_cases hu : e.usable = true <;> by_cases hb : s.gBaseAddress = NULL <;>
      simp [hu, hb, ih]

theorem MemInit.scan_hdr (es : List MemmapEntry) (s : KState) (b i : Nat) :
    (MemInit.scan es s).hdr b i = s.hdr b i := by
  induction es generalizing s with
  | nil => rfl
  | cons e es ih =>
    unfold MemInit.scan
    by_cases hu : e.usable = true <;> by_cases hb : s.gBaseAddress = NULL <;>
      simp [hu, hb, ih]

/-- Once a non-null base address is chosen the scan leaves it alone. -/
theorem MemInit.scan_gBaseAddress_of_ne (es : List MemmapEntry) (s : KState)
    (h : s.gBaseAddress ≠ NULL) : (MemInit.scan es s).gBaseAddress = s.gBaseAddress := by
  induction es generalizing s with
  | nil => rfl
  | cons e es ih =>
    unfold MemInit.scan
    by_cases hu : e.usable = true <;> simp [hu, h, ih]

/-- The base address the scan settles on: the base of the first usable entry whose base is
not null, and null when there is none. -/
theorem MemInit.scan_gBaseAddress (es : List MemmapEntry) (s : KState)
    (h : s.gBaseAddress = NULL) :
    (MemInit.scan es s).gBaseAddress =
      ((es.find? (fun e => e.usable && decide (e.base ≠ NULL))).map (fun e => e.base)).getD NULL := by
  induction es generalizing s with
  | nil => simpa [MemInit.scan] using h
  | cons e es ih =>
    unfold MemInit.scan
    by_cases hu : e.usable = true
    · by_cases hb : e.base = NULL
      · simp only [hu, h, if_true, List.find?_cons]
        rw [ih _ (by simpa using hb)]
        simp [hb]
      · simp only [hu, h, if_true, List.find?_cons]
        rw [MemInit.scan_gBaseAddress_of_ne _ _ (by simpa using hb)]
        simp [hb]
    · simp [hu, ih s h]

theorem MemInit.headers_gAllocationEnabled (k i : Nat) (s : KState) :
    (MemInit.headers k i s).gAllocationEnabled = s.gAllocationEnabled := by
  induction k generalizing i s with
  | zero => rfl
  | succ k ih => unfold MemInit.headers; simp only []; rw [ih]; simp

theorem MemInit.headers_gBaseAddress (k i : Nat) (s : KState) :
    (MemInit.headers k i s).gBaseAddress = s.gBaseAddress := by
  induction k generalizing i s with
  | zero => rfl
  | succ k ih => unfold MemInit.headers; simp only []; rw [ih]; simp

theorem MemInit.headers_gHighestAddress (k i : Nat) (s : KState) :
    (MemInit.headers k i s).gHighestAddress = s.gHighestAddress := by
  induction k generalizing i s with
  | zero => rfl
  | succ k ih => unfold MemInit.headers; simp only []; rw [ih]; simp

theorem MemInit.headers_gAllocLock (k i : Nat) (s : KState) :
    (MemInit.headers k i s).gAllocLock = s.gAllocLock := by
  induction k generalizing i s with
  | zero => rfl
  | succ k ih => unfold MemInit.headers; simp only []; rw [ih]; simp

theorem MemInit.headers_mem (k i : Nat) (s : KState) :
    (MemInit.headers k i s).mem = s.mem := by
  induction k generalizing i s with
  | zero => rfl
  | succ k ih => unfold MemInit.headers; simp only []; rw [ih]; simp

theorem MemInit.headers_Next (k i : Nat) (s : KState) (a : Nat) :
    ((MemInit.headers k i s).blocks a).Next = (s.blocks a).Next := by
  induction k generalizing i s with
  | zero => rfl
  | succ k ih => unfold MemInit.headers; simp only []; rw [ih]; simp

/-- What the header loop of `MemInit` leaves in every header. -/
theorem MemInit.headers_hdr (k i : Nat) (s : KState) (b j : Nat) :
    (MemInit.headers k i s).hdr b j =
      if (b = s.gBaseAddress ∨ b = s.gHighestAddress) ∧ i ≤ j ∧ j < i + k then
        { s.hdr b j with Used := false, Magic := MEM_MAGIC }
      else s.hdr b j := by
  induction k generalizing i s with
  | zero =>
    have h0 : ¬ (i ≤ j ∧ j < i) := by omega
    simp [MemInit.headers, h0]
  | succ k ih =>
    unfold MemInit.headers
    simp only []
    rw [ih]
    simp only [KState.setHdr_gBaseAddress, KState.setHdr_gHighestAddress, KState.hdr_setHdr]
    generalize s.gBaseAddress = B
    generalize s.gHighestAddress = H
    by_cases hj : j = i
    · subst hj
      have h1 : ¬ (j + 1 ≤ j ∧ j < j + 1 + k) := by omega
      have h2 : (j ≤ j ∧ j < j + (k + 1)) := by omega
      by_cases hb : b = B <;> by_cases hh : b = H
      · subst hb; subst hh; simp [h1, h2]
      · subst hb
        have hh' : ¬ H = b := fun e => hh e.symm
        simp [h1, h2, hh, hh']
      · subst hh
        have hb' : ¬ B = b := fun e => hb e.symm
        simp [h1, h2, hb, hb']
      · simp [h1, h2, hb, hh]
    · have h3 : (i + 1 ≤ j ∧ j < i + 1 + k) ↔ (i ≤ j ∧ j < i + (k + 1)) := by omega
      simp [hj, h3]



/-! ## Reserving a slot -/

theorem MemReserveBlock_locked (T : Target) (block index Size : Nat) (s : KState)
    (h : s.gAllocLock.bLocked = true) : MemReserveBlock T block index Size s = (NULL, s) := by
  simp [MemReserveBlock, h]

/-- A reservation that goes through: the address and the state it leaves. -/
theorem MemReserveBlock_ok (T : Target) (block index Size : Nat) (s : KState)
    (hl : s.gAllocLock.bLocked = false) (hs : (s.hdr block index).Size ≤ KIB * 4) :
    (MemReserveBlock T block index Size s).1 = blkAdd T block (adjustSize T Size) ∧
    (MemReserveBlock T block index Size s).2.hdr block index =
      { VirtualAddress := blkAdd T block (adjustSize T Size), Magic := MEM_MAGIC,
        Size := addW T (s.hdr block index).Size (adjustSize T Size), Used := true } := by
  have hs' : ¬ KIB * 4 < (s.hdr block index).Size := by omega
  simp [MemReserveBlock, hl, hs']

/-- A reservation refused for the size ceiling marks the slot used and changes nothing
else in it. -/
theorem MemReserveBlock_poison (T : Target) (block index Size : Nat) (s : KState)
    (hl : s.gAllocLock.bLocked = false) (hs : KIB * 4 < (s.hdr block index).Size) :
    MemReserveBlock T block index Size s =
      (NULL, (s.setHdr block index { s.hdr block index with Used := true }).setResult
        ERR_BAD_ACCESS) := by
  simp [MemReserveBlock, hl, hs]

/-- Whatever the outcome, a non-null result is the block base plus the adjusted size, and the
slot then records it and is in use. -/
theorem MemReserveBlock_ne_null (T : Target) (block index Size : Nat) (s : KState)
    (h : (MemReserveBlock T block index Size s).1 ≠ NULL) :
    (MemReserveBlock T block index Size s).1 = blkAdd T block (adjustSize T Size) ∧
    ((MemReserveBlock T block index Size s).2.hdr block index).Used = true ∧
    ((MemReserveBlock T block index Size s).2.hdr block index).VirtualAddress =
      (MemReserveBlock T block index Size s).1 := by
  by_cases hl : s.gAllocLock.bLocked = true
  · rw [MemReserveBlock_locked T block index Size s hl] at h
    exact absurd rfl h
  · have hl' : s.gAllocLock.bLocked = false := by simpa using hl
    by_cases hs : KIB * 4 < (s.hdr block index).Size
    · rw [MemReserveBlock_poison T block index Size s hl' hs] at h
      exact absurd rfl h
    · have hok := MemReserveBlock_ok T block index Size s hl' (by omega)
      refine ⟨hok.1, ?_, ?_⟩
      · rw [hok.2]
      · rw [hok.2, hok.1]

/-- Fields that `MemReserveBlock` never writes. -/
theorem MemReserveBlock_frame (T : Target) (block index Size : Nat) (s : KState) :
    (MemReserveBlock T block index Size s).2.gAllocationEnabled = s.gAllocationEnabled ∧
    (MemReserveBlock T block index Size s).2.gBaseAddress = s.gBaseAddress ∧
    (MemReserveBlock T block index Size s).2.gHighestAddress = s.gHighestAddress ∧
    (MemReserveBlock T block index Size s).2.mem = s.mem ∧
    (MemReserveBlock T block index Size s).2.gAllocLock.bLocked = s.gAllocLock.bLocked ∧
    (∀ a, ((MemReserveBlock T block index Size s).2.blocks a).Next = (s.blocks a).Next) := by
  by_cases hl : s.gAllocLock.bLocked = true
  · rw [MemReserveBlock_locked T block index Size s hl]
    simp
  · have hl' : s.gAllocLock.bLocked = false := by simpa using hl
    by_cases hs : KIB * 4 < (s.hdr block index).Size
    · rw [MemReserveBlock_poison T block index Size s hl' hs]
      simp [hl']
    · simp [MemReserveBlock, hl', hs]

/-- A header other than the one addressed is left as it was. -/
theorem MemReserveBlock_other (T : Target) (block index Size : Nat) (s : KState) (b j : Nat)
    (h : ¬ (b = block ∧ j = index)) :
    (MemReserveBlock T block index Size s).2.hdr b j = s.hdr b j := by
  by_cases hl : s.gAllocLock.bLocked = true
  · rw [MemReserveBlock_locked T block index Size s hl]
  · have hl' : s.gAllocLock.bLocked = false := by simpa using hl
    by_cases hs : KIB * 4 < (s.hdr block index).Size
    · rw [MemReserveBlock_poison T block index Size s hl' hs]
      simp [h]
    · simp [MemReserveBlock, hl', hs, h]

/-- A sentinel that is in place stays in place. -/
theorem MemReserveBlock_magic (T : Target) (block index Size : Nat) (s : KState) (b j : Nat)
    (h : (s.hdr b j).Magic = MEM_MAGIC) :
    ((MemReserveBlock T block index Size s).2.hdr b j).Magic = MEM_MAGIC := by
  by_cases hbj : b = block ∧ j = index
  · obtain ⟨rfl, rfl⟩ := hbj
    by_cases hl : s.gAllocLock.bLocked = true
    · rw [MemReserveBlock_locked T b j Size s hl]; exact h
    · have hl' : s.gAllocLock.bLocked = false := by simpa using hl
      by_cases hs : KIB * 4 < (s.hdr b j).Size
      · rw [MemReserveBlock_poison T b j Size s hl' hs]
        simpa using h
      · rw [(MemReserveBlock_ok T b j Size s hl' (by omega)).2]
  · rw [MemReserveBlock_other T block index Size s b j hbj]; exact h

/-- A refused reservation leaves every recorded size as it was. -/
theorem MemReserveBlock_null_size (T : Target) (block index Size : Nat) (s : KState)
    (hl : s.gAllocLock.bLocked = false) (hs : KIB * 4 < (s.hdr block index).Size) (b j : Nat) :
    ((MemReserveBlock T block index Size s).2.hdr b j).Size = (s.hdr b j).Size := by
  rw [MemReserveBlock_poison T block index Size s hl hs]
  by_cases hbj : b = block ∧ j = index
  · obtain ⟨rfl, rfl⟩ := hbj
    simp
  · simp [hbj]

/-! ## Searching a block -/

/-- Anything that `MemReserveBlock` and a store to `Result` preserve is preserved by the
loop of `MemAllocBlock`. -/
theorem MemAllocBlock.loop_preserves (T : Target) (block Size : Nat) (P : KState → Prop)
    (hres : ∀ s r, P s → P (s.setResult r))
    (hstep : ∀ index s, P s → P (MemReserveBlock T block index Size s).2)
    (index L R : Nat) (s : KState) (h : P s) :
    P (MemAllocBlock.loop T block Size index L R s).2 := by
  induction index, L, R, s using MemAllocBlock.loop.induct T block Size with
  | case1 index L R s hlt r hr =>
    rw [MemAllocBlock.loop]
    have hr' : (MemReserveBlock T block index Size s).1 ≠ NULL := hr
    simp only [hlt, hr', if_true, ne_eq, not_false_eq_true]
    exact hres _ _ (hstep _ _ h)
  | case2 L R s hlt r hr ih =>
    rw [MemAllocBlock.loop]
    have hr' : (MemReserveBlock T block L Size s).1 = NULL := not_not.mp hr
    simp only [hlt, hr', if_true, ne_eq, not_true_eq_false, if_false]
    exact ih (hstep _ _ h)
  | case3 index L R s hlt r hr hi ih =>
    rw [MemAllocBlock.loop]
    have hr' : (MemReserveBlock T block index Size s).1 = NULL := not_not.mp hr
    simp only [hlt, hr', hi, if_true, ne_eq, not_true_eq_false, if_false]
    exact ih (hstep _ _ h)
  | case4 index L R s hlt =>
    rw [MemAllocBlock.loop]
    simp only [hlt, if_false]
    exact hres _ _ h

/-- The loop of `MemAllocBlock` ends either with a non-null address and `ERR_SUCCESS`, or with
`NULL` and `MEM_UNAVAILABLE`. -/
theorem MemAllocBlock.loop_result (T : Target) (block Size : Nat)
    (index L R : Nat) (s : KState) :
    ((MemAllocBlock.loop T block Size index L R s).1 ≠ NULL ∧
      (MemAllocBlock.loop T block Size index L R s).2.Result = ERR_SUCCESS) ∨
    ((MemAllocBlock.loop T block Size index L R s).1 = NULL ∧
      (MemAllocBlock.loop T block Size index L R s).2.Result = MEM_UNAVAILABLE) := by
  induction index, L, R, s using MemAllocBlock.loop.induct T block Size with
  | case1 index L R s hlt r hr =>
    rw [MemAllocBlock.loop]
    have hr' : (MemReserveBlock T block index Size s).1 ≠ NULL := hr
    simp only [hlt, hr', if_true, ne_eq, not_false_eq_true]
    exact Or.inl ⟨trivial, rfl⟩
  | case2 L R s hlt r hr ih =>
    rw [MemAllocBlock.loop]
    have hr' : (MemReserveBlock T block L Size s).1 = NULL := not_not.mp hr
    simp only [hlt, hr', if_true, ne_eq, not_true_eq_false, if_false]
    exact ih
  | case3 index L R s hlt r hr hi ih =>
    rw [MemAllocBlock.loop]
    have hr' : (MemReserveBlock T block index Size s).1 = NULL := not_not.mp hr
    simp only [hlt, hr', hi, if_true, ne_eq, not_true_eq_false, if_false]
    exact ih
  | case4 index L R s hlt =>
    rw [MemAllocBlock.loop]
    simp only [hlt, if_false]
    exact Or.inr ⟨trivial, rfl⟩

/-- A non-null result of the loop is the block base plus the adjusted size, recorded by a
slot that is in use and whose position is one the loop may probe. -/
theorem MemAllocBlock.loop_ne_null (T : Target) (block Size : Nat)
    (index L R : Nat) (s : KState) (hi : index ≤ R)
    (h : (MemAllocBlock.loop T block Size index L R s).1 ≠ NULL) :
    (MemAllocBlock.loop T block Size index L R s).1 = blkAdd T block (adjustSize T Size) ∧
    ∃ i, i ≤ R ∧
      ((MemAllocBlock.loop T block Size index L R s).2.hdr block i).Used = true ∧
      ((MemAllocBlock.loop T block Size index L R s).2.hdr block i).VirtualAddress =
        (MemAllocBlock.loop T block Size index L R s).1 := by
  induction index, L, R, s using MemAllocBlock.loop.induct T block Size with
  | case1 index L R s hlt r hr =>
    rw [MemAllocBlock.loop] at h ⊢
    have hr' : (MemReserveBlock T block index Size s).1 ≠ NULL := hr
    simp only [hlt, hr', if_true, ne_eq, not_false_eq_true] at h ⊢
    have hk := MemReserveBlock_ne_null T block index Size s hr'
    exact ⟨hk.1, index, hi, hk.2.1, hk.2.2⟩
  | case2 L R s hlt r hr ih =>
    rw [MemAllocBlock.loop] at h ⊢
    have hr' : (MemReserveBlock T block L Size s).1 = NULL := not_not.mp hr
    simp only [hlt, hr', if_true, ne_eq, not_true_eq_false, if_false] at h ⊢
    exact ih (le_refl _) h
  | case3 index L R s hlt r hr hne ih =>
    rw [MemAllocBlock.loop] at h ⊢
    have hr' : (MemReserveBlock T block index Size s).1 = NULL := not_not.mp hr
    simp only [hlt, hr', hne, if_true, ne_eq, not_true_eq_false, if_false] at h ⊢
    obtain ⟨h1, i, hiR, h2, h3⟩ := ih (by omega) h
    exact ⟨h1, i, by omega, h2, h3⟩
  | case4 index L R s hlt =>
    rw [MemAllocBlock.loop] at h
    simp only [hlt, if_false] at h
    exact absurd rfl h


theorem KState.SameFrame.rfl' (s : KState) : s.SameFrame s :=
  ⟨rfl, rfl, rfl, rfl, rfl, fun _ => rfl⟩

theorem KState.SameFrame.trans {s t u : KState} (h1 : s.SameFrame t) (h2 : t.SameFrame u) :
    s.SameFrame u :=
  ⟨h2.enabled.trans h1.enabled, h2.base.trans h1.base, h2.high.trans h1.high,
    h2.mem.trans h1.mem, h2.locked.trans h1.locked, fun a => (h2.next a).trans (h1.next a)⟩

theorem KState.SameFrame.setResult (s : KState) (r : ResultCode) : s.SameFrame (s.setResult r) :=
  ⟨rfl, rfl, rfl, rfl, rfl, fun _ => rfl⟩

theorem MemReserveBlock_sameFrame (T : Target) (block index Size : Nat) (s : KState) :
    s.SameFrame (MemReserveBlock T block index Size s).2 := by
  obtain ⟨h1, h2, h3, h4, h5, h6⟩ := MemReserveBlock_frame T block index Size s
  exact ⟨h1, h2, h3, h4, h5, h6⟩

/-- With the lock held the loop refuses every slot and changes nothing but `Result`. -/
theorem MemAllocBlock.loop_locked (T : Target) (block Size : Nat)
    (index L R : Nat) (s : KState) (h : s.gAllocLock.bLocked = true) :
    MemAllocBlock.loop T block Size index L R s = (NULL, s.setResult MEM_UNAVAILABLE) := by
  induction index, L, R, s using MemAllocBlock.loop.induct T block Size with
  | case1 index L R s hlt r hr =>
    have hr' : (MemReserveBlock T block index Size s).1 ≠ NULL := hr
    rw [MemReserveBlock_locked T block index Size s h] at hr'
    exact absurd rfl hr'
  | case2 L R s hlt r hr ih =>
    rw [MemAllocBlock.loop]
    have hr' : (MemReserveBlock T block L Size s).1 = NULL := not_not.mp hr
    simp only [hlt, hr', if_true, ne_eq, not_true_eq_false, if_false]
    have e : (MemReserveBlock T block L Size s).2 = s := by
      rw [MemReserveBlock_locked T block L Size s h]
    rw [e]
    have ih' := ih
    simp only [r, e] at ih'
    exact ih' h
  | case3 index L R s hlt r hr hi ih =>
    rw [MemAllocBlock.loop]
    have hr' : (MemReserveBlock T block index Size s).1 = NULL := not_not.mp hr
    simp only [hlt, hr', hi, if_true, ne_eq, not_true_eq_false, if_false]
    have e : (MemReserveBlock T block index Size s).2 = s := by
      rw [MemReserveBlock_locked T block index Size s h]
    rw [e]
    have ih' := ih
    simp only [r, e] at ih'
    exact ih' h
  | case4 index L R s hlt =>
    rw [MemAllocBlock.loop]
    simp only [hlt, if_false]

/-- When every position the loop may probe is over the size ceiling, the loop ends with
`NULL` and `MEM_UNAVAILABLE`. -/
theorem MemAllocBlock.loop_exhausted (T : Target) (block Size : Nat)
    (index L R : Nat) (s : KState) (hi : index ≤ R)
    (hl : s.gAllocLock.bLocked = false)
    (hs : ∀ i, i ≤ R → KIB * 4 < (s.hdr block i).Size) :
    (MemAllocBlock.loop T block Size index L R s).1 = NULL ∧
    (MemAllocBlock.loop T block Size index L R s).2.Result = MEM_UNAVAILABLE := by
  induction index, L, R, s using MemAllocBlock.loop.induct T block Size with
  | case1 index L R s hlt r hr =>
    have hr' : (MemReserveBlock T block index Size s).1 ≠ NULL := hr
    rw [MemReserveBlock_poison T block index Size s hl (hs index hi)] at hr'
    exact absurd rfl hr'
  | case2 L R s hlt r hr ih =>
    rw [MemAllocBlock.loop]
    have hr' : (MemReserveBlock T block L Size s).1 = NULL := not_not.mp hr
    simp only [hlt, hr', if_true, ne_eq, not_true_eq_false, if_false]
    refine ih (le_refl _) ?_ ?_
    · exact (MemReserveBlock_frame T block L Size s).2.2.2.2.1.trans hl
    · intro i hiR
      rw [MemReserveBlock_null_size T block L Size s hl (hs L hi)]
      exact hs i hiR
  | case3 index L R s hlt r hr hne ih =>
    rw [MemAllocBlock.loop]
    have hr' : (MemReserveBlock T block index Size s).1 = NULL := not_not.mp hr
    simp only [hlt, hr', hne, if_true, ne_eq, not_true_eq_false, if_false]
    refine ih (by omega) ?_ ?_
    · exact (MemReserveBlock_frame T block index Size s).2.2.2.2.1.trans hl
    · intro i hiR
      rw [MemReserveBlock_null_size T block index Size s hl (hs index hi)]
      exact hs i (by omega)
  | case4 index L R s hlt =>
    rw [MemAllocBlock.loop]
    simp only [hlt, if_false]
    exact ⟨trivial, rfl⟩

/-- Anything that `MemReserveBlock` and a store to `Result` preserve is preserved by
`MemAllocBlock`. -/
theorem MemAllocBlock_preserves (T : Target) (block Size : Nat) (P : KState → Prop)
    (hres : ∀ s r, P s → P (s.setResult r))
    (hstep : ∀ index s, P s → P (MemReserveBlock T block index Size s).2)
    (s : KState) (h : P s) : P (MemAllocBlock T block Size s).2 := by
  unfold MemAllocBlock
  simp only []
  split
  · exact hres _ _ h
  · split
    · exact hres _ _ (hres _ _ h)
    · exact MemAllocBlock.loop_preserves T block Size P hres hstep _ _ _ _ (hres _ _ (hres _ _ h))

theorem MemAllocBlock_sameFrame (T : Target) (block Size : Nat) (s : KState) :
    s.SameFrame (MemAllocBlock T block Size s).2 :=
  MemAllocBlock_preserves T block Size (fun u => s.SameFrame u)
    (fun u r h => h.trans (KState.SameFrame.setResult u r))
    (fun index u h => h.trans (MemReserveBlock_sameFrame T block index Size u))
    s (KState.SameFrame.rfl' s)

/-- The two ways `MemAllocBlock` ends on an enabled pool and a non-null block. -/
theorem MemAllocBlock_result (T : Target) (block Size : Nat) (s : KState)
    (he : s.gAllocationEnabled = true) (hb : block ≠ NULL) :
    ((MemAllocBlock T block Size s).1 ≠ NULL ∧
      (MemAllocBlock T block Size s).2.Result = ERR_SUCCESS) ∨
    ((MemAllocBlock T block Size s).1 = NULL ∧
      (MemAllocBlock T block Size s).2.Result = MEM_UNAVAILABLE) := by
  unfold MemAllocBlock
  simp only [KState.setResult_gAllocationEnabled, he, Bool.not_true, Bool.false_eq_true,
    if_false, hb]
  exact MemAllocBlock.loop_result T block Size _ _ _ _

/-- A non-null result of `MemAllocBlock` is the block base plus the adjusted size. -/
theorem MemAllocBlock_ne_null (T : Target) (block Size : Nat) (s : KState)
    (h : (MemAllocBlock T block Size s).1 ≠ NULL) :
    (MemAllocBlock T block Size s).1 = blkAdd T block (adjustSize T Size) := by
  unfold MemAllocBlock at h ⊢
  simp only [] at h ⊢
  split at h
  · exact absurd rfl h
  · split at h
    · exact absurd rfl h
    · rename_i h1 h2
      simp only [h1, h2, if_false]
      exact (MemAllocBlock.loop_ne_null T block Size _ _ _ _ (Nat.zero_le _) h).1


/-- When the search does not end at position 512 (slot 0 can be reserved, or position 512 is
over the ceiling), a non-null result is recorded by one of the 512 slots of the array. -/
theorem MemAllocBlock_ne_null_slot (T : Target) (block Size : Nat) (s : KState)
    (hin : (s.hdr block 0).Size ≤ KIB * 4 ∨ KIB * 4 < (s.hdr block MEM_MAX_HEADERS).Size)
    (h : (MemAllocBlock T block Size s).1 ≠ NULL) :
    ∃ i, i < MEM_MAX_HEADERS ∧
      ((MemAllocBlock T block Size s).2.hdr block i).Used = true ∧
      ((MemAllocBlock T block Size s).2.hdr block i).VirtualAddress =
        (MemAllocBlock T block Size s).1 := by
  unfold MemAllocBlock at h ⊢
  simp only [] at h ⊢
  split at h
  · exact absurd rfl h
  · split at h
    · exact absurd rfl h
    · rename_i h1 h2
      simp only [h1, h2, if_false]
      generalize hs2 : (s.setResult MEM_NOT_ENABLED).setResult ERR_NULL = s2 at h ⊢
      have hsz : ∀ j, (s2.hdr block j).Size = (s.hdr block j).Size := by
        intro j; rw [← hs2]; rfl
      have hlk : s2.gAllocLock.bLocked = s.gAllocLock.bLocked := by rw [← hs2]; rfl
      by_cases hl : s2.gAllocLock.bLocked = true
      · rw [MemAllocBlock.loop_locked T block Size _ _ _ s2 hl] at h
        exact absurd rfl h
      · have hl' : s2.gAllocLock.bLocked = false := by simpa using hl
        by_cases h0 : KIB * 4 < (s2.hdr block 0).Size
        · -- slot 0 is refused, then position 512 is refused, then the probes stay below 512
          have h512 : KIB * 4 < (s2.hdr block MEM_MAX_HEADERS).Size := by
            rw [hsz] at h0 ⊢
            rcases hin with hin | hin
            · omega
            · exact hin
          have e0 := MemReserveBlock_poison T block 0 Size s2 hl' h0
          have step1 : MemAllocBlock.loop T block Size 0 0 MEM_MAX_HEADERS s2 =
              MemAllocBlock.loop T block Size MEM_MAX_HEADERS 1 MEM_MAX_HEADERS
                (MemReserveBlock T block 0 Size s2).2 := by
            have hlt : 0 < MEM_MAX_HEADERS := by decide
            rw [MemAllocBlock.loop]
            simp [e0, hlt]
          generalize hs3 : (MemReserveBlock T block 0 Size s2).2 = s3 at step1
          have hl3 : s3.gAllocLock.bLocked = false := by
            rw [← hs3]
            exact (MemReserveBlock_frame T block 0 Size s2).2.2.2.2.1.trans hl'
          have h512' : KIB * 4 < (s3.hdr block MEM_MAX_HEADERS).Size := by
            rw [← hs3, MemReserveBlock_null_size T block 0 Size s2 hl' h0]
            exact h512
          have e1 := MemReserveBlock_poison T block MEM_MAX_HEADERS Size s3 hl3 h512'
          have step2 : MemAllocBlock.loop T block Size MEM_MAX_HEADERS 1 MEM_MAX_HEADERS s3 =
              MemAllocBlock.loop T block Size 1 1 (MEM_MAX_HEADERS - 1)
                (MemReserveBlock T block MEM_MAX_HEADERS Size s3).2 := by
            have hlt : 1 < MEM_MAX_HEADERS := by decide
            have hne : ¬ MEM_MAX_HEADERS = 1 := by decide
            rw [MemAllocBlock.loop]
            simp [e1, hlt, hne]
          rw [step1, step2] at h ⊢
          obtain ⟨_, i, hi, hu, hv⟩ :=
            MemAllocBlock.loop_ne_null T block Size 1 1 (MEM_MAX_HEADERS - 1) _
              (by simp [MEM_MAX_HEADERS]) h
          exact ⟨i, by simp [MEM_MAX_HEADERS] at hi ⊢; omega, hu, hv⟩
        · -- slot 0 is reserved
          have hok := MemReserveBlock_ok T block 0 Size s2 hl' (by omega)
          have hall := (MemAllocBlock.loop_ne_null T block Size 0 0 MEM_MAX_HEADERS s2
            (Nat.zero_le _) h).1
          have hne : (MemReserveBlock T block 0 Size s2).1 ≠ NULL := by
            rw [hok.1, ← hall]; exact h
          have step : MemAllocBlock.loop T block Size 0 0 MEM_MAX_HEADERS s2 =
              ((MemReserveBlock T block 0 Size s2).1,
                (MemReserveBlock T block 0 Size s2).2.setResult ERR_SUCCESS) := by
            rw [MemAllocBlock.loop]
            simp [hne, MEM_MAX_HEADERS]
          rw [step]
          refine ⟨0, by simp [MEM_MAX_HEADERS], ?_, ?_⟩
          · simp [hok.2]
          · simp [hok.2, hok.1]

/-! ## The sentinel checks -/

theorem MemAlloc.checkMagic_iff (s : KState) (block k i : Nat) :
    MemAlloc.checkMagic s block k i = true ↔
      ∀ j, i ≤ j → j < i + k → (s.hdr block j).Magic = MEM_MAGIC := by
  induction k generalizing i with
  | zero =>
    simp only [MemAlloc.checkMagic, true_iff]
    intro j h1 h2
    omega
  | succ k ih =>
    unfold MemAlloc.checkMagic
    by_cases hm : (s.hdr block i).Magic = MEM_MAGIC
    · simp only [hm, if_true, ih]
      constructor
      · intro h j h1 h2
        by_cases hj : j = i
        · subst hj; exact hm
        · exact h j (by omega) (by omega)
      · intro h j h1 h2
        exact h j (by omega) (by omega)
    · simp only [hm, if_false, Bool.false_eq_true, false_iff]
      intro h
      exact hm (h i (le_refl _) (by omega))

theorem MemAlloc.checkMagic_eq_true (s : KState) (block : Nat) (h : s.magicOk block) :
    MemAlloc.checkMagic s block MEM_MAX_HEADERS 0 = true := by
  rw [MemAlloc.checkMagic_iff]
  intro j _ h2
  exact h j (by omega)

theorem MemAlloc.checkMagic_eq_false (s : KState) (block i : Nat) (hi : i < MEM_MAX_HEADERS)
    (h : (s.hdr block i).Magic ≠ MEM_MAGIC) :
    MemAlloc.checkMagic s block MEM_MAX_HEADERS 0 = false := by
  rw [← Bool.not_eq_true, MemAlloc.checkMagic_iff]
  intro hall
  exact h (hall i (Nat.zero_le _) (by omega))

/-- The loop of `MemInitAllocationList` stops with a fatal check at a slot in use. -/
theorem MemInitAllocationList.loop_fatal (block k i : Nat) (s : KState)
    (h : ∃ j, i ≤ j ∧ j < i + k ∧ (s.hdr block j).Used = true) :
    MemInitAllocationList.loop block k i s = .fatal .check := by
  induction k generalizing i s with
  | zero =>
    obtain ⟨j, h1, h2, _⟩ := h
    omega
  | succ k ih =>
    unfold MemInitAllocationList.loop
    by_cases hu : (s.hdr block i).Used = true
    · simp [hu]
    · simp only [hu, Bool.false_eq_true, if_false]
      apply ih
      obtain ⟨j, h1, h2, h3⟩ := h
      have hji : j ≠ i := by
        intro e; subst e; exact hu h3
      refine ⟨j, by omega, by omega, ?_⟩
      simpa [hji] using h3

/-- When no slot is in use the loop of `MemInitAllocationList` returns, having written the
sentinel into the slots it visited and nothing else. -/
theorem MemInitAllocationList.loop_ret (block k i : Nat) (s : KState)
    (h : ∀ j, i ≤ j → j < i + k → (s.hdr block j).Used = false) :
    ∃ s', MemInitAllocationList.loop block k i s = .ret () s' ∧ s.SameFrame s' ∧
      s'.Result = s.Result ∧ s'.gAllocLock = s.gAllocLock ∧
      ∀ b j, s'.hdr b j =
        if b = block ∧ i ≤ j ∧ j < i + k then { s.hdr b j with Magic := MEM_MAGIC }
        else s.hdr b j := by
  induction k generalizing i s with
  | zero =>
    refine ⟨s, rfl, KState.SameFrame.rfl' s, rfl, rfl, ?_⟩
    intro b j
    have h0 : ¬ (b = block ∧ i ≤ j ∧ j < i + 0) := by omega
    rw [if_neg h0]
  | succ k ih =>
    unfold MemInitAllocationList.loop
    have hu : (s.hdr block i).Used = false := h i (le_refl _) (by omega)
    rw [if_neg (by simp [hu])]
    have hnext : ∀ j, i + 1 ≤ j → j < i + 1 + k →
        ((s.setHdr block i { s.hdr block i with Magic := MEM_MAGIC }).hdr block j).Used
          = false := by
      intro j h1 h2
      have hji : j ≠ i := by omega
      simpa [hji] using h j (by omega) (by omega)
    obtain ⟨s', e, hf, hr, hlk, hh⟩ := ih (i + 1) _ hnext
    refine ⟨s', e, ?_, ?_, ?_, ?_⟩
    · have h0 : s.SameFrame (s.setHdr block i { s.hdr block i with Magic := MEM_MAGIC }) :=
        ⟨rfl, rfl, rfl, rfl, rfl, fun a => KState.setHdr_Next s block i _ a⟩
      exact h0.trans hf
    · rw [hr]; rfl
    · rw [hlk]; rfl
    · intro b j
      rw [hh b j]
      by_cases hb : b = block
      · subst hb
        by_cases hj : j = i
        · subst hj
          have h1 : ¬ (j + 1 ≤ j ∧ j < j + 1 + k) := by omega
          have h2 : (j ≤ j ∧ j < j + (k + 1)) := by omega
          simp [h1, h2]
        · have h3 : (i + 1 ≤ j ∧ j < i + 1 + k) ↔ (i ≤ j ∧ j < i + (k + 1)) := by omega
          simp [hj, h3]
      · simp [hb]

theorem MemInitAllocationList_of_magic (block : Nat) (s : KState) (hb : block ≠ NULL)
    (h0 : (s.hdr block 0).Magic = MEM_MAGIC) : MemInitAllocationList block s = .ret () s := by
  unfold MemInitAllocationList
  rw [if_neg hb, if_neg (not_not.mpr h0)]

theorem MemInitAllocationList_of_lost (block : Nat) (s : KState) (hb : block ≠ NULL)
    (h0 : (s.hdr block 0).Magic ≠ MEM_MAGIC) :
    MemInitAllocationList block s = MemInitAllocationList.loop block MEM_MAX_HEADERS 0 s := by
  unfold MemInitAllocationList
  rw [if_neg hb, if_pos h0]

/-- With a null argument `MemExpandBlock` ends in the out-of-memory trap. -/
theorem MemExpandBlock_null (T : Target) (s : KState) :
    MemExpandBlock T NULL s = .fatal .outOfMemory := by
  simp [MemExpandBlock, MemAllocNextBlock]


/-! ## `MemAlloc` -/

theorem MemAlloc.loop_of_ne_null (T : Target) (Size cur fuel a : Nat) (s : KState)
    (h : a ≠ NULL) : MemAlloc.loop T Size cur fuel a s = .ret a s := by
  cases fuel <;> simp [MemAlloc.loop, h]

/-- One pass of the loop of `MemAlloc` decides the call: a failed sentinel check is fatal, a
reserved address is returned, and a block without a slot ends in the out-of-memory trap,
because `MemExpandBlock` is handed `allocatedBlock`, which is `NULL` there. -/
theorem MemAlloc.loop_succ (T : Target) (Size cur fuel : Nat) (s : KState)
    (he : s.gAllocationEnabled = true) (hc : cur ≠ NULL) :
    MemAlloc.loop T Size cur (fuel + 1) NULL s =
      if MemAlloc.checkMagic s cur MEM_MAX_HEADERS 0 then
        if (MemAllocBlock T cur Size s).1 ≠ NULL then
          .ret (MemAllocBlock T cur Size s).1 (MemAllocBlock T cur Size s).2
        else .fatal .outOfMemory
      else .fatal .check := by
  rw [MemAlloc.loop]
  simp only [ne_eq, not_true_eq_false, if_false]
  by_cases hm : MemAlloc.checkMagic s cur MEM_MAX_HEADERS 0 = true
  · simp only [hm, if_true]
    rcases MemAllocBlock_result T cur Size s he hc with ⟨h1, h2⟩ | ⟨h1, h2⟩
    · have h3 : ¬ (MemAllocBlock T cur Size s).2.Result = MEM_UNAVAILABLE := by
        rw [h2]; decide
      rw [if_neg h3, if_pos h1]
      exact MemAlloc.loop_of_ne_null T Size cur fuel _ _ h1
    · rw [if_pos h2, h1, MemExpandBlock_null]
      simp [Outcome.bind]
  · simp [hm]

theorem MemAlloc_enabled (T : Target) (fuel n : Nat) (s : KState)
    (he : s.gAllocationEnabled = true) (hn : 1 ≤ n) :
    MemAlloc T fuel n s =
      (MemInitAllocationList s.gBaseAddress (s.setResult MEM_INVALID_SIZE)).bind
        (fun _ s3 => MemAlloc.loop T n s.gBaseAddress fuel NULL s3) := by
  have hn' : ¬ n < 1 := by omega
  simp [MemAlloc, he, hn']

/-- The call on an enabled pool whose base block carries every sentinel. -/
theorem MemAlloc_of_magicOk (T : Target) (fuel n : Nat) (s : KState)
    (he : s.gAllocationEnabled = true) (hn : 1 ≤ n) (hb : s.gBaseAddress ≠ NULL)
    (hm : s.magicOk s.gBaseAddress) :
    MemAlloc T (fuel + 1) n s =
      if (MemAllocBlock T s.gBaseAddress n (s.setResult MEM_INVALID_SIZE)).1 ≠ NULL then
        .ret (MemAllocBlock T s.gBaseAddress n (s.setResult MEM_INVALID_SIZE)).1
          (MemAllocBlock T s.gBaseAddress n (s.setResult MEM_INVALID_SIZE)).2
      else .fatal .outOfMemory := by
  rw [MemAlloc_enabled T _ n s he hn]
  have h0 : ¬ ((s.setResult MEM_INVALID_SIZE).hdr s.gBaseAddress 0).Magic ≠ MEM_MAGIC := by
    simpa using hm 0 (by decide)
  simp only [MemInitAllocationList, hb, if_false, h0, Outcome.bind]
  rw [MemAlloc.loop_succ T n _ fuel _ (by simpa using he) hb]
  have hc : MemAlloc.checkMagic (s.setResult MEM_INVALID_SIZE) s.gBaseAddress
      MEM_MAX_HEADERS 0 = true :=
    MemAlloc.checkMagic_eq_true _ _ (fun i hi => by simpa using hm i hi)
  simp only [hc, if_true]

/-- A search that can take slot 0 takes it. -/
theorem MemAllocBlock_slot0 (T : Target) (block n : Nat) (s : KState)
    (he : s.gAllocationEnabled = true) (hb : block ≠ NULL)
    (hl : s.gAllocLock.bLocked = false) (hs : (s.hdr block 0).Size ≤ KIB * 4)
    (hp : blkAdd T block (adjustSize T n) ≠ NULL) :
    MemAllocBlock T block n s =
      (blkAdd T block (adjustSize T n),
        (MemReserveBlock T block 0 n (s.setResult ERR_NULL)).2.setResult ERR_SUCCESS) := by
  unfold MemAllocBlock
  simp only [KState.setResult_gAllocationEnabled, he, Bool.not_true, Bool.false_eq_true,
    if_false, hb, KState.setResult_setResult]
  have hok := MemReserveBlock_ok T block 0 n (s.setResult ERR_NULL) (by simpa using hl)
    (by simpa using hs)
  have hne : (MemReserveBlock T block 0 n (s.setResult ERR_NULL)).1 ≠ NULL := by
    rw [hok.1]; exact hp
  have hlt : 0 < MEM_MAX_HEADERS := by decide
  rw [MemAllocBlock.loop]
  simp only [hlt, if_true, ne_eq, hok.1]
  rw [if_pos hp]

/-- The state a call leaves differs from the one it found only in headers, lock cache and
`Result`. -/
theorem MemAlloc_sameFrame (T : Target) (fuel n : Nat) (s : KState) (p : Nat) (s' : KState)
    (h : MemAlloc T fuel n s = .ret p s') : s.SameFrame s' := by
  by_cases he : s.gAllocationEnabled = true
  · by_cases hn : 1 ≤ n
    · rw [MemAlloc_enabled T fuel n s he hn] at h
      by_cases hb : s.gBaseAddress = NULL
      · simp [MemInitAllocationList, hb, Outcome.bind] at h
      · have key : ∀ s3 : KState, s.SameFrame s3 →
            MemAlloc.loop T n s.gBaseAddress fuel NULL s3 = .ret p s' → s.SameFrame s' := by
          intro s3 hf hl
          cases fuel with
          | zero => simp [MemAlloc.loop] at hl
          | succ fuel =>
            rw [MemAlloc.loop_succ T n _ fuel s3 (hf.enabled.trans he) hb] at hl
            split at hl
            · split at hl
              · injection hl with _ h2
                rw [← h2]
                exact hf.trans (MemAllocBlock_sameFrame T _ n s3)
              · cases hl
            · cases hl
        unfold MemInitAllocationList at h
        simp only [hb, if_false] at h
        split at h
        · by_cases hu : ∃ j, 0 ≤ j ∧ j < 0 + MEM_MAX_HEADERS ∧
              ((s.setResult MEM_INVALID_SIZE).hdr s.gBaseAddress j).Used = true
          · rw [MemInitAllocationList.loop_fatal _ _ _ _ hu] at h
            simp [Outcome.bind] at h
          · have hu' : ∀ j, 0 ≤ j → j < 0 + MEM_MAX_HEADERS →
                ((s.setResult MEM_INVALID_SIZE).hdr s.gBaseAddress j).Used = false := by
              intro j h1 h2
              by_contra hc
              exact hu ⟨j, h1, h2, by simpa using hc⟩
            obtain ⟨s3, e, hf, _, _, _⟩ := MemInitAllocationList.loop_ret _ _ _ _ hu'
            rw [e] at h
            simp only [Outcome.bind] at h
            exact key s3 ((KState.SameFrame.setResult s _).trans hf) h
        · simp only [Outcome.bind] at h
          exact key _ (KState.SameFrame.setResult s _) h
    · have hn' : n < 1 := by omega
      simp only [MemAlloc, KState.setResult_gAllocationEnabled, he, Bool.not_true,
        Bool.false_eq_true, if_false, hn', if_true] at h
      injection h with _ h2
      rw [← h2]
      exact ⟨rfl, rfl, rfl, rfl, rfl, fun _ => rfl⟩
  · simp only [MemAlloc, KState.setResult_gAllocationEnabled, he, Bool.not_eq_true] at h
    have he' : s.gAllocationEnabled = false := by simpa using he
    simp only [he', Bool.not_false, if_true] at h
    injection h with _ h2
    rw [← h2]
    exact ⟨rfl, rfl, rfl, rfl, rfl, fun _ => rfl⟩


/-- A block whose every position is over the size ceiling has no slot to give. -/
theorem MemAllocBlock_exhausted (T : Target) (block n : Nat) (s : KState)
    (he : s.gAllocationEnabled = true) (hb : block ≠ NULL)
    (hl : s.gAllocLock.bLocked = false)
    (hs : ∀ i, i ≤ MEM_MAX_HEADERS → KIB * 4 < (s.hdr block i).Size) :
    (MemAllocBlock T block n s).1 = NULL ∧
    (MemAllocBlock T block n s).2.Result = MEM_UNAVAILABLE := by
  unfold MemAllocBlock
  simp only [KState.setResult_gAllocationEnabled, he, Bool.not_true, Bool.false_eq_true,
    if_false, hb, KState.setResult_setResult]
  exact MemAllocBlock.loop_exhausted T block n 0 0 MEM_MAX_HEADERS _ (Nat.zero_le _)
    (by simpa using hl) (fun i hi => by simpa using hs i hi)

/-- The call that finds slot 0 free of the size ceiling returns the block base plus the
adjusted size. -/
theorem MemAlloc_slot0 (T : Target) (fuel n : Nat) (s : KState)
    (he : s.gAllocationEnabled = true) (hn : 1 ≤ n) (hb : s.gBaseAddress ≠ NULL)
    (hm : s.magicOk s.gBaseAddress) (hl : s.gAllocLock.bLocked = false)
    (hs : (s.hdr s.gBaseAddress 0).Size ≤ KIB * 4)
    (hp : blkAdd T s.gBaseAddress (adjustSize T n) ≠ NULL) :
    MemAlloc T (fuel + 1) n s =
      .ret (blkAdd T s.gBaseAddress (adjustSize T n))
        ((MemReserveBlock T s.gBaseAddress 0 n (s.setResult ERR_NULL)).2.setResult
          ERR_SUCCESS) := by
  rw [MemAlloc_of_magicOk T fuel n s he hn hb hm]
  rw [MemAllocBlock_slot0 T s.gBaseAddress n (s.setResult MEM_INVALID_SIZE)
    (by simpa using he) hb (by simpa using hl) (by simpa using hs) hp]
  simp only [ne_eq, hp, not_false_eq_true, if_true, KState.setResult_setResult]

/-- The call on a base block without a slot ends in the out-of-memory trap: no block is
linked and no address is returned. -/
theorem MemAlloc_unavailable (T : Target) (fuel n : Nat) (s : KState)
    (he : s.gAllocationEnabled = true) (hn : 1 ≤ n) (hb : s.gBaseAddress ≠ NULL)
    (hm : s.magicOk s.gBaseAddress)
    (hu : (MemAllocBlock T s.gBaseAddress n (s.setResult MEM_INVALID_SIZE)).2.Result =
      MEM_UNAVAILABLE) :
    MemAlloc T (fuel + 1) n s = .fatal .outOfMemory := by
  rw [MemAlloc_of_magicOk T fuel n s he hn hb hm]
  rcases MemAllocBlock_result T s.gBaseAddress n (s.setResult MEM_INVALID_SIZE)
    (by simpa using he) hb with ⟨_, h2⟩ | ⟨h1, _⟩
  · rw [h2] at hu; cases hu
  · simp [h1]

/-- What a returning `MemInitAllocationList` leaves: the block is not null, and headers differ
from before at most in that a sentinel was written. -/
theorem MemInitAllocationList_ret (block : Nat) (s s3 : KState) (u : Unit)
    (h : MemInitAllocationList block s = .ret u s3) :
    block ≠ NULL ∧ s.SameFrame s3 ∧ s3.gAllocLock = s.gAllocLock ∧
    (∀ b j, (s3.hdr b j).Size = (s.hdr b j).Size ∧ (s3.hdr b j).Used = (s.hdr b j).Used ∧
      (s3.hdr b j).VirtualAddress = (s.hdr b j).VirtualAddress ∧
      ((s3.hdr b j).Magic = (s.hdr b j).Magic ∨ (s3.hdr b j).Magic = MEM_MAGIC)) := by
  by_cases hb : block = NULL
  · simp [MemInitAllocationList, hb] at h
  · refine ⟨hb, ?_⟩
    by_cases h0 : (s.hdr block 0).Magic = MEM_MAGIC
    · rw [MemInitAllocationList_of_magic block s hb h0] at h
      injection h with _ h2
      subst h2
      exact ⟨KState.SameFrame.rfl' s, rfl, fun b j => ⟨rfl, rfl, rfl, Or.inl rfl⟩⟩
    · rw [MemInitAllocationList_of_lost block s hb h0] at h
      by_cases hu : ∃ j, 0 ≤ j ∧ j < 0 + MEM_MAX_HEADERS ∧ (s.hdr block j).Used = true
      · rw [MemInitAllocationList.loop_fatal _ _ _ _ hu] at h
        cases h
      · have hu' : ∀ j, 0 ≤ j → j < 0 + MEM_MAX_HEADERS → (s.hdr block j).Used = false := by
          intro j h1 h2
          by_contra hc
          exact hu ⟨j, h1, h2, by simpa using hc⟩
        obtain ⟨s', e, hf, _, hlk, hh⟩ := MemInitAllocationList.loop_ret block _ _ s hu'
        rw [e] at h
        injection h with _ h2
        subst h2
        refine ⟨hf, hlk, ?_⟩
        intro b j
        rw [hh b j]
        split
        · exact ⟨rfl, rfl, rfl, Or.inr rfl⟩
        · exact ⟨rfl, rfl, rfl, Or.inl rfl⟩

/-- How a returning call on an enabled pool with `n ≥ 1` came about: the base block is not
null, `MemInitAllocationList` returned, and the address and final state are those of one
block-level search. -/
theorem MemAlloc_ret_cases (T : Target) (fuel n : Nat) (s : KState) (p : Nat) (s' : KState)
    (he : s.gAllocationEnabled = true) (hn : 1 ≤ n) (h : MemAlloc T fuel n s = .ret p s') :
    s.gBaseAddress ≠ NULL ∧ ∃ s3,
      MemInitAllocationList s.gBaseAddress (s.setResult MEM_INVALID_SIZE) = .ret () s3 ∧
      p = (MemAllocBlock T s.gBaseAddress n s3).1 ∧
      s' = (MemAllocBlock T s.gBaseAddress n s3).2 ∧ p ≠ NULL := by
  rw [MemAlloc_enabled T fuel n s he hn] at h
  cases hinit : MemInitAllocationList s.gBaseAddress (s.setResult MEM_INVALID_SIZE) with
  | fatal f => rw [hinit] at h; cases h
  | outOfFuel => rw [hinit] at h; cases h
  | ret u s3 =>
    rw [hinit] at h
    simp only [Outcome.bind] at h
    obtain ⟨hb, hf, _, _⟩ := MemInitAllocationList_ret _ _ _ _ hinit
    refine ⟨hb, s3, rfl, ?_⟩
    have he3 : s3.gAllocationEnabled = true := hf.enabled.trans (by simpa using he)
    cases fuel with
    | zero => simp [MemAlloc.loop] at h
    | succ fuel =>
      rw [MemAlloc.loop_succ T n _ fuel s3 he3 hb] at h
      split at h
      · split at h
        · rename_i hne
          injection h with h1 h2
          exact ⟨h1.symm, h2.symm, by rw [← h1]; exact hne⟩
        · cases h
      · cases h

/-! ## `MemFree` -/

/-- A slot that is not in use, or records another address, is skipped without a trace. -/
theorem MemFreeBlock_miss (T : Target) (c i p : Nat) (s : KState)
    (h : ¬ ((s.hdr c i).Used = true ∧ (s.hdr c i).VirtualAddress = p)) :
    MemFreeBlock T c i p s = (-1, s) := by
  unfold MemFreeBlock
  by_cases hu : (s.hdr c i).Used = true
  · have hv : (s.hdr c i).VirtualAddress ≠ p := fun e => h ⟨hu, e⟩
    simp [hu, hv]
  · simp [hu]

/-- A slot in use that records the address is released: `MemFreeBlock` returns 0, and what it
leaves in the headers. -/
theorem MemFreeBlock_hit (T : Target) (c i p : Nat) (s : KState)
    (hu : (s.hdr c i).Used = true) (hv : (s.hdr c i).VirtualAddress = p) :
    (MemFreeBlock T c i p s).1 = 0 ∧
    (((MemFreeBlock T c i p s).2.hdr c i).Used = false ↔
      ((MemFreeBlock T c i p s).2.hdr c i).Size = 0) ∧
    (∀ b j, ¬ (b = c ∧ j = i) → (MemFreeBlock T c i p s).2.hdr b j = s.hdr b j) := by
  unfold MemFreeBlock
  simp only [hu, hv, Bool.not_true, Bool.false_eq_true, if_false, ne_eq, not_true_eq_false]
  refine ⟨trivial, ?_, ?_⟩
  · split
    · rename_i hz
      simp only [KState.hdr_setHdr, and_self, if_true] at hz ⊢
      constructor
      · intro _; omega
      · intro _; trivial
    · rename_i hz
      simp only [KState.hdr_setHdr, and_self, if_true, KState.hdr_setMem, hu] at hz ⊢
      constructor
      · intro hc; cases hc
      · intro hc; omega
  · intro b j hbj
    split <;> simp [hbj]

theorem MemFreeBlock_gBaseAddress (T : Target) (c i p : Nat) (s : KState) :
    (MemFreeBlock T c i p s).2.gBaseAddress = s.gBaseAddress := by
  unfold MemFreeBlock
  by_cases hu : (s.hdr c i).Used = true
  · by_cases hv : (s.hdr c i).VirtualAddress = p
    · simp only [hu, hv, Bool.not_true, Bool.false_eq_true, if_false, ne_eq,
        not_true_eq_false]
      split <;> simp
    · simp [hu, hv]
  · simp [hu]

theorem MemFree.scan_none (T : Target) (c p k index : Nat) (s : KState)
    (h : ∀ j, index ≤ j → j < index + k →
      ¬ ((s.hdr c j).Used = true ∧ (s.hdr c j).VirtualAddress = p)) :
    MemFree.scan T c p k index s = none := by
  induction k generalizing index with
  | zero => rfl
  | succ k ih =>
    unfold MemFree.scan
    rw [MemFreeBlock_miss T c index p s (h index (le_refl _) (by omega))]
    simp only [if_true]
    exact ih (index + 1) (fun j h1 h2 => h j (by omega) (by omega))

/-- The slot loop of `MemFree` stops at the first slot in use that records the address. -/
theorem MemFree.scan_some (T : Target) (c p k index : Nat) (s : KState)
    (h : ∃ j, index ≤ j ∧ j < index + k ∧
      (s.hdr c j).Used = true ∧ (s.hdr c j).VirtualAddress = p) :
    ∃ j, index ≤ j ∧ j < index + k ∧
      (s.hdr c j).Used = true ∧ (s.hdr c j).VirtualAddress = p ∧
      (∀ j', index ≤ j' → j' < j →
        ¬ ((s.hdr c j').Used = true ∧ (s.hdr c j').VirtualAddress = p)) ∧
      MemFree.scan T c p k index s =
        some (ERR_SUCCESS, (MemFreeBlock T c j p s).2.setResult ERR_SUCCESS) := by
  induction k generalizing index with
  | zero =>
    obtain ⟨j, h1, h2, _⟩ := h
    omega
  | succ k ih =>
    by_cases hm : (s.hdr c index).Used = true ∧ (s.hdr c index).VirtualAddress = p
    · refine ⟨index, le_refl _, by omega, hm.1, hm.2, ?_, ?_⟩
      · intro j' h1 h2; omega
      · unfold MemFree.scan
        have h0 := (MemFreeBlock_hit T c index p s hm.1 hm.2).1
        simp [h0]
    · obtain ⟨j, h1, h2, h3, h4⟩ := h
      have hne : j ≠ index := by
        intro e; subst e; exact hm ⟨h3, h4⟩
      obtain ⟨j0, g1, g2, g3, g4, g5, g6⟩ := ih (index + 1) ⟨j, by omega, by omega, h3, h4⟩
      refine ⟨j0, by omega, by omega, g3, g4, ?_, ?_⟩
      · intro j' h1' h2'
        by_cases e : j' = index
        · subst e; exact hm
        · exact g5 j' (by omega) h2'
      · unfold MemFree.scan
        rw [MemFreeBlock_miss T c index p s hm]
        simp only [if_true]
        exact g6

/-- Without a slot in use that records the address, the walk ends as soon as the chain
does, with `MEM_UNAVAILABLE` and nothing changed but `Result`. -/
theorem MemFree.walk_none (T : Target) (p k : Nat) (fuel a : Nat) (s : KState)
    (hk : s.follow a k = NULL) (hf : k ≤ fuel)
    (h : ∀ b j, j < MEM_MAX_HEADERS →
      ¬ ((s.hdr b j).Used = true ∧ (s.hdr b j).VirtualAddress = p)) :
    MemFree.walk T p fuel a s = .ret MEM_UNAVAILABLE (s.setResult MEM_UNAVAILABLE) := by
  induction k generalizing fuel a with
  | zero =>
    have ha : a = NULL := hk
    cases fuel <;> simp [MemFree.walk, ha]
  | succ k ih =>
    by_cases ha : a = NULL
    · cases fuel <;> simp [MemFree.walk, ha]
    · cases fuel with
      | zero => omega
      | succ fuel =>
        rw [MemFree.walk]
        simp only [ha, if_false]
        rw [MemFree.scan_none T a p MEM_MAX_HEADERS 0 s (fun j _ h2 => h a j (by omega))]
        exact ih fuel _ hk (by omega)

/-- Without a slot in use that records the address, the walk either is still under way
when the fuel is used up or has ended with `MEM_UNAVAILABLE` and nothing changed but
`Result`. -/
theorem MemFree.walk_none_or (T : Target) (p : Nat) (fuel a : Nat) (s : KState)
    (h : ∀ b j, j < MEM_MAX_HEADERS →
      ¬ ((s.hdr b j).Used = true ∧ (s.hdr b j).VirtualAddress = p)) :
    MemFree.walk T p fuel a s = .outOfFuel ∨
    MemFree.walk T p fuel a s = .ret MEM_UNAVAILABLE (s.setResult MEM_UNAVAILABLE) := by
  induction fuel generalizing a with
  | zero =>
    by_cases ha : a = NULL <;> simp [MemFree.walk, ha]
  | succ fuel ih =>
    by_cases ha : a = NULL
    · simp [MemFree.walk, ha]
    · rw [MemFree.walk]
      simp only [ha, if_false]
      rw [MemFree.scan_none T a p MEM_MAX_HEADERS 0 s (fun j _ h2 => h a j (by omega))]
      exact ih _

/-- Without a slot in use that records the address, the walk never ends on a block whose
`Next` link points at the block itself. -/
theorem MemFree.walk_cycle (T : Target) (p : Nat) (fuel a : Nat) (s : KState)
    (ha : a ≠ NULL) (hc : (s.blocks a).Next = a)
    (h : ∀ j, j < MEM_MAX_HEADERS →
      ¬ ((s.hdr a j).Used = true ∧ (s.hdr a j).VirtualAddress = p)) :
    MemFree.walk T p fuel a s = .outOfFuel := by
  induction fuel with
  | zero => simp [MemFree.walk, ha]
  | succ fuel ih =>
    rw [MemFree.walk]
    simp only [ha, if_false]
    rw [MemFree.scan_none T a p MEM_MAX_HEADERS 0 s (fun j _ h2 => h j (by omega))]
    simp only [hc]
    exact ih

/-- The size a released slot is left with: the recorded size, because the second
`StringLength` is taken after the zero fill and is 0. -/
theorem MemFreeBlock_hit_size (T : Target) (c i p : Nat) (s : KState)
    (hu : (s.hdr c i).Used = true) (hv : (s.hdr c i).VirtualAddress = p) :
    ((MemFreeBlock T c i p s).2.hdr c i).Size = (s.hdr c i).Size % T.wordMod := by
  unfold MemFreeBlock
  simp only [hu, hv, Bool.not_true, Bool.false_eq_true, if_false, ne_eq, not_true_eq_false,
    KState.setMem_mem, StringLength_after_SetMem, subW_zero, KState.hdr_setMem]
  split <;> simp

/-- On an enabled pool, `MemFree` of a non-null pointer that a slot in use of the base
block records returns `ERR_SUCCESS`, having released the first such slot. -/
theorem MemFree_hit (T : Target) (fuel p : Nat) (s : KState)
    (he : s.gAllocationEnabled = true) (hp : p ≠ NULL) (hb : s.gBaseAddress ≠ NULL)
    (h : ∃ i, i < MEM_MAX_HEADERS ∧ (s.hdr s.gBaseAddress i).Used = true ∧
      (s.hdr s.gBaseAddress i).VirtualAddress = p) :
    ∃ k, k < MEM_MAX_HEADERS ∧ (s.hdr s.gBaseAddress k).Used = true ∧
      (s.hdr s.gBaseAddress k).VirtualAddress = p ∧
      (∀ j, j < k → ¬ ((s.hdr s.gBaseAddress j).Used = true ∧
        (s.hdr s.gBaseAddress j).VirtualAddress = p)) ∧
      MemFree T (fuel + 1) p s = .ret ERR_SUCCESS
        ((MemFreeBlock T s.gBaseAddress k p (s.setResult ERR_NULL)).2.setResult ERR_SUCCESS) := by
  obtain ⟨i, hi, hu, hv⟩ := h
  obtain ⟨k, _, k2, k3, k4, k5, k6⟩ := MemFree.scan_some T s.gBaseAddress p MEM_MAX_HEADERS 0
    (s.setResult ERR_NULL) ⟨i, Nat.zero_le _, by omega, by simpa using hu, by simpa using hv⟩
  refine ⟨k, by omega, by simpa using k3, by simpa using k4, ?_, ?_⟩
  · intro j hj
    simpa using k5 j (Nat.zero_le _) hj
  · unfold MemFree
    simp only [KState.setResult_gAllocationEnabled, he, Bool.not_true, Bool.false_eq_true,
      if_false, hp, KState.setResult_setResult, KState.setResult_gBaseAddress]
    rw [MemFree.walk]
    simp only [hb, if_false, k6]


/-- The state a successful reservation of slot 0 leaves is again one in which slot 0 can be
reserved, as long as its recorded size stays under the ceiling. -/
theorem MemAlloc_slot0_again (T : Target) (n : Nat) (s : KState)
    (he : s.gAllocationEnabled = true) (hm : s.magicOk s.gBaseAddress)
    (hl : s.gAllocLock.bLocked = false) (hs : (s.hdr s.gBaseAddress 0).Size ≤ KIB * 4) :
    let s2 := (MemReserveBlock T s.gBaseAddress 0 n (s.setResult ERR_NULL)).2.setResult
      ERR_SUCCESS
    s2.gAllocationEnabled = true ∧ s2.gBaseAddress = s.gBaseAddress ∧
    s2.magicOk s2.gBaseAddress ∧ s2.gAllocLock.bLocked = false ∧
    s2.hdr s.gBaseAddress 0 =
      { VirtualAddress := blkAdd T s.gBaseAddress (adjustSize T n), Magic := MEM_MAGIC,
        Size := addW T (s.hdr s.gBaseAddress 0).Size (adjustSize T n), Used := true } := by
  intro s2
  obtain ⟨f1, f2, _, _, f5, _⟩ :=
    MemReserveBlock_frame T s.gBaseAddress 0 n (s.setResult ERR_NULL)
  have hok := MemReserveBlock_ok T s.gBaseAddress 0 n (s.setResult ERR_NULL)
    (by simpa using hl) (by simpa using hs)
  refine ⟨?_, ?_, ?_, ?_, ?_⟩
  · simpa [s2] using f1.trans (by simpa using he)
  · simpa [s2] using f2
  · intro i hi
    have hb : s2.gBaseAddress = s.gBaseAddress := by simpa [s2] using f2
    rw [hb]
    simpa [s2] using MemReserveBlock_magic T s.gBaseAddress 0 n (s.setResult ERR_NULL)
      s.gBaseAddress i (by simpa using hm i hi)
  · simpa [s2] using f5.trans (by simpa using hl)
  · simpa [s2] using hok.2

/-- Two consecutive calls of the same size return the same address while the recorded size
of slot 0 stays under the ceiling: the address is computed from the block base and the size
alone, and the `Used` flag of the slot is not consulted. -/
theorem MemAlloc_twice_same (T : Target) (fuel fuel' n : Nat) (s : KState)
    (he : s.gAllocationEnabled = true) (hn : 1 ≤ n) (hb : s.gBaseAddress ≠ NULL)
    (hm : s.magicOk s.gBaseAddress) (hl : s.gAllocLock.bLocked = false)
    (hs : (s.hdr s.gBaseAddress 0).Size ≤ KIB * 4)
    (hs2 : addW T (s.hdr s.gBaseAddress 0).Size (adjustSize T n) ≤ KIB * 4)
    (hp : blkAdd T s.gBaseAddress (adjustSize T n) ≠ NULL) :
    ∃ s2 s3, MemAlloc T (fuel + 1) n s = .ret (blkAdd T s.gBaseAddress (adjustSize T n)) s2 ∧
      MemAlloc T (fuel' + 1) n s2 = .ret (blkAdd T s.gBaseAddress (adjustSize T n)) s3 ∧
      (s3.hdr s.gBaseAddress 0).Used = true := by
  obtain ⟨g1, g2, g3, g4, g5⟩ := MemAlloc_slot0_again T n s he hm hl hs
  have h2 := MemAlloc_slot0 T fuel' n _ g1 hn (by rw [g2]; exact hb) g3 g4
    (by rw [g2, g5]; exact hs2) (by rw [g2]; exact hp)
  rw [g2] at h2
  refine ⟨_, _, MemAlloc_slot0 T fuel n s he hn hb hm hl hs hp, h2, ?_⟩
  have hsz : (((MemReserveBlock T s.gBaseAddress 0 n (s.setResult ERR_NULL)).2.setResult
      ERR_SUCCESS).hdr s.gBaseAddress 0).Size ≤ KIB * 4 := by rw [g5]; exact hs2
  have g := (MemAlloc_slot0_again T n _ g1 g3 g4 (by rw [g2]; exact hsz)).2.2.2.2
  rw [g2] at g
  rw [g]

/-! ## Further lemmas on the calls -/

/-- What `MemInit` returns on a pool that is not enabled, and the statics it leaves. -/
theorem MemInit_ret (T : Target) (entries : List MemmapEntry) (s : KState)
    (hd : s.gAllocationEnabled = false) :
    ∃ s', MemInit T entries s = .ret true s' ∧ s'.gAllocationEnabled = true ∧
      s'.gBaseAddress = (MemInit.scan entries s).gBaseAddress ∧
      s'.gHighestAddress = s.gHighestAddress ∧
      s'.gAllocLock = s.gAllocLock ∧ s'.mem = s.mem ∧
      (∀ i, i < MEM_MAX_HEADERS →
        s'.hdr s'.gBaseAddress i =
          { s.hdr (MemInit.scan entries s).gBaseAddress i with
            Used := false, Magic := MEM_MAGIC }) := by
  unfold MemInit
  simp only [hd, Bool.false_eq_true, if_false]
  refine ⟨_, rfl, ?_, ?_, ?_, ?_, ?_, ?_⟩
  · simp [MemInit.headers_gAllocationEnabled]
  · simp [MemInit.headers_gBaseAddress]
  · simp [MemInit.headers_gHighestAddress, MemInit.scan_gHighestAddress]
  · simp [MemInit.headers_gAllocLock, MemInit.scan_gAllocLock]
  · simp [MemInit.headers_mem, MemInit.scan_mem]
  · intro i hi
    rw [MemInit.headers_gBaseAddress, MemInit.headers_hdr]
    have hc : ¬ MEM_MAX_HEADERS ≤ i := by omega
    simp [hc, MemInit.scan_hdr]

/-- The scan and the header loop of `MemInit` leave every recorded size as it was. -/
theorem MemInit_Size (T : Target) (entries : List MemmapEntry) (s s' : KState)
    (h : MemInit T entries s = .ret true s') (b j : Nat) :
    (s'.hdr b j).Size = (s.hdr b j).Size := by
  unfold MemInit at h
  split at h
  · cases h
  · have h2 := (Outcome.ret.inj h).2
    rw [← h2, MemInit.headers_hdr]
    split <;> simp [MemInit.scan_hdr]

/-- The state `freshPool` is left in by `MemAlloc(64)`. -/
theorem MemAlloc_freshPool :
    MemAlloc x86_64 1 64 freshPool =
      .ret (0x100000 + 64 * sizeofMemBlk x86_64) freshPoolAlloc64 :=
  MemAlloc_slot0 x86_64 0 64 freshPool rfl (by decide) (by decide) (fun _ _ => rfl) rfl
    (by decide) (by decide)

theorem freshPoolAlloc64_props :
    freshPoolAlloc64.gAllocationEnabled = true ∧ freshPoolAlloc64.gBaseAddress = 0x100000 ∧
    freshPoolAlloc64.hdr 0x100000 0 =
      { VirtualAddress := 0x100000 + 64 * sizeofMemBlk x86_64, Magic := MEM_MAGIC,
        Size := 64, Used := true } ∧
    (∀ i, i ≠ 0 → freshPoolAlloc64.hdr 0x100000 i = freshHdr) := by
  obtain ⟨g1, g2, _, _, g5⟩ := MemAlloc_slot0_again x86_64 64 freshPool rfl
    (fun _ _ => rfl) rfl (by decide)
  refine ⟨g1, g2, g5, ?_⟩
  intro i hi
  show ((MemReserveBlock x86_64 0x100000 0 64 (freshPool.setResult ERR_NULL)).2.setResult
    ERR_SUCCESS).hdr 0x100000 i = freshHdr
  rw [KState.hdr_setResult,
    MemReserveBlock_other x86_64 0x100000 0 64 _ 0x100000 i (by simp [hi])]
  rfl

/-! ## What `MemResize` does -/

theorem KState.setHdr_self (s : KState) (b i : Nat) : s.setHdr b i (s.hdr b i) = s := by
  unfold KState.setHdr KState.hdr
  simp [Function.update_eq_self]

theorem KState.setHdr_setHdr (s : KState) (b i : Nat) (h1 h2 : BlkHdr) :
    (s.setHdr b i h1).setHdr b i h2 = s.setHdr b i h2 := by
  unfold KState.setHdr
  simp [Function.update_idem]

@[simp] theorem KState.follow_setHdr (s : KState) (b i : Nat) (h : BlkHdr) (a k : Nat) :
    (s.setHdr b i h).follow a k = s.follow a k := by
  induction k generalizing a with
  | zero => rfl
  | succ k ih => simp only [KState.follow, KState.setHdr_Next, ih]

/-- The zero fill of `MemResize` stops at its first test: the byte it compares with the
barrier is the byte the barrier was read from. -/
theorem MemResize.fill_barrier (T : Target) (values n : Nat) (m : Memory) :
    MemResize.fill T values (m.read (charAdd T values n)) n m = m := by
  cases n with
  | zero => rfl
  | succ c =>
    unfold MemResize.fill
    simp

theorem MemResize.scan_no_match (T : Target) (c q n k index : Nat) (s : KState)
    (h : ∀ j, index ≤ j → j < index + k → (s.hdr c j).VirtualAddress ≠ q) :
    MemResize.scan T c q n k index s = none := by
  induction k generalizing index with
  | zero => rfl
  | succ k ih =>
    unfold MemResize.scan
    rw [if_pos (h index (le_refl _) (by omega))]
    exact ih (index + 1) (fun j h1 h2 => h j (by omega) (by omega))

/-- The slot loop of `MemResize` stops at the first slot that records the pointer, in use or
not; it adds the new size to the recorded size of that slot and writes nothing else. -/
theorem MemResize.scan_match (T : Target) (c q n k index : Nat) (s : KState)
    (h : ∃ j, index ≤ j ∧ j < index + k ∧ (s.hdr c j).VirtualAddress = q) :
    ∃ j, index ≤ j ∧ j < index + k ∧ (s.hdr c j).VirtualAddress = q ∧
      (∀ j', index ≤ j' → j' < j → (s.hdr c j').VirtualAddress ≠ q) ∧
      MemResize.scan T c q n k index s =
        some (q, (s.setHdr c j
          { s.hdr c j with Size := addW T (s.hdr c j).Size n }).setResult ERR_SUCCESS) := by
  induction k generalizing index with
  | zero =>
    obtain ⟨j, h1, h2, _⟩ := h
    omega
  | succ k ih =>
    by_cases hm : (s.hdr c index).VirtualAddress = q
    · refine ⟨index, le_refl _, by omega, hm, ?_, ?_⟩
      · intro j' h1 h2; omega
      · unfold MemResize.scan
        rw [if_neg (not_not.mpr hm)]
        simp only [MemResize.fill_barrier, KState.hdr_setMem, KState.hdr_setHdr, and_self,
          if_true]
        have e1 : s.setMem s.mem = s := rfl
        have e2 : ({ s.hdr c index with VirtualAddress := q } : BlkHdr) = s.hdr c index := by
          rw [← hm]
        rw [e1, e2, KState.setHdr_self, hm]
    · obtain ⟨j, h1, h2, h3⟩ := h
      have hne : j ≠ index := by
        intro e; subst e; exact hm h3
      obtain ⟨j0, g1, g2, g3, g4, g5⟩ := ih (index + 1) ⟨j, by omega, by omega, h3⟩
      refine ⟨j0, by omega, by omega, g3, ?_, ?_⟩
      · intro j' h1' h2'
        by_cases e : j' = index
        · subst e; exact hm
        · exact g4 j' (by omega) h2'
      · unfold MemResize.scan
        rw [if_pos hm]
        exact g5

/-- The walk of `MemResize` along a chain that records the pointer somewhere: it stops at the
first block, and there at the first slot, that records it. -/
theorem MemResize.walk_first (T : Target) (q n k i : Nat) (fuel a : Nat) (s : KState)
    (hk : ∀ j, j ≤ k → s.follow a j ≠ NULL) (hi : i < MEM_MAX_HEADERS)
    (hv : (s.hdr (s.follow a k) i).VirtualAddress = q) (hfuel : k < fuel) :
    ∃ k0 i0, k0 ≤ k ∧ i0 < MEM_MAX_HEADERS ∧
      (s.hdr (s.follow a k0) i0).VirtualAddress = q ∧
      (∀ j, j < k0 → ∀ i', i' < MEM_MAX_HEADERS →
        (s.hdr (s.follow a j) i').VirtualAddress ≠ q) ∧
      (∀ i', i' < i0 → (s.hdr (s.follow a k0) i').VirtualAddress ≠ q) ∧
      MemResize.walk T q n fuel a s =
        .ret q ((s.setHdr (s.follow a k0) i0
          { s.hdr (s.follow a k0) i0 with
            Size := addW T (s.hdr (s.follow a k0) i0).Size n }).setResult ERR_SUCCESS) := by
  induction k generalizing fuel a with
  | zero =>
    have ha : a ≠ NULL := hk 0 (le_refl _)
    obtain ⟨j0, _, g2, g3, g4, g5⟩ := MemResize.scan_match T a q n MEM_MAX_HEADERS 0 s
      ⟨i, Nat.zero_le _, by omega, hv⟩
    refine ⟨0, j0, le_refl _, by omega, g3, ?_, ?_, ?_⟩
    · intro j hj; omega
    · intro i' hi'
      exact g4 i' (Nat.zero_le _) hi'
    · cases fuel with
      | zero => omega
      | succ fuel =>
        rw [MemResize.walk]
        simp only [ha, if_false, g5]
        rfl
  | succ k ih =>
    have ha : a ≠ NULL := hk 0 (Nat.zero_le _)
    cases fuel with
    | zero => omega
    | succ fuel =>
      by_cases hm : ∃ j, 0 ≤ j ∧ j < 0 + MEM_MAX_HEADERS ∧ (s.hdr a j).VirtualAddress = q
      · obtain ⟨j0, _, g2, g3, g4, g5⟩ := MemResize.scan_match T a q n MEM_MAX_HEADERS 0 s hm
        refine ⟨0, j0, Nat.zero_le _, by omega, g3, ?_, ?_, ?_⟩
        · intro j hj; omega
        · intro i' hi'
          exact g4 i' (Nat.zero_le _) hi'
        · rw [MemResize.walk]
          simp only [ha, if_false, g5]
          rfl
      · have hnone : ∀ j, 0 ≤ j → j < 0 + MEM_MAX_HEADERS → (s.hdr a j).VirtualAddress ≠ q :=
          fun j h1 h2 hc => hm ⟨j, h1, h2, hc⟩
        obtain ⟨k0, i0, e1, e2, e3, e4, e5, e6⟩ := ih fuel (s.blocks a).Next
          (fun j hj => hk (j + 1) (by omega)) hv (by omega)
        refine ⟨k0 + 1, i0, by omega, e2, e3, ?_, e5, ?_⟩
        · intro j hj i' hi'
          cases j with
          | zero => exact hnone i' (Nat.zero_le _) (by omega)
          | succ j => exact e4 j (by omega) i' hi'
        · rw [MemResize.walk]
          simp only [ha, if_false, MemResize.scan_no_match T a q n MEM_MAX_HEADERS 0 s hnone]
          exact e6

/-- A returning `MemResize` leaves the data bytes as they were. -/
theorem MemResize_mem (T : Target) (fuel q n : Nat) (s : KState) (p : Nat) (s' : KState)
    (h : MemResize T fuel q n s = .ret p s') : s'.mem = s.mem := by
  have hscan : ∀ c k index (u : KState) (x : Nat × KState),
      MemResize.scan T c q n k index u = some x → x.2.mem = u.mem := by
    intro c k
    induction k with
    | zero => intro index u x e; simp [MemResize.scan] at e
    | succ k ih =>
      intro index u x e
      unfold MemResize.scan at e
      split at e
      · exact ih _ _ x e
      · simp only [MemResize.fill_barrier] at e
        injection e with e'
        rw [← e']
        rfl
  have hwalk : ∀ fuel a (u : KState), MemResize.walk T q n fuel a u = .ret p s' →
      s'.mem = u.mem := by
    intro fuel
    induction fuel with
    | zero =>
      intro a u e
      unfold MemResize.walk at e
      split at e
      · injection e with _ e2; rw [← e2]; rfl
      · cases e
    | succ fuel ih =>
      intro a u e
      rw [MemResize.walk] at e
      split at e
      · injection e with _ e2; rw [← e2]; rfl
      · split at e
        · rename_i x hx
          injection e with _ e2
          rw [← e2]
          exact hscan _ _ _ u x hx
        · exact ih _ u e
  unfold MemResize at h
  simp only [] at h
  split at h
  · injection h with _ h2; rw [← h2]; rfl
  · split at h
    · injection h with _ h2; rw [← h2]; rfl
    · split at h
      · injection h with _ h2; rw [← h2]; rfl
      · exact hwalk _ _ (s.setResult MEM_BAD_ARG) h

/-- The walk of `MemResize` returns once the chain has ended, if not before. -/
theorem MemResize.walk_returns (T : Target) (q n k : Nat) (fuel a : Nat) (s : KState)
    (hk : s.follow a k = NULL) (hf : k ≤ fuel) :
    ∃ p s', MemResize.walk T q n fuel a s = .ret p s' := by
  induction k generalizing fuel a with
  | zero =>
    have ha : a = NULL := hk
    refine ⟨NULL, s.setResult MEM_NOT_ENABLED, ?_⟩
    cases fuel <;> simp [MemResize.walk, ha]
  | succ k ih =>
    by_cases ha : a = NULL
    · refine ⟨NULL, s.setResult MEM_NOT_ENABLED, ?_⟩
      cases fuel <;> simp [MemResize.walk, ha]
    · cases fuel with
      | zero => omega
      | succ fuel =>
        rw [MemResize.walk]
        simp only [ha, if_false]
        cases hsc : MemResize.scan T a q n MEM_MAX_HEADERS 0 s with
        | some r => exact ⟨_, _, rfl⟩
        | none => exact ih fuel _ hk (by omega)

/-- What a returning `MemResize` has done: besides the store to `Result`, nothing, or one
store to the `Size` of a header that records the pointer. -/
theorem MemResize_effect (T : Target) (fuel q n : Nat) (s : KState) (p : Nat) (s' : KState)
    (h : MemResize T fuel q n s = .ret p s') :
    (p = NULL ∧ ∃ r, s' = s.setResult r) ∨
    (p = q ∧ ∃ c j, j < MEM_MAX_HEADERS ∧ (s.hdr c j).VirtualAddress = q ∧
      s' = (s.setHdr c j { s.hdr c j with Size := addW T (s.hdr c j).Size n }).setResult
        ERR_SUCCESS) := by
  have hscan : ∀ c (u : KState) (x : Nat × KState),
      MemResize.scan T c q n MEM_MAX_HEADERS 0 u = some x →
      x.1 = q ∧ ∃ j, j < MEM_MAX_HEADERS ∧ (u.hdr c j).VirtualAddress = q ∧
        x.2 = (u.setHdr c j { u.hdr c j with Size := addW T (u.hdr c j).Size n }).setResult
          ERR_SUCCESS := by
    intro c u x e
    by_cases hm : ∃ j, 0 ≤ j ∧ j < 0 + MEM_MAX_HEADERS ∧ (u.hdr c j).VirtualAddress = q
    · obtain ⟨j, _, g2, g3, _, g5⟩ := MemResize.scan_match T c q n MEM_MAX_HEADERS 0 u hm
      rw [g5] at e
      injection e with e'
      rw [← e']
      exact ⟨rfl, j, by omega, g3, rfl⟩
    · rw [MemResize.scan_no_match T c q n MEM_MAX_HEADERS 0 u
        (fun j h1 h2 hc => hm ⟨j, h1, h2, hc⟩)] at e
      cases e
  have hwalk : ∀ fuel a (u : KState), MemResize.walk T q n fuel a u = .ret p s' →
      (p = NULL ∧ s' = u.setResult MEM_NOT_ENABLED) ∨
      (p = q ∧ ∃ c j, j < MEM_MAX_HEADERS ∧ (u.hdr c j).VirtualAddress = q ∧
        s' = (u.setHdr c j { u.hdr c j with Size := addW T (u.hdr c j).Size n }).setResult
          ERR_SUCCESS) := by
    intro fuel
    induction fuel with
    | zero =>
      intro a u e
      unfold MemResize.walk at e
      split at e
      · injection e with e1 e2
        exact Or.inl ⟨e1.symm, e2.symm⟩
      · cases e
    | succ fuel ih =>
      intro a u e
      rw [MemResize.walk] at e
      split at e
      · injection e with e1 e2
        exact Or.inl ⟨e1.symm, e2.symm⟩
      · split at e
        · rename_i x hx
          injection e with e1 e2
          obtain ⟨g1, j, g2, g3, g4⟩ := hscan _ u x hx
          exact Or.inr ⟨by rw [← e1, g1], _, j, g2, g3, by rw [← e2, g4]⟩
        · exact ih _ u e
  unfold MemResize at h
  simp only [] at h
  split at h
  · injection h with h1 h2
    exact Or.inl ⟨h1.symm, _, h2.symm⟩
  · split at h
    · injection h with h1 h2
      exact Or.inl ⟨h1.symm, _, h2.symm⟩
    · split at h
      · injection h with h1 h2
        exact Or.inl ⟨h1.symm, _, h2.symm⟩
      · rcases hwalk _ _ (s.setResult MEM_BAD_ARG) h with ⟨g1, g2⟩ | ⟨g1, c, j, g2, g3, g4⟩
        · exact Or.inl ⟨g1, _, g2⟩
        · exact Or.inr ⟨g1, c, j, g2, g3, g4⟩

/-- Inside the array of headers of the base block, the memory image holds the bytes of the
headers. -/
theorem KState.image_read (T : Target) (s : KState) (a : Nat) (h1 : s.gBaseAddress ≤ a)
    (h2 : a < s.gBaseAddress + MEM_MAX_HEADERS * sizeofBlkHdr T) :
    (s.image T).read a =
      (s.hdr s.gBaseAddress ((a - s.gBaseAddress) / sizeofBlkHdr T)).byte T
        ((a - s.gBaseAddress) % sizeofBlkHdr T) := by
  have h3 : a < max s.mem.limit (s.gBaseAddress + MEM_MAX_HEADERS * sizeofBlkHdr T) :=
    lt_of_lt_of_le h2 (le_max_right _ _)
  unfold KState.image Memory.read
  simp only [h3, if_true, h1, h2, and_self]

/-! ## What `MemFree` does to the slot it releases -/

theorem MemFreeBlock_hit_mem (T : Target) (c i p : Nat) (s : KState)
    (hu : (s.hdr c i).Used = true) (hv : (s.hdr c i).VirtualAddress = p) :
    (MemFreeBlock T c i p s).2.mem = SetMem s.mem p 0 (StringLength s.mem p) := by
  unfold MemFreeBlock
  simp only [hu, hv, Bool.not_true, Bool.false_eq_true, if_false, ne_eq, not_true_eq_false]
  split <;> simp

/-- What `MemFree` does when slot `k` of the base block is the first slot in use that records
the pointer: the string at the pointer is zeroed, the recorded size of the slot is not
lowered, and the slot is marked unused only if that size is 0. -/
theorem MemFree_hit_effect (T : Target) (fuel p k : Nat) (s : KState)
    (he : s.gAllocationEnabled = true) (hp : p ≠ NULL) (hb : s.gBaseAddress ≠ NULL)
    (hk : k < MEM_MAX_HEADERS) (hu : (s.hdr s.gBaseAddress k).Used = true)
    (hv : (s.hdr s.gBaseAddress k).VirtualAddress = p)
    (hfirst : ∀ j, j < k → ¬ ((s.hdr s.gBaseAddress j).Used = true ∧
      (s.hdr s.gBaseAddress j).VirtualAddress = p)) :
    ∃ s3, MemFree T (fuel + 1) p s = .ret ERR_SUCCESS s3 ∧
      s3.gBaseAddress = s.gBaseAddress ∧
      s3.mem = SetMem s.mem p 0 (StringLength s.mem p) ∧
      (s3.hdr s.gBaseAddress k).Size = (s.hdr s.gBaseAddress k).Size % T.wordMod ∧
      ((s3.hdr s.gBaseAddress k).Used = false ↔
        (s.hdr s.gBaseAddress k).Size % T.wordMod = 0) := by
  obtain ⟨k', _, k2, k3, k4, k5⟩ := MemFree_hit T fuel p s he hp hb ⟨k, hk, hu, hv⟩
  have hkk : k' = k := by
    rcases Nat.lt_trichotomy k' k with h | h | h
    · exact absurd ⟨k2, k3⟩ (hfirst k' h)
    · exact h
    · exact absurd ⟨hu, hv⟩ (k4 k h)
  subst hkk
  have hu' : ((s.setResult ERR_NULL).hdr s.gBaseAddress k').Used = true := hu
  have hv' : ((s.setResult ERR_NULL).hdr s.gBaseAddress k').VirtualAddress = p := hv
  have hsz := MemFreeBlock_hit_size T s.gBaseAddress k' p (s.setResult ERR_NULL) hu' hv'
  have hiff := (MemFreeBlock_hit T s.gBaseAddress k' p (s.setResult ERR_NULL) hu' hv').2.1
  have hmem := MemFreeBlock_hit_mem T s.gBaseAddress k' p (s.setResult ERR_NULL) hu' hv'
  refine ⟨_, k5, ?_, ?_, ?_, ?_⟩
  · simp [MemFreeBlock_gBaseAddress]
  · simpa using hmem
  · simpa using hsz
  · rw [KState.hdr_setResult, hiff, hsz]
    rfl

/-! ## The order of the probes -/

/-- Where the loop of `MemAllocBlock` stands between two probes: either at the left end with
`indexLeft + indexRight = 512`, or at the right end with `indexLeft + indexRight = 513`
and `indexLeft ≥ 1`. -/
theorem MemAllocBlock.probe_step (index L R : Nat)
    (h : (index = L ∧ L + R = MEM_MAX_HEADERS) ∨ (index = R ∧ L + R = MEM_MAX_HEADERS + 1 ∧ 1 ≤ L))
    (hlt : L < R) :
    index ≠ 256 ∧ index ≤ MEM_MAX_HEADERS ∧
    (index = L → (L + 1) + R = MEM_MAX_HEADERS + 1 ∧ 1 ≤ L + 1) ∧
    (index ≠ L → L + (R - 1) = MEM_MAX_HEADERS) := by
  have e : MEM_MAX_HEADERS = 512 := rfl
  rw [e] at h ⊢
  omega

/-- The loop started by `MemAllocBlock` never hands position 256 to `MemReserveBlock`, and
never a position above 512. -/
theorem MemAllocBlock.loopProbes_range (T : Target) (block Size : Nat)
    (index L R : Nat) (s : KState)
    (h : (index = L ∧ L + R = MEM_MAX_HEADERS) ∨ (index = R ∧ L + R = MEM_MAX_HEADERS + 1 ∧ 1 ≤ L)) :
    ∀ x ∈ MemAllocBlock.loopProbes T block Size index L R s, x ≠ 256 ∧ x ≤ MEM_MAX_HEADERS := by
  induction index, L, R, s using MemAllocBlock.loopProbes.induct T block Size with
  | case1 index L R s hlt r hr =>
    rw [MemAllocBlock.loopProbes]
    have hr' : (MemReserveBlock T block index Size s).1 ≠ NULL := hr
    simp only [hlt, hr', if_true, ne_eq, not_false_eq_true, List.mem_singleton]
    intro x hx
    subst hx
    exact ⟨(MemAllocBlock.probe_step x L R h hlt).1, (MemAllocBlock.probe_step x L R h hlt).2.1⟩
  | case2 L R s hlt r hr ih =>
    rw [MemAllocBlock.loopProbes]
    have hr' : (MemReserveBlock T block L Size s).1 = NULL := not_not.mp hr
    simp only [hlt, hr', if_true, ne_eq, not_true_eq_false, if_false, List.mem_cons]
    have hst := MemAllocBlock.probe_step L L R h hlt
    intro x hx
    rcases hx with hx | hx
    · subst hx; exact ⟨hst.1, hst.2.1⟩
    · exact ih (Or.inr ⟨rfl, hst.2.2.1 rfl⟩) x hx
  | case3 index L R s hlt r hr hne ih =>
    rw [MemAllocBlock.loopProbes]
    have hr' : (MemReserveBlock T block index Size s).1 = NULL := not_not.mp hr
    simp only [hlt, hr', hne, if_true, ne_eq, not_true_eq_false, if_false, List.mem_cons]
    have hst := MemAllocBlock.probe_step index L R h hlt
    intro x hx
    rcases hx with hx | hx
    · subst hx; exact ⟨hst.1, hst.2.1⟩
    · exact ih (Or.inl ⟨rfl, hst.2.2.2 hne⟩) x hx
  | case4 index L R s hlt =>
    rw [MemAllocBlock.loopProbes]
    simp only [hlt, if_false]
    intro x hx
    cases hx

/-- When every position but 256 is over the size ceiling, the loop started by `MemAllocBlock`
ends with `NULL` and `MEM_UNAVAILABLE`, and slot 256 is as it was. -/
theorem MemAllocBlock.loop_gap (T : Target) (block Size : Nat)
    (index L R : Nat) (s : KState)
    (h : (index = L ∧ L + R = MEM_MAX_HEADERS) ∨ (index = R ∧ L + R = MEM_MAX_HEADERS + 1 ∧ 1 ≤ L))
    (hl : s.gAllocLock.bLocked = false)
    (hs : ∀ i, i ≠ 256 → i ≤ MEM_MAX_HEADERS → KIB * 4 < (s.hdr block i).Size) :
    (MemAllocBlock.loop T block Size index L R s).1 = NULL ∧
    (MemAllocBlock.loop T block Size index L R s).2.Result = MEM_UNAVAILABLE ∧
    (MemAllocBlock.loop T block Size index L R s).2.hdr block 256 = s.hdr block 256 := by
  induction index, L, R, s using MemAllocBlock.loop.induct T block Size with
  | case1 index L R s hlt r hr =>
    have hst := MemAllocBlock.probe_step index L R h hlt
    have hr' : (MemReserveBlock T block index Size s).1 ≠ NULL := hr
    rw [MemReserveBlock_poison T block index Size s hl (hs index hst.1 hst.2.1)] at hr'
    exact absurd rfl hr'
  | case2 L R s hlt r hr ih =>
    have hst := MemAllocBlock.probe_step L L R h hlt
    rw [MemAllocBlock.loop]
    have hr' : (MemReserveBlock T block L Size s).1 = NULL := not_not.mp hr
    simp only [hlt, hr', if_true, ne_eq, not_true_eq_false, if_false]
    have hstep := ih (Or.inr ⟨rfl, hst.2.2.1 rfl⟩)
      ((MemReserveBlock_frame T block L Size s).2.2.2.2.1.trans hl)
      (fun i hi hi' => by
        rw [MemReserveBlock_null_size T block L Size s hl (hs L hst.1 hst.2.1)]
        exact hs i hi hi')
    refine ⟨hstep.1, hstep.2.1, ?_⟩
    rw [hstep.2.2]
    exact MemReserveBlock_other T block L Size s block 256 (fun hc => hst.1 hc.2.symm)
  | case3 index L R s hlt r hr hne ih =>
    have hst := MemAllocBlock.probe_step index L R h hlt
    rw [MemAllocBlock.loop]
    have hr' : (MemReserveBlock T block index Size s).1 = NULL := not_not.mp hr
    simp only [hlt, hr', hne, if_true, ne_eq, not_true_eq_false, if_false]
    have hstep := ih (Or.inl ⟨rfl, hst.2.2.2 hne⟩)
      ((MemReserveBlock_frame T block index Size s).2.2.2.2.1.trans hl)
      (fun i hi hi' => by
        rw [MemReserveBlock_null_size T block index Size s hl (hs index hst.1 hst.2.1)]
        exact hs i hi hi')
    refine ⟨hstep.1, hstep.2.1, ?_⟩
    rw [hstep.2.2]
    exact MemReserveBlock_other T block index Size s block 256 (fun hc => hst.1 hc.2.symm)
  | case4 index L R s hlt =>
    rw [MemAllocBlock.loop]
    simp only [hlt, if_false]
    exact ⟨trivial, rfl, rfl⟩

/-- A refused reservation of slot 0 is followed by a probe of position 512. -/
theorem MemAllocBlock.loopProbes_refused (T : Target) (block Size : Nat) (s : KState)
    (h : (MemReserveBlock T block 0 Size s).1 = NULL) :
    ∃ rest, MemAllocBlock.loopProbes T block Size 0 0 MEM_MAX_HEADERS s =
      0 :: MEM_MAX_HEADERS :: rest := by
  have hlt : 0 < MEM_MAX_HEADERS := by decide
  have hlt1 : 0 + 1 < MEM_MAX_HEADERS := by decide
  have hne : ¬ MEM_MAX_HEADERS = 0 + 1 := by decide
  rw [MemAllocBlock.loopProbes]
  simp only [hlt, h, if_true, ne_eq, not_true_eq_false, if_false]
  rw [MemAllocBlock.loopProbes]
  simp only [hlt1, if_true, hne, if_false]
  split
  · exact ⟨_, rfl⟩
  · exact ⟨_, rfl⟩

/-- One call of `MemAllocBlock` never hands position 256 to `MemReserveBlock`, and never a
position above 512. -/
theorem MemAllocBlock.probes_range (T : Target) (block Size : Nat) (s : KState) :
    ∀ x ∈ MemAllocBlock.probes T block Size s, x ≠ 256 ∧ x ≤ MEM_MAX_HEADERS := by
  unfold MemAllocBlock.probes
  simp only []
  split
  · intro x hx; cases hx
  · split
    · intro x hx; cases hx
    · exact MemAllocBlock.loopProbes_range T block Size 0 0 MEM_MAX_HEADERS _
        (Or.inl ⟨rfl, by simp⟩)

/-- With every position but 256 over the size ceiling, `MemAllocBlock` gives up without
having looked at slot 256. -/
theorem MemAllocBlock_gap (T : Target) (block n : Nat) (s : KState)
    (he : s.gAllocationEnabled = true) (hb : block ≠ NULL)
    (hl : s.gAllocLock.bLocked = false)
    (hs : ∀ i, i ≠ 256 → i ≤ MEM_MAX_HEADERS → KIB * 4 < (s.hdr block i).Size) :
    (MemAllocBlock T block n s).1 = NULL ∧
    (MemAllocBlock T block n s).2.Result = MEM_UNAVAILABLE ∧
    (MemAllocBlock T block n s).2.hdr block 256 = s.hdr block 256 := by
  unfold MemAllocBlock
  simp only [KState.setResult_gAllocationEnabled, he, Bool.not_true, Bool.false_eq_true,
    if_false, hb, KState.setResult_setResult]
  have h := MemAllocBlock.loop_gap T block n 0 0 MEM_MAX_HEADERS (s.setResult ERR_NULL)
    (Or.inl ⟨rfl, by simp⟩) (by simpa using hl) (fun i hi hi' => by simpa using hs i hi hi')
  simpa using h

/-- On an enabled pool and a non-null block, a refused reservation of slot 0 makes
`MemAllocBlock` probe position 512 next. -/
theorem MemAllocBlock.probes_refused (T : Target) (block Size : Nat) (s : KState)
    (he : s.gAllocationEnabled = true) (hb : block ≠ NULL)
    (h : (MemReserveBlock T block 0 Size (s.setResult ERR_NULL)).1 = NULL) :
    ∃ rest, MemAllocBlock.probes T block Size s = 0 :: MEM_MAX_HEADERS :: rest := by
  unfold MemAllocBlock.probes
  simp only [KState.setResult_gAllocationEnabled, he, Bool.not_true, Bool.false_eq_true,
    if_false, hb, KState.setResult_setResult]
  exact MemAllocBlock.loopProbes_refused T block Size _ h

/-! ## The size adjustment -/

/-- The bit-and with 16 reads bit 4. -/
theorem and_sixteen (n : Nat) : n &&& 16 = if n / 16 % 2 = 1 then 16 else 0 := by
  have h := Nat.and_two_pow n 4
  simp only [Nat.testBit_to_div_mod] at h
  norm_num at h
  rw [h]
  split <;> simp_all

theorem testBit_four (n : Nat) : n.testBit 4 = decide (n / 16 % 2 = 1) := by
  rw [Nat.testBit_to_div_mod]

/-- Without overflow the adjustment adds 16 exactly when bit 4 of the request is set. -/
theorem adjustSize_eq (T : Target) (s : Nat) (h1 : s + 4096 < T.wordMod) :
    adjustSize T s = if s / 16 % 2 = 1 then s + 16 else s := by
  unfold adjustSize addW
  rw [Nat.mod_eq_of_lt h1, Nat.mod_eq_of_lt (by omega : s + 16 < T.wordMod), and_sixteen]
  have hb : (s + 4096) / 16 % 2 = 1 ↔ s / 16 % 2 = 1 := by omega
  by_cases hs : s / 16 % 2 = 1
  · simp [hs, hb.mpr hs]
  · have hs' : ¬ (s + 4096) / 16 % 2 = 1 := fun h => hs (hb.mp h)
    simp [hs, hs']

/-- What a reservation that goes through records in the lock cache. -/
theorem MemReserveBlock_cache (T : Target) (block index Size : Nat) (s : KState)
    (hl : s.gAllocLock.bLocked = false) (hs : (s.hdr block index).Size ≤ KIB * 4) :
    (MemReserveBlock T block index Size s).2.gAllocLock =
      { bLocked := false, lastLockedSize := adjustSize T Size,
        lastLockedAddr := blkAdd T block (adjustSize T Size) } ∧
    (MemReserveBlock T block index Size s).2.Result = ERR_SUCCESS := by
  have hs' : ¬ KIB * 4 < (s.hdr block index).Size := by omega
  simp [MemReserveBlock, hl, hs']

/-! ## Properties of the specification -/

/-- C1: after `MemInit` on one usable region at `0x100000` over zeroed memory, two
consecutive calls `MemAlloc(64)` both return `0x100000 + 64 * sizeof(MemBlk)`, with no free
in between: the second call reserves slot 0 again. -/
theorem C1_consecutive_allocations_alias :
    ∃ s1 s2 s3, MemInit x86_64 oneRegion bootState = .ret true s1 ∧
      MemAlloc x86_64 1 64 s1 = .ret (0x100000 + 64 * sizeofMemBlk x86_64) s2 ∧
      MemAlloc x86_64 1 64 s2 = .ret (0x100000 + 64 * sizeofMemBlk x86_64) s3 ∧
      (s3.hdr 0x100000 0).Used = true := by
  obtain ⟨s1, h1, h2, h3, _, h5, _, h7⟩ := MemInit_ret x86_64 oneRegion bootState rfl
  have hbase : s1.gBaseAddress = 0x100000 := by
    rw [h3, MemInit.scan_gBaseAddress oneRegion bootState rfl]
    rfl
  have hm : s1.magicOk s1.gBaseAddress := by
    intro i hi
    rw [h7 i hi]
  have hs : (s1.hdr s1.gBaseAddress 0).Size = 0 := by
    rw [h7 0 (by decide)]
    rfl
  have hl : s1.gAllocLock.bLocked = false := by rw [h5]; rfl
  obtain ⟨s2, s3, a1, a2, a3⟩ := MemAlloc_twice_same x86_64 0 0 64 s1 h2 (by decide)
    (by rw [hbase]; decide) hm hl (by rw [hs]; decide) (by rw [hs]; decide)
    (by rw [hbase]; decide)
  rw [hbase] at a1 a2 a3
  exact ⟨s1, s2, s3, h1, a1, a2, a3⟩

/-- C3: `MemInit` on one usable region over memory that was not cleared (the 512 headers hold
a recorded size of 5000 and the byte behind the block is 1, so that position 512 reads a size
of `2 ^ 24`) leaves a base block in which every position is over the size ceiling and the
block-level search yields `NULL` and `MEM_UNAVAILABLE`; the next `MemAlloc(1)` then ends in
the out-of-memory trap: no block is linked and no address returned, because `MemExpandBlock`
is passed `allocatedBlock`, which is null there, and not `currentBlock`. -/
theorem C3_exhausted_base_is_fatal :
    ∃ s1, MemInit x86_64 oneRegion dirtyBoot = .ret true s1 ∧
      (∀ i, i ≤ MEM_MAX_HEADERS → KIB * 4 < (s1.hdr s1.gBaseAddress i).Size) ∧
      (s1.hdr s1.gBaseAddress MEM_MAX_HEADERS).Size = 0x1000000 ∧
      (MemAllocBlock x86_64 s1.gBaseAddress 1 s1).1 = NULL ∧
      (MemAllocBlock x86_64 s1.gBaseAddress 1 s1).2.Result = MEM_UNAVAILABLE ∧
      ∀ fuel, MemAlloc x86_64 (fuel + 1) 1 s1 = .fatal .outOfMemory := by
  obtain ⟨s1, h1, h2, h3, _, h5, _, h7⟩ := MemInit_ret x86_64 oneRegion dirtyBoot rfl
  have hbase : s1.gBaseAddress = 0x100000 := by
    rw [h3, MemInit.scan_gBaseAddress oneRegion dirtyBoot rfl]
    rfl
  have hb : s1.gBaseAddress ≠ NULL := by rw [hbase]; decide
  have hl : s1.gAllocLock.bLocked = false := by rw [h5]; rfl
  have hm : s1.magicOk s1.gBaseAddress := by
    intro i hi
    rw [h7 i hi]
  have hs : ∀ u : ResultCode, ∀ i, i ≤ MEM_MAX_HEADERS →
      KIB * 4 < ((s1.setResult u).hdr s1.gBaseAddress i).Size := by
    intro u i _
    rw [KState.hdr_setResult, MemInit_Size x86_64 oneRegion dirtyBoot s1 h1]
    show KIB * 4 < (if i = MEM_MAX_HEADERS then behindHdr
      else ({ VirtualAddress := 0, Magic := 0, Used := true, Size := 5000 } : BlkHdr)).Size
    split <;> decide
  have hex := MemAllocBlock_exhausted x86_64 s1.gBaseAddress 1 s1 h2 hb hl
    (fun i hi => by simpa using hs s1.Result i hi)
  refine ⟨s1, h1, fun i hi => by simpa using hs s1.Result i hi, ?_, hex.1, hex.2, ?_⟩
  · rw [MemInit_Size x86_64 oneRegion dirtyBoot s1 h1]
    rfl
  intro fuel
  exact MemAlloc_unavailable x86_64 fuel 1 s1 h2 (le_refl _) hb hm
    (MemAllocBlock_exhausted x86_64 s1.gBaseAddress 1 (s1.setResult MEM_INVALID_SIZE)
      (by simpa using h2) hb (by simpa using hl) (hs MEM_INVALID_SIZE)).2

/-- C4 as stated fails at slot 0: with the sentinel of header 0 overwritten and no slot in
use, `MemInitAllocationList` rewrites every sentinel and `MemAlloc(1)` returns an address. -/
theorem C4_counterexample :
    (tagLostPool.hdr tagLostPool.gBaseAddress 0).Magic ≠ MEM_MAGIC ∧
    ∃ s', MemAlloc x86_64 1 1 tagLostPool = .ret (0x100000 + sizeofMemBlk x86_64) s' := by
  refine ⟨by decide, ?_⟩
  have hb : tagLostPool.gBaseAddress ≠ NULL := by decide
  rw [MemAlloc_enabled x86_64 _ 1 tagLostPool rfl (le_refl _)]
  have h0 : ((tagLostPool.setResult MEM_INVALID_SIZE).hdr tagLostPool.gBaseAddress 0).Magic
      ≠ MEM_MAGIC := by decide
  obtain ⟨s3, e, hf, _, hlk, hh⟩ := MemInitAllocationList.loop_ret tagLostPool.gBaseAddress
    MEM_MAX_HEADERS 0 (tagLostPool.setResult MEM_INVALID_SIZE) (by
      intro j _ _
      show (if j = 0 then _ else _ : BlkHdr).Used = false
      split <;> rfl)
  rw [MemInitAllocationList_of_lost _ _ hb h0, e]
  simp only [Outcome.bind]
  have he3 : s3.gAllocationEnabled = true := hf.enabled
  have hmag : s3.magicOk tagLostPool.gBaseAddress := by
    intro i hi
    rw [hh]
    simp [hi]
  have hsz : (s3.hdr tagLostPool.gBaseAddress 0).Size ≤ KIB * 4 := by
    rw [hh]
    have hc : (0 ≤ 0 ∧ 0 < 0 + MEM_MAX_HEADERS) := by decide
    simp only [hc, and_self, if_true]
    decide
  have hp : blkAdd x86_64 tagLostPool.gBaseAddress (adjustSize x86_64 1) ≠ NULL := by decide
  have key : MemAlloc.loop x86_64 1 tagLostPool.gBaseAddress 1 NULL s3 = _ :=
    MemAlloc.loop_succ x86_64 1 _ 0 s3 he3 hb
  rw [key, MemAlloc.checkMagic_eq_true s3 _ hmag,
    MemAllocBlock_slot0 x86_64 _ 1 s3 he3 hb (hf.locked.trans rfl) hsz hp]
  simp only [ne_eq, hp, not_false_eq_true, if_true]
  exact ⟨_, rfl⟩

/-- C4 (amended): on an enabled pool, when header `i` of the base block has lost the
sentinel and, besides, header 0 still carries it or some slot of the block is in use,
`MemAlloc(n)` with `n ≥ 1` ends in the fatal check and returns no address. -/
theorem C4_lost_sentinel_is_fatal (T : Target) (fuel n i : Nat) (s : KState)
    (he : s.gAllocationEnabled = true) (hn : 1 ≤ n) (hi : i < MEM_MAX_HEADERS)
    (hm : (s.hdr s.gBaseAddress i).Magic ≠ MEM_MAGIC)
    (hd : (s.hdr s.gBaseAddress 0).Magic = MEM_MAGIC ∨
      ∃ j, j < MEM_MAX_HEADERS ∧ (s.hdr s.gBaseAddress j).Used = true) :
    MemAlloc T (fuel + 1) n s = .fatal .check := by
  rw [MemAlloc_enabled T _ n s he hn]
  by_cases hb : s.gBaseAddress = NULL
  · simp [MemInitAllocationList, hb, Outcome.bind]
  · by_cases h0 : (s.hdr s.gBaseAddress 0).Magic = MEM_MAGIC
    · have h0' : ¬ ((s.setResult MEM_INVALID_SIZE).hdr s.gBaseAddress 0).Magic ≠ MEM_MAGIC := by
        simpa using h0
      simp only [MemInitAllocationList, hb, if_false, h0', Outcome.bind]
      rw [MemAlloc.loop_succ T n _ fuel _ (by simpa using he) hb]
      rw [MemAlloc.checkMagic_eq_false _ _ i hi (by simpa using hm)]
      simp
    · have hused : ∃ j, 0 ≤ j ∧ j < 0 + MEM_MAX_HEADERS ∧
          ((s.setResult MEM_INVALID_SIZE).hdr s.gBaseAddress j).Used = true := by
        rcases hd with hd | ⟨j, hj, hu⟩
        · exact absurd hd h0
        · exact ⟨j, Nat.zero_le _, by omega, by simpa using hu⟩
      rw [MemInitAllocationList_of_lost _ _ hb (by simpa using h0),
        MemInitAllocationList.loop_fatal _ _ _ _ hused]
      rfl

/-- C4 (amended), at the pool whose slot 5 lost the sentinel while slot 0 keeps it. -/
theorem C4_lost_sentinel_is_fatal_witness :
    (corruptPool.hdr corruptPool.gBaseAddress 5).Magic ≠ MEM_MAGIC ∧
    MemAlloc x86_64 1 1 corruptPool = .fatal .check :=
  ⟨by decide,
    C4_lost_sentinel_is_fatal x86_64 0 1 5 corruptPool rfl (le_refl _) (by decide) (by decide)
      (Or.inl rfl)⟩

/-- C6: on an enabled pool `MemAlloc(0)` returns `NULL` with `Result = MEM_INVALID_SIZE`;
blocks, lock, cache and data bytes are as before. -/
theorem C6_MemAlloc_zero (T : Target) (fuel : Nat) (s : KState)
    (he : s.gAllocationEnabled = true) :
    ∃ s', MemAlloc T fuel 0 s = .ret NULL s' ∧ s'.Result = MEM_INVALID_SIZE ∧
      s'.blocks = s.blocks ∧ s'.gAllocLock = s.gAllocLock ∧ s'.mem = s.mem := by
  refine ⟨s.setResult MEM_INVALID_SIZE, ?_, rfl, rfl, rfl, rfl⟩
  simp [MemAlloc, he]

/-- C6, at the fresh pool. -/
theorem C6_MemAlloc_zero_witness :
    ∃ s', MemAlloc x86_64 1 0 freshPool = .ret NULL s' ∧ s'.Result = MEM_INVALID_SIZE ∧
      s'.blocks = freshPool.blocks ∧ s'.gAllocLock = freshPool.gAllocLock ∧
      s'.mem = freshPool.mem :=
  C6_MemAlloc_zero x86_64 1 freshPool rfl

/-- C7: `MemFree` returns `MEM_NOT_ENABLED` on a disabled pool, whatever the pointer, and
`MEM_BAD_ARG` on an enabled pool and a null pointer; in both cases blocks and data bytes are
as before. -/
theorem C7_MemFree_guards (T : Target) (fuel : Nat) (s : KState) :
    (s.gAllocationEnabled = false → ∀ p, ∃ s',
      MemFree T fuel p s = .ret MEM_NOT_ENABLED s' ∧ s'.blocks = s.blocks ∧ s'.mem = s.mem) ∧
    (s.gAllocationEnabled = true → ∃ s',
      MemFree T fuel NULL s = .ret MEM_BAD_ARG s' ∧ s'.blocks = s.blocks ∧ s'.mem = s.mem) := by
  constructor
  · intro hd p
    exact ⟨s.setResult ERR_FAILURE, by simp [MemFree, hd], rfl, rfl⟩
  · intro he
    exact ⟨s.setResult ERR_NULL, by simp [MemFree, he], rfl, rfl⟩

/-- C7, at the boot state (disabled) and at the fresh pool (enabled). -/
theorem C7_MemFree_guards_witness :
    (∃ s', MemFree x86_64 1 0x1234 bootState = .ret MEM_NOT_ENABLED s' ∧
      s'.blocks = bootState.blocks ∧ s'.mem = bootState.mem) ∧
    (∃ s', MemFree x86_64 1 NULL freshPool = .ret MEM_BAD_ARG s' ∧
      s'.blocks = freshPool.blocks ∧ s'.mem = freshPool.mem) :=
  ⟨(C7_MemFree_guards x86_64 1 bootState).1 rfl 0x1234,
    (C7_MemFree_guards x86_64 1 freshPool).2 rfl⟩

/-- C8 as stated fails: the first usable entry of `lowFirst` is based at 0, and `MemInit`
leaves `MemStart` at `0x100000`, the base of the second usable entry. -/
theorem C8_counterexample :
    (lowFirst.find? (fun e => e.usable)).map (fun e => e.base) = some 0 ∧
    ∃ s', MemInit x86_64 lowFirst bootState = .ret true s' ∧ MemEnabled s' = true ∧
      MemStart s' = 0x100000 ∧ MemStart s' ≠ 0 := by
  refine ⟨by decide, ?_⟩
  obtain ⟨s', h1, h2, h3, _⟩ := MemInit_ret x86_64 lowFirst bootState rfl
  refine ⟨s', h1, h2, ?_, ?_⟩
  · unfold MemStart
    rw [h3, MemInit.scan_gBaseAddress lowFirst bootState rfl]
    decide
  · unfold MemStart
    rw [h3, MemInit.scan_gBaseAddress lowFirst bootState rfl]
    decide

/-- C8 (amended): on a pool that is not yet enabled (flag clear, `gBaseAddress` still null)
and a memory map with a usable entry whose base is not null, `MemInit` returns true,
`MemEnabled` is true afterwards, and `MemStart` is the base of the first usable entry whose
base is not null; entries that are not usable, and usable entries at address 0, are
skipped. -/
theorem C8_MemInit_start (T : Target) (entries : List MemmapEntry) (s : KState)
    (e : MemmapEntry) (hd : s.gAllocationEnabled = false) (hb : s.gBaseAddress = NULL)
    (hf : entries.find? (fun e => e.usable && decide (e.base ≠ NULL)) = some e) :
    ∃ s', MemInit T entries s = .ret true s' ∧ MemEnabled s' = true ∧
      MemStart s' = e.base := by
  obtain ⟨s', h1, h2, h3, _⟩ := MemInit_ret T entries s hd
  refine ⟨s', h1, h2, ?_⟩
  unfold MemStart
  rw [h3, MemInit.scan_gBaseAddress entries s hb, hf]
  rfl

/-- C8 (amended), at the one-region map of the spec scenario. -/
theorem C8_MemInit_start_witness :
    ∃ s', MemInit x86_64 oneRegion bootState = .ret true s' ∧ MemEnabled s' = true ∧
      MemStart s' = 0x100000 :=
  C8_MemInit_start x86_64 oneRegion bootState
    { base := 0x100000, length := 0x100000, usable := true } rfl rfl rfl

/-- C9: with two usable regions, `0x100000` and `0x200000`, `MemInit` returns and `MemEnd` is
still null, not `0x200000`: the branch that would set `gHighestAddress` repeats the test
`IsNull(gBaseAddress)` and is never taken. -/
theorem C9_MemEnd_stays_null :
    ∃ s', MemInit x86_64 twoRegions bootState = .ret true s' ∧ MemEnd s' = NULL ∧
      MemEnd s' ≠ 0x200000 := by
  obtain ⟨s', h1, _, _, h4, _⟩ := MemInit_ret x86_64 twoRegions bootState rfl
  refine ⟨s', h1, ?_, ?_⟩
  · unfold MemEnd; rw [h4]; rfl
  · unfold MemEnd; rw [h4]; decide

/-- C10: after `MemInit` on one usable region at `0x100000` over zeroed memory, every header
of the base block carries the sentinel, and `MemAlloc(1092962733936357163)` reserves slot 0
and returns the address `0x100000 + 8 * sizeof(BlkHdr) + 8`: the sum has wrapped around the
address space into the base block and is the address of the `Magic` field of header 8, where
the four bytes in memory are those of the sentinel.  `MemFree` of that address, run on the
memory as it is then, returns `ERR_SUCCESS` and zeroes the string it finds there, the bytes
`0x77 0x55 0xAA`: the four bytes of the `Magic` field of header 8 are 0 afterwards, and
header 8 has lost the sentinel. -/
theorem C10_free_clears_a_sentinel :
    ∃ s1 s2 s3, MemInit x86_64 oneRegion bootState = .ret true s1 ∧
      (∀ i, i < MEM_MAX_HEADERS → (s1.hdr s1.gBaseAddress i).Magic = MEM_MAGIC) ∧
      MemAlloc x86_64 1 1092962733936357163 s1 =
        .ret (0x100000 + 8 * sizeofBlkHdr x86_64 + 8) s2 ∧
      s2.gBaseAddress = 0x100000 ∧
      (s2.hdr 0x100000 0).Used = true ∧
      (s2.hdr 0x100000 0).VirtualAddress = 0x100000 + 8 * sizeofBlkHdr x86_64 + 8 ∧
      (s2.hdr 0x100000 8).Magic = MEM_MAGIC ∧
      (s2.image x86_64).load (0x100000 + 8 * sizeofBlkHdr x86_64 + 8) 4 = 0xAA5577 ∧
      StringLength (s2.image x86_64) (0x100000 + 8 * sizeofBlkHdr x86_64 + 8) = 3 ∧
      MemFree x86_64 1 (0x100000 + 8 * sizeofBlkHdr x86_64 + 8)
        (s2.setMem (s2.image x86_64)) = .ret ERR_SUCCESS s3 ∧
      s3.mem.load (0x100000 + 8 * sizeofBlkHdr x86_64 + 8) 4 = 0 := by
  obtain ⟨s1, h1, h2, h3, _, h5, _, h7⟩ := MemInit_ret x86_64 oneRegion bootState rfl
  have hbase : s1.gBaseAddress = 0x100000 := by
    rw [h3, MemInit.scan_gBaseAddress oneRegion bootState rfl]
    rfl
  have hb : s1.gBaseAddress ≠ NULL := by rw [hbase]; decide
  have hm : s1.magicOk s1.gBaseAddress := by
    intro i hi
    rw [h7 i hi]
  have hs : (s1.hdr s1.gBaseAddress 0).Size = 0 := by
    rw [h7 0 (by decide)]
    rfl
  have hl : s1.gAllocLock.bLocked = false := by rw [h5]; rfl
  have hpv : blkAdd x86_64 s1.gBaseAddress (adjustSize x86_64 1092962733936357163) =
      0x100000 + 8 * sizeofBlkHdr x86_64 + 8 := by
    rw [hbase]
    decide
  have ha := MemAlloc_slot0 x86_64 0 1092962733936357163 s1 h2 (by decide) hb hm hl
    (by rw [hs]; decide) (by rw [hpv]; decide)
  obtain ⟨g1, g2, g3, _, g5⟩ := MemAlloc_slot0_again x86_64 1092962733936357163 s1 h2 hm hl
    (by rw [hs]; decide)
  rw [hpv] at ha g5
  generalize (MemReserveBlock x86_64 s1.gBaseAddress 0 1092962733936357163
    (s1.setResult ERR_NULL)).2.setResult ERR_SUCCESS = s2 at ha g1 g2 g3 g5
  have hb2 : s2.gBaseAddress = 0x100000 := g2.trans hbase
  rw [hbase] at g5
  have hm8 : (s2.hdr 0x100000 8).Magic = MEM_MAGIC := by
    have := g3 8 (by decide)
    rwa [hb2] at this
  have hrd : ∀ k, k < 4 → (s2.image x86_64).read (0x100000 + 8 * sizeofBlkHdr x86_64 + 8 + k) =
      byteOf (MEM_MAGIC % 2 ^ 32).toNat k := by
    intro k hk
    rw [KState.image_read x86_64 s2 _ (by rw [hb2]; omega) (by
      rw [hb2]
      have e : MEM_MAX_HEADERS * sizeofBlkHdr x86_64 = 10752 := rfl
      have e2 : 8 * sizeofBlkHdr x86_64 = 168 := rfl
      rw [e, e2]
      omega), hb2]
    have e1 : (0x100000 + 8 * sizeofBlkHdr x86_64 + 8 + k - 0x100000) / sizeofBlkHdr x86_64 = 8 := by
      have e : sizeofBlkHdr x86_64 = 21 := rfl
      rw [e]
      omega
    have e2 : (0x100000 + 8 * sizeofBlkHdr x86_64 + 8 + k - 0x100000) % sizeofBlkHdr x86_64 =
        x86_64.wordBytes + k := by
      have e : sizeofBlkHdr x86_64 = 21 := rfl
      have e' : x86_64.wordBytes = 8 := rfl
      rw [e, e']
      omega
    rw [e1, e2, BlkHdr.byte_Magic x86_64 _ k hk, hm8]
  have r0 : (s2.image x86_64).read (0x100000 + 8 * sizeofBlkHdr x86_64 + 8) = 0x77 :=
    (hrd 0 (by decide)).trans (by decide)
  have r1 : (s2.image x86_64).read (0x100000 + 8 * sizeofBlkHdr x86_64 + 8 + 1) = 0x55 :=
    (hrd 1 (by decide)).trans (by decide)
  have r2 : (s2.image x86_64).read (0x100000 + 8 * sizeofBlkHdr x86_64 + 8 + 2) = 0xAA :=
    (hrd 2 (by decide)).trans (by decide)
  have r3 : (s2.image x86_64).read (0x100000 + 8 * sizeofBlkHdr x86_64 + 8 + 3) = 0 :=
    (hrd 3 (by decide)).trans (by decide)
  have hlen : StringLength (s2.image x86_64) (0x100000 + 8 * sizeofBlkHdr x86_64 + 8) = 3 := by
    unfold StringLength
    apply Memory.strlenFrom_eq _ 3 _ _ _ _ r3
    · have hlim : s2.gBaseAddress + MEM_MAX_HEADERS * sizeofBlkHdr x86_64 ≤
          (s2.image x86_64).limit := le_max_right _ _
      rw [hb2] at hlim
      have e : MEM_MAX_HEADERS * sizeofBlkHdr x86_64 = 10752 := rfl
      have e2 : 8 * sizeofBlkHdr x86_64 = 168 := rfl
      rw [e] at hlim
      rw [e2]
      omega
    · intro k hk
      have hk' : k = 0 ∨ k = 1 ∨ k = 2 := by omega
      rcases hk' with rfl | rfl | rfl
      · rw [r0]; decide
      · rw [r1]; decide
      · rw [r2]; decide
  obtain ⟨s3, f1, _, f3, _, _⟩ := MemFree_hit_effect x86_64 0
    (0x100000 + 8 * sizeofBlkHdr x86_64 + 8) 0 (s2.setMem (s2.image x86_64))
    g1 (by decide) (by
      show s2.gBaseAddress ≠ NULL
      rw [hb2]; decide) (by decide)
    (by
      show (s2.hdr s2.gBaseAddress 0).Used = true
      rw [hb2, g5])
    (by
      show (s2.hdr s2.gBaseAddress 0).VirtualAddress = _
      rw [hb2, g5])
    (fun j hj => by omega)
  rw [KState.setMem_mem, hlen] at f3
  have z0 : s3.mem.read (0x100000 + 8 * sizeofBlkHdr x86_64 + 8) = 0 := by
    rw [f3, SetMem_read]; simp
  have z1 : s3.mem.read (0x100000 + 8 * sizeofBlkHdr x86_64 + 8 + 1) = 0 := by
    rw [f3, SetMem_read]; simp
  have z2 : s3.mem.read (0x100000 + 8 * sizeofBlkHdr x86_64 + 8 + 1 + 1) = 0 := by
    rw [f3, SetMem_read]; simp
  have z3 : s3.mem.read (0x100000 + 8 * sizeofBlkHdr x86_64 + 8 + 1 + 1 + 1) = 0 := by
    rw [f3, SetMem_read]
    have hc : ¬ (0x100000 + 8 * sizeofBlkHdr x86_64 + 8 ≤
        0x100000 + 8 * sizeofBlkHdr x86_64 + 8 + 1 + 1 + 1 ∧
        0x100000 + 8 * sizeofBlkHdr x86_64 + 8 + 1 + 1 + 1 <
          0x100000 + 8 * sizeofBlkHdr x86_64 + 8 + 3) := by omega
    rw [if_neg hc]
    exact r3
  refine ⟨s1, s2, s3, h1, hm, ha, hb2, by rw [g5], by rw [g5], hm8, ?_, hlen, f1, ?_⟩
  · have r2' : (s2.image x86_64).read (0x100000 + 8 * sizeofBlkHdr x86_64 + 8 + 1 + 1) = 0xAA :=
      r2
    have r3' : (s2.image x86_64).read (0x100000 + 8 * sizeofBlkHdr x86_64 + 8 + 1 + 1 + 1) = 0 :=
      r3
    simp only [Memory.load, r0, r1, r2', r3']
  · simp only [Memory.load, z0, z1, z2, z3]

/-- C11: `MemInit` on one usable region over memory that was not cleared (the headers hold a
recorded size of 5000, except header 256, which holds 0, and the byte behind the block is 1,
so that position 512 reads a size of `2 ^ 24`) leaves an enabled pool with the lock free on
which `MemAllocBlock` returns `NULL` with `MEM_UNAVAILABLE` although slot 256 is not
exhausted: the search never hands slot 256 to `MemReserveBlock` and leaves it as it was. -/
theorem C11_slot_256_never_probed :
    ∃ s1, MemInit x86_64 oneRegion gapBoot = .ret true s1 ∧
      s1.gAllocationEnabled = true ∧ s1.gBaseAddress ≠ NULL ∧
      s1.gAllocLock.bLocked = false ∧
      (MemAllocBlock x86_64 s1.gBaseAddress 1 s1).1 = NULL ∧
      (MemAllocBlock x86_64 s1.gBaseAddress 1 s1).2.Result = MEM_UNAVAILABLE ∧
      (s1.hdr s1.gBaseAddress 256).Size = 0 ∧
      256 ∉ MemAllocBlock.probes x86_64 s1.gBaseAddress 1 s1 ∧
      (MemAllocBlock x86_64 s1.gBaseAddress 1 s1).2.hdr s1.gBaseAddress 256 =
        s1.hdr s1.gBaseAddress 256 := by
  obtain ⟨s1, h1, h2, h3, _, h5, _, _⟩ := MemInit_ret x86_64 oneRegion gapBoot rfl
  have hbase : s1.gBaseAddress = 0x100000 := by
    rw [h3, MemInit.scan_gBaseAddress oneRegion gapBoot rfl]
    rfl
  have hb : s1.gBaseAddress ≠ NULL := by rw [hbase]; decide
  have hl : s1.gAllocLock.bLocked = false := by rw [h5]; rfl
  have hsz : ∀ i, (s1.hdr s1.gBaseAddress i).Size =
      if i = MEM_MAX_HEADERS then 0x1000000 else if i = 256 then 0 else 5000 := by
    intro i
    rw [MemInit_Size x86_64 oneRegion gapBoot s1 h1]
    show (if i = MEM_MAX_HEADERS then behindHdr
      else ({ VirtualAddress := 0, Magic := 0, Used := false,
              Size := if i = 256 then 0 else 5000 } : BlkHdr)).Size = _
    split <;> rfl
  have hs : ∀ i, i ≠ 256 → i ≤ MEM_MAX_HEADERS → KIB * 4 < (s1.hdr s1.gBaseAddress i).Size := by
    intro i hi _
    rw [hsz i, if_neg hi]
    split <;> decide
  have hgap := MemAllocBlock_gap x86_64 s1.gBaseAddress 1 s1 h2 hb hl hs
  refine ⟨s1, h1, h2, hb, hl, hgap.1, hgap.2.1, ?_, ?_, hgap.2.2⟩
  · rw [hsz 256]; rfl
  · intro hmem
    exact (MemAllocBlock.probes_range x86_64 s1.gBaseAddress 1 s1 256 hmem).1 rfl

/-- C12: after `MemInit` on one usable region over zeroed memory and one `MemAlloc(5000)`,
which takes slot 0 over the size ceiling, the next block-level search (whatever `Result`
holds) hands `MemReserveBlock` the positions 0 and then 512, one past the array of 512
headers. -/
theorem C12_position_512_is_probed :
    ∃ s1 p s2, MemInit x86_64 oneRegion bootState = .ret true s1 ∧
      MemAlloc x86_64 1 5000 s1 = .ret p s2 ∧
      ∀ r : ResultCode, ∃ rest,
        MemAllocBlock.probes x86_64 s2.gBaseAddress 1 (s2.setResult r) =
          0 :: MEM_MAX_HEADERS :: rest := by
  obtain ⟨s1, h1, h2, h3, _, h5, _, h7⟩ := MemInit_ret x86_64 oneRegion bootState rfl
  have hbase : s1.gBaseAddress = 0x100000 := by
    rw [h3, MemInit.scan_gBaseAddress oneRegion bootState rfl]
    rfl
  have hb : s1.gBaseAddress ≠ NULL := by rw [hbase]; decide
  have hm : s1.magicOk s1.gBaseAddress := by
    intro i hi
    rw [h7 i hi]
  have hs : (s1.hdr s1.gBaseAddress 0).Size = 0 := by
    rw [h7 0 (by decide)]
    rfl
  have hl : s1.gAllocLock.bLocked = false := by rw [h5]; rfl
  have ha := MemAlloc_slot0 x86_64 0 5000 s1 h2 (by decide) hb hm hl (by rw [hs]; decide)
    (by rw [hbase]; decide)
  obtain ⟨g1, g2, _, g4, g5⟩ := MemAlloc_slot0_again x86_64 5000 s1 h2 hm hl
    (by rw [hs]; decide)
  generalize (MemReserveBlock x86_64 s1.gBaseAddress 0 5000 (s1.setResult ERR_NULL)).2.setResult
    ERR_SUCCESS = s2 at ha g1 g2 g4 g5
  refine ⟨s1, _, s2, h1, ha, ?_⟩
  intro r
  rw [g2]
  apply MemAllocBlock.probes_refused x86_64 s1.gBaseAddress 1 _ (by simpa using g1) hb
  have hover : KIB * 4 < (((s2.setResult r).setResult ERR_NULL).hdr s1.gBaseAddress 0).Size := by
    simp only [KState.hdr_setResult]
    rw [g5, hs]
    show KIB * 4 < addW x86_64 0 (adjustSize x86_64 5000)
    decide
  rw [MemReserveBlock_poison x86_64 s1.gBaseAddress 0 1 _ (by simpa using g4) hover]

/-- C13: on the 64-bit target, after `MemAlloc(3)` on the fresh pool and with the characters
`abc` stored at the returned address `p`, slot 0 is in use, records `p` and has size 3, and
the string at `p` has length 3; `MemFree(p)` returns `ERR_SUCCESS` and zeroes the three
bytes, but leaves the recorded size at 3 and the slot in use, where 3 - 3 = 0 and an unused
slot are expected: the second `StringLength(ptr)` runs after the zero fill and yields 0. -/
theorem C13_free_keeps_the_size :
    MemAlloc x86_64 1 3 freshPool = .ret (0x100000 + 3 * sizeofMemBlk x86_64) freshPoolAlloc3 ∧
    StringLength (abcAt (0x100000 + 3 * sizeofMemBlk x86_64))
      (0x100000 + 3 * sizeofMemBlk x86_64) = 3 ∧
    (freshPoolAlloc3.hdr 0x100000 0).Used = true ∧
    (freshPoolAlloc3.hdr 0x100000 0).VirtualAddress = 0x100000 + 3 * sizeofMemBlk x86_64 ∧
    (freshPoolAlloc3.hdr 0x100000 0).Size = 3 ∧
    ∃ s3, MemFree x86_64 1 (0x100000 + 3 * sizeofMemBlk x86_64)
        (freshPoolAlloc3.setMem (abcAt (0x100000 + 3 * sizeofMemBlk x86_64))) =
          .ret ERR_SUCCESS s3 ∧
      s3.mem.read (0x100000 + 3 * sizeofMemBlk x86_64) = 0 ∧
      s3.mem.read (0x100000 + 3 * sizeofMemBlk x86_64 + 1) = 0 ∧
      s3.mem.read (0x100000 + 3 * sizeofMemBlk x86_64 + 2) = 0 ∧
      (s3.hdr 0x100000 0).Size = 3 ∧ (s3.hdr 0x100000 0).Used = true := by
  obtain ⟨g1, g2, _, _, g5⟩ := MemAlloc_slot0_again x86_64 3 freshPool rfl
    (fun _ _ => rfl) rfl (by decide)
  have hslot : freshPoolAlloc3.hdr 0x100000 0 =
      { VirtualAddress := 0x100000 + 3 * sizeofMemBlk x86_64, Magic := MEM_MAGIC,
        Size := 3, Used := true } := g5
  have hlen : StringLength (abcAt (0x100000 + 3 * sizeofMemBlk x86_64))
      (0x100000 + 3 * sizeofMemBlk x86_64) = 3 := by decide
  have hbase : (freshPoolAlloc3.setMem (abcAt (0x100000 + 3 * sizeofMemBlk x86_64))).gBaseAddress
      = 0x100000 := g2
  obtain ⟨s3, f1, _, f3, f4, f5⟩ := MemFree_hit_effect x86_64 0
    (0x100000 + 3 * sizeofMemBlk x86_64) 0
    (freshPoolAlloc3.setMem (abcAt (0x100000 + 3 * sizeofMemBlk x86_64)))
    g1 (by decide) (by rw [hbase]; decide) (by decide)
    (by rw [hbase, KState.hdr_setMem, hslot])
    (by rw [hbase, KState.hdr_setMem, hslot])
    (fun j hj => by omega)
  rw [hbase, KState.hdr_setMem, hslot] at f4 f5
  rw [KState.setMem_mem, hlen] at f3
  refine ⟨MemAlloc_slot0 x86_64 0 3 freshPool rfl (by decide) (by decide) (fun _ _ => rfl) rfl
    (by decide) (by decide), hlen, by rw [hslot], by rw [hslot], by rw [hslot], s3, f1,
    ?_, ?_, ?_, ?_, ?_⟩
  · rw [f3, SetMem_read]; decide
  · rw [f3, SetMem_read]; decide
  · rw [f3, SetMem_read]; decide
  · rw [f4]; decide
  · cases hused : (s3.hdr 0x100000 0).Used with
    | true => rfl
    | false =>
      have h0 := f5.mp hused
      revert h0
      decide

/-- C14 as stated fails: at the state after `MemAlloc(64)` on the fresh pool, `MemResize` of
the returned address by 8 returns that address and changes a byte of memory: the first byte of
the `Size` field of header 0 of the base block, at address `0x100000 + 13`, holds 64 before the
call and 72 after it. -/
theorem C14_counterexample :
    ∃ s', MemResize x86_64 1 (0x100000 + 64 * sizeofMemBlk x86_64) 8 freshPoolAlloc64 =
        .ret (0x100000 + 64 * sizeofMemBlk x86_64) s' ∧
      (freshPoolAlloc64.image x86_64).read (0x100000 + 13) = 64 ∧
      (s'.image x86_64).read (0x100000 + 13) = 72 := by
  obtain ⟨g1, g2, g5, _⟩ := freshPoolAlloc64_props
  have hdef : MemResize x86_64 1 (0x100000 + 64 * sizeofMemBlk x86_64) 8 freshPoolAlloc64 =
      MemResize.walk x86_64 (0x100000 + 64 * sizeofMemBlk x86_64) 8 1
        freshPoolAlloc64.gBaseAddress (freshPoolAlloc64.setResult MEM_BAD_ARG) := by
    have hq : (0x100000 + 64 * sizeofMemBlk x86_64) ≠ NULL := by decide
    unfold MemResize
    simp only [KState.setResult_gAllocationEnabled, g1, Bool.not_true, Bool.false_eq_true,
      if_false, hq, KState.setResult_gBaseAddress]
    rfl
  obtain ⟨k0, i0, e1, _, _, _, e5, e6⟩ := MemResize.walk_first x86_64
    (0x100000 + 64 * sizeofMemBlk x86_64) 8 0 0 1 freshPoolAlloc64.gBaseAddress
    (freshPoolAlloc64.setResult MEM_BAD_ARG)
    (fun j hj => by
      have hj0 : j = 0 := by omega
      subst hj0
      show freshPoolAlloc64.gBaseAddress ≠ NULL
      rw [g2]
      decide)
    (by decide)
    (by
      show (freshPoolAlloc64.hdr freshPoolAlloc64.gBaseAddress 0).VirtualAddress = _
      rw [g2, g5])
    (by decide)
  have hk0 : k0 = 0 := by omega
  subst hk0
  have hi0 : i0 = 0 := by
    by_contra hne
    refine e5 0 (by omega) ?_
    show (freshPoolAlloc64.hdr freshPoolAlloc64.gBaseAddress 0).VirtualAddress = _
    rw [g2, g5]
  subst hi0
  have hf : (freshPoolAlloc64.setResult MEM_BAD_ARG).follow freshPoolAlloc64.gBaseAddress 0 =
      0x100000 := g2
  rw [hf, KState.hdr_setResult, g5] at e6
  refine ⟨_, hdef.trans e6, ?_, ?_⟩
  · rw [KState.image_read x86_64 freshPoolAlloc64 _ (by rw [g2]; decide) (by rw [g2]; decide),
      g2]
    show BlkHdr.byte x86_64 (freshPoolAlloc64.hdr 0x100000 0) 13 = 64
    rw [g5]
    decide
  · rw [KState.image_read x86_64 _ _ (by
        show freshPoolAlloc64.gBaseAddress ≤ _
        rw [g2]; decide) (by
        show _ < freshPoolAlloc64.gBaseAddress + _
        rw [g2]; decide)]
    show BlkHdr.byte x86_64 (((freshPoolAlloc64.setResult MEM_BAD_ARG).setHdr 0x100000 0 _).hdr
      freshPoolAlloc64.gBaseAddress
        ((0x100000 + 13 - freshPoolAlloc64.gBaseAddress) / sizeofBlkHdr x86_64))
      ((0x100000 + 13 - freshPoolAlloc64.gBaseAddress) % sizeofBlkHdr x86_64) = 72
    rw [g2]
    show BlkHdr.byte x86_64 (((freshPoolAlloc64.setResult MEM_BAD_ARG).setHdr 0x100000 0 _).hdr
      0x100000 0) 13 = 72
    rw [KState.hdr_setHdr]
    decide

/-- C14 (amended): on an enabled pool, for a non-null pointer and a size `n > 0`, the zero
fill of `MemResize` writes no byte, so that the data bytes after a call are those before it.
What a call writes to memory is the `Size` field of one header that records the pointer, to
which it adds `n`; every other field of that header, every other header and the links are as
before, and when the call returns `NULL` no block has changed.  The call returns as soon as a
slot is found or the chain has ended. -/
theorem C14_MemResize_stores (T : Target) (q n : Nat) (s : KState)
    (he : s.gAllocationEnabled = true) (hq : q ≠ NULL) (hn : 0 < n) :
    (∀ fuel p s', MemResize T fuel q n s = .ret p s' →
      s'.mem = s.mem ∧
      ((p = NULL ∧ s'.blocks = s.blocks) ∨
        (p = q ∧ ∃ c j, j < MEM_MAX_HEADERS ∧ (s.hdr c j).VirtualAddress = q ∧
          s'.hdr c j = { s.hdr c j with Size := addW T (s.hdr c j).Size n } ∧
          (∀ b i, ¬ (b = c ∧ i = j) → s'.hdr b i = s.hdr b i) ∧
          (∀ a, (s'.blocks a).Prev = (s.blocks a).Prev ∧
            (s'.blocks a).Next = (s.blocks a).Next)))) ∧
    (∀ k fuel, s.follow s.gBaseAddress k = NULL → k ≤ fuel →
      ∃ p s', MemResize T fuel q n s = .ret p s') := by
  constructor
  · intro fuel p s' h
    refine ⟨MemResize_mem T fuel q n s p s' h, ?_⟩
    rcases MemResize_effect T fuel q n s p s' h with ⟨g1, r, g2⟩ | ⟨g1, c, j, g2, g3, g4⟩
    · exact Or.inl ⟨g1, by rw [g2]; rfl⟩
    · refine Or.inr ⟨g1, c, j, g2, g3, ?_, ?_, ?_⟩
      · rw [g4]; simp
      · intro b i hbi
        rw [g4]; simp [hbi]
      · intro a
        rw [g4]; simp
  · intro k fuel hk hf
    have hn' : ¬ n = 0 := by omega
    have hdef : MemResize T fuel q n s =
        MemResize.walk T q n fuel s.gBaseAddress (s.setResult MEM_BAD_ARG) := by
      unfold MemResize
      simp only [KState.setResult_gAllocationEnabled, he, Bool.not_true, Bool.false_eq_true,
        if_false, hq, hn', KState.setResult_gBaseAddress]
    obtain ⟨p, s', hw⟩ := MemResize.walk_returns T q n k fuel s.gBaseAddress
      (s.setResult MEM_BAD_ARG) (by simpa using hk) hf
    exact ⟨p, s', hdef.trans hw⟩

/-- C14 (amended), at the state after `MemAlloc(64)` on the fresh pool, for the address it
returned: the call returns and the data bytes are as before. -/
theorem C14_MemResize_stores_witness :
    ∃ p s', MemResize x86_64 1 (0x100000 + 64 * sizeofMemBlk x86_64) 8 freshPoolAlloc64 =
      .ret p s' ∧ s'.mem = freshPoolAlloc64.mem := by
  have h := C14_MemResize_stores x86_64 (0x100000 + 64 * sizeofMemBlk x86_64) 8
    freshPoolAlloc64 freshPoolAlloc64_props.1 (by decide) (by decide)
  obtain ⟨p, s', hr⟩ := h.2 1 1
    (by
      show (freshPoolAlloc64.blocks freshPoolAlloc64.gBaseAddress).Next = NULL
      rw [freshPoolAlloc64_props.2.1]
      show ((MemReserveBlock x86_64 0x100000 0 64 (freshPool.setResult ERR_NULL)).2.blocks
        0x100000).Next = NULL
      rw [(MemReserveBlock_frame x86_64 0x100000 0 64 (freshPool.setResult ERR_NULL)).2.2.2.2.2]
      rfl)
    (le_refl _)
  exact ⟨p, s', hr, (h.1 1 p s' hr).1⟩

/-- C15 as stated fails: with the lock free and the recorded size of the slot at 0, a
reservation still returns `NULL` when the address it computes is 0, both for a null block with
request 0 and, on the 64-bit target, for the block at `0x100000` with the request
`0x6160FF9E9F0000`, whose address wraps around to 0; the slot is written all the same. -/
theorem C15_counterexample :
    freshPool.gAllocLock.bLocked = false ∧ (freshPool.hdr 0x100000 0).Size ≤ KIB * 4 ∧
    (freshPool.hdr NULL 0).Size ≤ KIB * 4 ∧
    (MemReserveBlock x86_64 NULL 0 0 freshPool).1 = NULL ∧
    (MemReserveBlock x86_64 0x100000 0 0x6160FF9E9F0000 freshPool).1 = NULL ∧
    ((MemReserveBlock x86_64 0x100000 0 0x6160FF9E9F0000 freshPool).2.hdr 0x100000 0).Used
      = true := by
  have h1 := MemReserveBlock_ok x86_64 NULL 0 0 freshPool rfl (by decide)
  have h2 := MemReserveBlock_ok x86_64 0x100000 0 0x6160FF9E9F0000 freshPool rfl (by decide)
  refine ⟨rfl, by decide, by decide, ?_, ?_, ?_⟩
  · rw [h1.1]; decide
  · rw [h2.1]; decide
  · rw [h2.2]

/-- C15 (amended): `MemReserveBlock` returns `NULL` exactly when the lock is held, or the
recorded size of the slot is over 4096, or the address it computes is itself 0; when the lock
is held no state changes, and when the size ceiling refuses the slot the only change to the
headers is that the slot's `Used` flag becomes true, with `Result = ERR_BAD_ACCESS`. -/
theorem C15_reserve_refused (T : Target) (block index Size : Nat) (s : KState) :
    ((MemReserveBlock T block index Size s).1 = NULL ↔
      (s.gAllocLock.bLocked = true ∨ KIB * 4 < (s.hdr block index).Size ∨
        blkAdd T block (adjustSize T Size) = NULL)) ∧
    (s.gAllocLock.bLocked = true → MemReserveBlock T block index Size s = (NULL, s)) ∧
    (s.gAllocLock.bLocked = false → KIB * 4 < (s.hdr block index).Size →
      MemReserveBlock T block index Size s =
        (NULL, (s.setHdr block index { s.hdr block index with Used := true }).setResult
          ERR_BAD_ACCESS)) := by
  refine ⟨?_, MemReserveBlock_locked T block index Size s,
    MemReserveBlock_poison T block index Size s⟩
  by_cases hl : s.gAllocLock.bLocked = true
  · rw [MemReserveBlock_locked T block index Size s hl]
    simp [hl]
  · have hl' : s.gAllocLock.bLocked = false := by simpa using hl
    by_cases hs : KIB * 4 < (s.hdr block index).Size
    · rw [MemReserveBlock_poison T block index Size s hl' hs]
      simp [hs]
    · rw [(MemReserveBlock_ok T block index Size s hl' (by omega)).1]
      simp [hl', hs]

/-- C15 (amended), at the fresh pool: held lock, and slot over the ceiling. -/
theorem C15_reserve_refused_witness :
    ((MemReserveBlock x86_64 0x100000 0 64 freshPool).1 = NULL ↔
      (freshPool.gAllocLock.bLocked = true ∨ KIB * 4 < (freshPool.hdr 0x100000 0).Size ∨
        blkAdd x86_64 0x100000 (adjustSize x86_64 64) = NULL)) ∧
    MemReserveBlock x86_64 0x100000 0 64
        (freshPool.setLock { bLocked := true, lastLockedSize := 0, lastLockedAddr := 0 }) =
      (NULL, freshPool.setLock { bLocked := true, lastLockedSize := 0, lastLockedAddr := 0 }) ∧
    MemReserveBlock x86_64 0x100000 0 64
        (freshPool.setHdr 0x100000 0 { freshHdr with Size := 5000 }) =
      (NULL, ((freshPool.setHdr 0x100000 0 { freshHdr with Size := 5000 }).setHdr 0x100000 0
        { freshHdr with Size := 5000, Used := true }).setResult ERR_BAD_ACCESS) :=
  ⟨(C15_reserve_refused x86_64 0x100000 0 64 freshPool).1,
    (C15_reserve_refused x86_64 0x100000 0 64
      (freshPool.setLock { bLocked := true, lastLockedSize := 0, lastLockedAddr := 0 })).2.1 rfl,
    (C15_reserve_refused x86_64 0x100000 0 64
      (freshPool.setHdr 0x100000 0 { freshHdr with Size := 5000 })).2.2 rfl (by
        rw [KState.hdr_setHdr]; decide)⟩

/-- C16: two states reached from `MemInit` in which `Used = false` and `Size = 0` part ways.
Right after `MemInit` over memory that was not cleared, slot 0 has `Used = false` and the size
5000 that the memory held, since `MemInit` resets `Used` and `Magic` only.  After `MemInit`
over zeroed memory and `MemAlloc(2^64 - 16)`, whose adjusted size wraps to 0, slot 0 has
`Used = true` and size 0. -/
theorem C16_used_and_size_part_ways :
    (∃ s1, MemInit x86_64 oneRegion dirtyBoot = .ret true s1 ∧ Reach x86_64 s1 s1 ∧
      (s1.hdr s1.gBaseAddress 0).Used = false ∧ (s1.hdr s1.gBaseAddress 0).Size = 5000) ∧
    (∃ s1 p s2, MemInit x86_64 oneRegion bootState = .ret true s1 ∧
      MemAlloc x86_64 1 (2 ^ 64 - 16) s1 = .ret p s2 ∧ Reach x86_64 s1 s2 ∧
      (s2.hdr s2.gBaseAddress 0).Used = true ∧ (s2.hdr s2.gBaseAddress 0).Size = 0) := by
  constructor
  · obtain ⟨s1, h1, _, _, _, _, _, h7⟩ := MemInit_ret x86_64 oneRegion dirtyBoot rfl
    refine ⟨s1, h1, Reach.start, ?_, ?_⟩
    · rw [h7 0 (by decide)]
    · rw [MemInit_Size x86_64 oneRegion dirtyBoot s1 h1]
      rfl
  · obtain ⟨s1, h1, h2, h3, _, h5, _, h7⟩ := MemInit_ret x86_64 oneRegion bootState rfl
    have hbase : s1.gBaseAddress = 0x100000 := by
      rw [h3, MemInit.scan_gBaseAddress oneRegion bootState rfl]
      rfl
    have hb : s1.gBaseAddress ≠ NULL := by rw [hbase]; decide
    have hm : s1.magicOk s1.gBaseAddress := by
      intro i hi
      rw [h7 i hi]
    have hs : (s1.hdr s1.gBaseAddress 0).Size = 0 := by
      rw [h7 0 (by decide)]
      rfl
    have hl : s1.gAllocLock.bLocked = false := by rw [h5]; rfl
    have ha := MemAlloc_slot0 x86_64 0 (2 ^ 64 - 16) s1 h2 (by decide) hb hm hl
      (by rw [hs]; decide) (by rw [hbase]; decide)
    obtain ⟨_, g2, _, _, g5⟩ := MemAlloc_slot0_again x86_64 (2 ^ 64 - 16) s1 h2 hm hl
      (by rw [hs]; decide)
    refine ⟨s1, _, _, h1, ha, Reach.next Reach.start (Step.alloc _ _ _ ha), ?_, ?_⟩
    · rw [g2, g5]
    · rw [g2, g5, hs]
      show addW x86_64 0 (adjustSize x86_64 (2 ^ 64 - 16)) = 0
      decide

/-- C17: on an enabled pool, for a non-null pointer `p` and `n > 0`, when some header of a
block on the chain records `p`, `MemResize(p, n)` returns `p` with `Result = ERR_SUCCESS`; in
the first such header in chain and index order it replaces `Size` by `Size + n` reduced to
the word range, and it leaves the address, `Used` flag and sentinel of that header, every
other header and the data bytes as they were. -/
theorem C17_MemResize_adds_size (T : Target) (fuel p n k i : Nat) (s : KState)
    (he : s.gAllocationEnabled = true) (hp : p ≠ NULL) (hn : 0 < n)
    (hk : ∀ j, j ≤ k → s.follow s.gBaseAddress j ≠ NULL) (hi : i < MEM_MAX_HEADERS)
    (hv : (s.hdr (s.follow s.gBaseAddress k) i).VirtualAddress = p) (hfuel : k < fuel) :
    ∃ k0 i0 s', k0 ≤ k ∧ i0 < MEM_MAX_HEADERS ∧
      (s.hdr (s.follow s.gBaseAddress k0) i0).VirtualAddress = p ∧
      (∀ j, j < k0 → ∀ i', i' < MEM_MAX_HEADERS →
        (s.hdr (s.follow s.gBaseAddress j) i').VirtualAddress ≠ p) ∧
      (∀ i', i' < i0 → (s.hdr (s.follow s.gBaseAddress k0) i').VirtualAddress ≠ p) ∧
      MemResize T fuel p n s = .ret p s' ∧ s'.Result = ERR_SUCCESS ∧
      s'.hdr (s.follow s.gBaseAddress k0) i0 =
        { s.hdr (s.follow s.gBaseAddress k0) i0 with
          Size := addW T (s.hdr (s.follow s.gBaseAddress k0) i0).Size n } ∧
      (∀ b j, ¬ (b = s.follow s.gBaseAddress k0 ∧ j = i0) → s'.hdr b j = s.hdr b j) ∧
      s'.mem = s.mem := by
  have hn' : ¬ n = 0 := by omega
  have hdef : MemResize T fuel p n s =
      MemResize.walk T p n fuel s.gBaseAddress (s.setResult MEM_BAD_ARG) := by
    unfold MemResize
    simp only [KState.setResult_gAllocationEnabled, he, Bool.not_true, Bool.false_eq_true,
      if_false, hp, hn', KState.setResult_gBaseAddress]
  obtain ⟨k0, i0, e1, e2, e3, e4, e5, e6⟩ := MemResize.walk_first T p n k i fuel s.gBaseAddress
    (s.setResult MEM_BAD_ARG) (by simpa using hk) hi (by simpa using hv) hfuel
  simp only [KState.follow_setResult, KState.hdr_setResult] at e3 e4 e5 e6
  refine ⟨k0, i0, _, e1, e2, e3, e4, e5, hdef.trans e6, rfl, ?_, ?_, rfl⟩
  · simp
  · intro b j hbj
    simp [hbj]

/-- C17, at the state after `MemAlloc(64)` on the fresh pool, resizing the address it
returned by 8. -/
theorem C17_MemResize_adds_size_witness :
    ∃ k0 i0 s', k0 ≤ 0 ∧ i0 < MEM_MAX_HEADERS ∧
      (freshPoolAlloc64.hdr (freshPoolAlloc64.follow freshPoolAlloc64.gBaseAddress k0)
        i0).VirtualAddress = 0x100000 + 64 * sizeofMemBlk x86_64 ∧
      (∀ j, j < k0 → ∀ i', i' < MEM_MAX_HEADERS →
        (freshPoolAlloc64.hdr (freshPoolAlloc64.follow freshPoolAlloc64.gBaseAddress j)
          i').VirtualAddress ≠ 0x100000 + 64 * sizeofMemBlk x86_64) ∧
      (∀ i', i' < i0 →
        (freshPoolAlloc64.hdr (freshPoolAlloc64.follow freshPoolAlloc64.gBaseAddress k0)
          i').VirtualAddress ≠ 0x100000 + 64 * sizeofMemBlk x86_64) ∧
      MemResize x86_64 1 (0x100000 + 64 * sizeofMemBlk x86_64) 8 freshPoolAlloc64 =
        .ret (0x100000 + 64 * sizeofMemBlk x86_64) s' ∧
      s'.Result = ERR_SUCCESS ∧
      s'.hdr (freshPoolAlloc64.follow freshPoolAlloc64.gBaseAddress k0) i0 =
        { freshPoolAlloc64.hdr (freshPoolAlloc64.follow freshPoolAlloc64.gBaseAddress k0) i0 with
          Size := addW x86_64
            (freshPoolAlloc64.hdr (freshPoolAlloc64.follow freshPoolAlloc64.gBaseAddress k0)
              i0).Size 8 } ∧
      (∀ b j, ¬ (b = freshPoolAlloc64.follow freshPoolAlloc64.gBaseAddress k0 ∧ j = i0) →
        s'.hdr b j = freshPoolAlloc64.hdr b j) ∧
      s'.mem = freshPoolAlloc64.mem :=
  C17_MemResize_adds_size x86_64 1 (0x100000 + 64 * sizeofMemBlk x86_64) 8 0 0
    freshPoolAlloc64 freshPoolAlloc64_props.1 (by decide) (by decide)
    (fun j hj => by
      have hj0 : j = 0 := by omega
      subst hj0
      show freshPoolAlloc64.gBaseAddress ≠ NULL
      rw [freshPoolAlloc64_props.2.1]
      decide)
    (by decide)
    (by
      show (freshPoolAlloc64.hdr freshPoolAlloc64.gBaseAddress 0).VirtualAddress = _
      rw [freshPoolAlloc64_props.2.1, freshPoolAlloc64_props.2.2.1])
    (by decide)

/-- C18: for a request `s` with `s + 4096` and `s + 16` below the word range, the size that
`MemReserveBlock` records (in the lock cache, and added to the slot) is `s + 16` when
`(s + 4096) & 16 == 16` and `s` otherwise; the test holds exactly when bit 4 of `s` is set,
the adjusted size has bit 4 clear and lies between `s` and `s + 16`. -/
theorem C18_adjusted_size (T : Target) (s : Nat) (h1 : s + 4096 < T.wordMod)
    (h2 : s + 16 < T.wordMod) :
    adjustSize T s = (if (s + 4096) &&& 16 = 16 then s + 16 else s) ∧
    ((s + 4096) &&& 16 = 16 ↔ s.testBit 4 = true) ∧
    (adjustSize T s).testBit 4 = false ∧ s ≤ adjustSize T s ∧ adjustSize T s ≤ s + 16 ∧
    ∀ block index (st : KState), st.gAllocLock.bLocked = false →
      (st.hdr block index).Size ≤ KIB * 4 →
      (MemReserveBlock T block index s st).2.gAllocLock.lastLockedSize = adjustSize T s ∧
      ((MemReserveBlock T block index s st).2.hdr block index).Size =
        addW T (st.hdr block index).Size (adjustSize T s) := by
  have hb : (s + 4096) / 16 % 2 = 1 ↔ s / 16 % 2 = 1 := by omega
  have h16 : (s + 16) % T.wordMod = s + 16 := Nat.mod_eq_of_lt h2
  have htest : (s + 4096) &&& 16 = 16 ↔ s / 16 % 2 = 1 := by
    rw [and_sixteen]
    constructor
    · intro h
      by_contra hc
      rw [if_neg (fun h' => hc (hb.mp h'))] at h
      cases h
    · intro h
      rw [if_pos (hb.mpr h)]
  have hadj := adjustSize_eq T s h1
  refine ⟨?_, ?_, ?_, ?_, ?_, ?_⟩
  · rw [hadj]
    by_cases hs : s / 16 % 2 = 1
    · rw [if_pos hs, if_pos (htest.mpr hs)]
    · rw [if_neg hs, if_neg (fun h => hs (htest.mp h))]
  · rw [htest, testBit_four]
    simp
  · rw [hadj, testBit_four]
    by_cases hs : s / 16 % 2 = 1
    · rw [if_pos hs]
      have : ¬ (s + 16) / 16 % 2 = 1 := by omega
      exact decide_eq_false this
    · rw [if_neg hs]
      exact decide_eq_false hs
  · rw [hadj]; split <;> omega
  · rw [hadj]; split <;> omega
  · intro block index st hl hs
    refine ⟨?_, ?_⟩
    · rw [(MemReserveBlock_cache T block index s st hl hs).1]
    · rw [(MemReserveBlock_ok T block index s st hl hs).2]

/-- C18, for the request 48 on the 64-bit target: bit 4 is set and 64 is recorded. -/
theorem C18_adjusted_size_witness :
    adjustSize x86_64 48 = (if (48 + 4096) &&& 16 = 16 then 48 + 16 else 48) ∧
    ((48 + 4096) &&& 16 = 16 ↔ Nat.testBit 48 4 = true) ∧
    (adjustSize x86_64 48).testBit 4 = false ∧ 48 ≤ adjustSize x86_64 48 ∧
    adjustSize x86_64 48 ≤ 48 + 16 ∧
    ∀ block index (st : KState), st.gAllocLock.bLocked = false →
      (st.hdr block index).Size ≤ KIB * 4 →
      (MemReserveBlock x86_64 block index 48 st).2.gAllocLock.lastLockedSize =
        adjustSize x86_64 48 ∧
      ((MemReserveBlock x86_64 block index 48 st).2.hdr block index).Size =
        addW x86_64 (st.hdr block index).Size (adjustSize x86_64 48) :=
  C18_adjusted_size x86_64 48 (by decide) (by decide)

/-- C19 as stated fails: on the 64-bit target the reservation of 64 bytes in the block at
`0x100000` returns `0x100000 + 64 * sizeof(MemBlk)`, not `0x100000 + 64`. -/
theorem C19_counterexample :
    adjustSize x86_64 64 = 64 ∧
    (MemReserveBlock x86_64 0x100000 0 64 freshPool).1 = 0x100000 + 64 * 10768 ∧
    (MemReserveBlock x86_64 0x100000 0 64 freshPool).1 ≠ 0x100000 + 64 := by
  have h := MemReserveBlock_ok x86_64 0x100000 0 64 freshPool rfl (by decide)
  refine ⟨by decide, ?_, ?_⟩
  · rw [h.1]; decide
  · rw [h.1]; decide

/-- C19 (amended): a successful `MemReserveBlock(block, i, s)` returns, stores in slot `i` and
stores in the last-address cache of the lock the address `block + adjusted size *
sizeof(MemBlk)`, reduced to the word range: the sum is pointer arithmetic on a `MemBlk*`.
The address depends on neither the slot index nor the state, hence not on earlier
reservations. -/
theorem C19_reserved_address (T : Target) (block index Size : Nat) (s : KState)
    (h : (MemReserveBlock T block index Size s).1 ≠ NULL) :
    (MemReserveBlock T block index Size s).1 =
      (block + adjustSize T Size * sizeofMemBlk T) % T.wordMod ∧
    ((MemReserveBlock T block index Size s).2.hdr block index).VirtualAddress =
      (MemReserveBlock T block index Size s).1 ∧
    (MemReserveBlock T block index Size s).2.gAllocLock.lastLockedAddr =
      (MemReserveBlock T block index Size s).1 ∧
    ∀ index' (s' : KState), (MemReserveBlock T block index' Size s').1 ≠ NULL →
      (MemReserveBlock T block index' Size s').1 = (MemReserveBlock T block index Size s).1 := by
  have hk := MemReserveBlock_ne_null T block index Size s h
  refine ⟨hk.1, hk.2.2, ?_, ?_⟩
  · by_cases hl : s.gAllocLock.bLocked = true
    · rw [MemReserveBlock_locked T block index Size s hl] at h
      exact absurd rfl h
    · have hl' : s.gAllocLock.bLocked = false := by simpa using hl
      by_cases hs : KIB * 4 < (s.hdr block index).Size
      · rw [MemReserveBlock_poison T block index Size s hl' hs] at h
        exact absurd rfl h
      · rw [(MemReserveBlock_cache T block index Size s hl' (by omega)).1, hk.1]
  · intro index' s' h'
    rw [(MemReserveBlock_ne_null T block index' Size s' h').1, hk.1]

/-- C19 (amended), at the fresh pool, slot 0 and 64 bytes. -/
theorem C19_reserved_address_witness :
    (MemReserveBlock x86_64 0x100000 0 64 freshPool).1 =
      (0x100000 + adjustSize x86_64 64 * sizeofMemBlk x86_64) % x86_64.wordMod ∧
    ((MemReserveBlock x86_64 0x100000 0 64 freshPool).2.hdr 0x100000 0).VirtualAddress =
      (MemReserveBlock x86_64 0x100000 0 64 freshPool).1 ∧
    (MemReserveBlock x86_64 0x100000 0 64 freshPool).2.gAllocLock.lastLockedAddr =
      (MemReserveBlock x86_64 0x100000 0 64 freshPool).1 ∧
    ∀ index' (s' : KState), (MemReserveBlock x86_64 0x100000 index' 64 s').1 ≠ NULL →
      (MemReserveBlock x86_64 0x100000 index' 64 s').1 =
        (MemReserveBlock x86_64 0x100000 0 64 freshPool).1 :=
  C19_reserved_address x86_64 0x100000 0 64 freshPool (by
    rw [(MemReserveBlock_ok x86_64 0x100000 0 64 freshPool rfl (by decide)).1]
    decide)

end AaronOS
